import Mathlib

/-!
# Pico Mandelbrot viewer: view-state engine and rasterizer

A shallow embedding of `pico_mandelbrot.c` and `ssd1306.c`.

Conventions of the embedding.

* `uint8_t`, `uint16_t`, `uint32_t` values are natural numbers; every place where
  the C code converts to a narrower unsigned type carries an explicit `% 2 ^ w`.
* `int` values are integers.  Signed overflow is undefined behaviour in C and is
  not modelled: the two `int` counters move by one per accepted button press.
* `float` and `double` values are rational numbers.  Every arithmetic operation
  computes the exact rational result and then applies the rounding function of
  its format, taken from a `FloatModel`.  `FloatModel.ideal` rounds nothing and
  is exact arithmetic.  Infinities and NaN do not exist in the model; the only
  divisors in the code are the non-zero constants 128, 64, 4084 and 4082.
* Conversions from integer types to `float` or `double` are exact: every integer
  the code converts is below `2 ^ 24` in magnitude, or is converted to `double`.
* The comparison `cabsf(z) <= 2` is evaluated on the exact modulus of the stored
  value, as `re * re + im * im <= 4`.
* Memory is flat: the history storage is a total map from indices to entries,
  the number of entries currently allocated is tracked beside it, and an access
  outside the allocation hits the addressed cell.  Such an access is undefined
  behaviour in C; statements that an entry is read back as it was written carry
  the hypothesis that the entry lies inside the allocation.
* `assert` aborts the program: functions that can reach a failing assertion
  return `Option`, with `none` for the abort.
-/

namespace PicoMandelbrot

/-! ## Constants of `ssd1306.h` -/

/-- Display height in pixels. -/
abbrev SSD1306_HEIGHT : Nat := 64

/-- Display width in pixels. -/
abbrev SSD1306_WIDTH : Nat := 128

/-- Height of a display page in pixels. -/
abbrev SSD1306_PAGE_HEIGHT : Nat := 8

/-- Number of display pages. -/
abbrev SSD1306_NUM_PAGES : Nat := SSD1306_HEIGHT / SSD1306_PAGE_HEIGHT

/-- Length of the framebuffer array in bytes. -/
abbrev SSD1306_BUF_LEN : Nat := SSD1306_NUM_PAGES * SSD1306_WIDTH * 2

/-- Iteration cap of the escape-time loop. -/
abbrev MAX_ITER : Nat := 80

/-! ## Floating point -/

/-- Rounding functions of the two floating-point formats the code computes in:
`f32` for `float` results and `f64` for `double` results. -/
structure FloatModel where
  f32 : ℚ → ℚ
  f64 : ℚ → ℚ

/-- Exact arithmetic: no operation rounds. -/
def FloatModel.ideal : FloatModel := ⟨id, id⟩

/-- The two properties of `float` rounding that statements about concrete pixels
rest on: rounding is monotone, and it leaves unchanged every dyadic rational
`m / 2 ^ e` with `|m| < 2 ^ 24` and `e <= 64` (all of them binary32 values). -/
def FloatModel.Faithful32 (R : FloatModel) : Prop :=
  Monotone R.f32 ∧
    ∀ (m : ℤ) (e : ℕ), |m| < 2 ^ 24 → e ≤ 64 → R.f32 ((m : ℚ) / 2 ^ e) = (m : ℚ) / 2 ^ e

/-- The `(int)` cast of a floating-point value: truncation toward zero. -/
def truncToInt (q : ℚ) : Int := if 0 ≤ q then ⌊q⌋ else ⌈q⌉

/-- A `float complex` value. -/
structure Cfloat where
  re : ℚ
  im : ℚ
deriving DecidableEq

/-! ## Framebuffer primitives (`ssd1306.c`) -/

/-- A byte array seen as memory: the byte stored at each offset. -/
abbrev Buffer := Nat → Nat

/-- The value of pixel `(x, y)`: bit `y % 8` of byte `(y / 8) * 128 + x`. -/
def getPixel (buf : Buffer) (x y : Nat) : Bool :=
  (buf ((y / 8) * SSD1306_WIDTH + x)).testBit (y % 8)

/-- `memset(buf, 0, SSD1306_BUF_LEN)`. -/
def memset_zero (buf : Buffer) : Buffer :=
  fun i => if i < SSD1306_BUF_LEN then 0 else buf i

/-- `memcpy(dst, src, SSD1306_BUF_LEN)`. -/
def memcpy (dst src : Buffer) : Buffer :=
  fun i => if i < SSD1306_BUF_LEN then src i else dst i

/-- `set_pixel(buf, x, y, on_)`.  The assertion on the coordinates aborts (`none`);
otherwise one byte is read, one bit of it is set or cleared, and the byte is
written back as a `uint8_t`. -/
def set_pixel (buf : Buffer) (x y : Int) (on_ : Bool) : Option Buffer :=
  if 0 ≤ x ∧ x < SSD1306_WIDTH ∧ 0 ≤ y ∧ y < SSD1306_HEIGHT then
    let bytes_per_row := SSD1306_WIDTH
    let byte_idx := (y.toNat / 8) * bytes_per_row + x.toNat
    let byte := buf byte_idx % 256
    let byte :=
      if on_ then (byte ||| (1 <<< (y.toNat % 8))) % 256
      else (byte &&& (0xFFFFFFFF - (1 <<< (y.toNat % 8)))) % 256
    some (Function.update buf byte_idx byte)
  else none

/-- The byte `set_pixel` stores over a byte `v` when it sets or clears bit `k`;
used to state what `set_pixel` returns. -/
def new_byte (v k : Nat) (on_ : Bool) : Nat :=
  if on_ then ((v % 256) ||| (1 <<< k)) % 256
  else ((v % 256) &&& (0xFFFFFFFF - (1 <<< k))) % 256

/-- First loop of `draw_cursor`: `for (uint8_t x = left; x < left + width; ++x)`,
drawing the top and bottom edges.  `fuel` bounds the number of iterations. -/
def draw_cursor_rows (top left width height : Nat) (on_ : Bool) :
    Nat → Nat → Buffer → Option Buffer
  | 0, _, _ => none
  | fuel + 1, x, buf =>
    if x < left + width then
      (set_pixel buf x top on_).bind fun b1 =>
      (set_pixel b1 x ((top : Int) + height - 1) on_).bind fun b2 =>
      draw_cursor_rows top left width height on_ fuel ((x + 1) % 256) b2
    else some buf

/-- Second loop of `draw_cursor`: `for (uint8_t y = top; y < top + height; ++y)`,
drawing the left and right edges. -/
def draw_cursor_cols (top left width height : Nat) (on_ : Bool) :
    Nat → Nat → Buffer → Option Buffer
  | 0, _, _ => none
  | fuel + 1, y, buf =>
    if y < top + height then
      (set_pixel buf left y on_).bind fun b1 =>
      (set_pixel b1 ((left : Int) + width - 1) y on_).bind fun b2 =>
      draw_cursor_cols top left width height on_ fuel ((y + 1) % 256) b2
    else some buf

/-- `draw_cursor(buf, top, left, width, height, on_)` with `uint8_t` arguments.
Each loop gets 256 iterations of fuel: an iteration that does not abort has its
counter below 128, so neither loop can use them up. -/
def draw_cursor (buf : Buffer) (top left width height : Nat) (on_ : Bool) : Option Buffer :=
  (draw_cursor_rows top left width height on_ 256 left buf).bind fun b =>
  draw_cursor_cols top left width height on_ 256 top b

/-! ## Escape-time rasterizer (`ssd1306.c`) -/

/-- One pass through the body of the loop in `mandelbrot`: `z = z * z + c`,
every product, sum and difference rounded to `float`. -/
def mandelbrot_step (R : FloatModel) (c z : Cfloat) : Cfloat :=
  let sq_re := R.f32 (R.f32 (z.re * z.re) - R.f32 (z.im * z.im))
  let sq_im := R.f32 (R.f32 (z.re * z.im) + R.f32 (z.im * z.re))
  ⟨R.f32 (sq_re + c.re), R.f32 (sq_im + c.im)⟩

/-- The test `cabsf(z) <= 2`. -/
def cabsf_le_2 (z : Cfloat) : Bool := decide (z.re * z.re + z.im * z.im ≤ 4)

/-- The loop `while (cabsf(z) <= 2 && n < MAX_ITER)` of `mandelbrot`; the first
argument is `MAX_ITER - n`, the number of iterations the counter still allows. -/
def mandelbrot_loop (R : FloatModel) (c : Cfloat) : Nat → Cfloat → Nat → Nat
  | 0, _, n => n
  | left + 1, z, n =>
    if cabsf_le_2 z then mandelbrot_loop R c left (mandelbrot_step R c z) (n + 1) else n

/-- `mandelbrot(c)`: the number of iterations run from `z = 0`. -/
def mandelbrot (R : FloatModel) (c : Cfloat) : Nat :=
  mandelbrot_loop R c MAX_ITER ⟨0, 0⟩ 0

/-- The globals `mandelbrot_cache` and `cached_real_start` .. `cached_im_end`. -/
structure RasterCache where
  mandelbrot_cache : Buffer
  cached_real_start : ℚ
  cached_real_end : ℚ
  cached_im_start : ℚ
  cached_im_end : ℚ

/-- The value `pixelOn` that `draw_mandelbrot` computes for pixel `(x, y)`. -/
def pixelOn (R : FloatModel) (real_start im_start stepX stepY : ℚ) (x y : Nat) : Bool :=
  let real := R.f32 (real_start + R.f32 ((x : ℚ) * stepX))
  let imag := R.f32 (im_start + R.f32 ((y : ℚ) * stepY))
  let m := mandelbrot R ⟨real, imag⟩
  decide (m = MAX_ITER)

/-- The nested pixel loops of `draw_mandelbrot`: `x` outer, `y` inner. -/
def draw_mandelbrot_loops (R : FloatModel) (real_start im_start stepX stepY : ℚ)
    (buf : Buffer) : Option Buffer :=
  (List.range SSD1306_WIDTH).foldlM (fun b (x : Nat) =>
    (List.range SSD1306_HEIGHT).foldlM (fun b (y : Nat) =>
      set_pixel b x y (pixelOn R real_start im_start stepX stepY x y)) b) buf

/-- `draw_mandelbrot(buf, real_start, real_end, im_start, im_end)`: on a cache hit
the cached bitmap is copied into `buf`; otherwise every pixel is computed, and
the bounds and the resulting buffer are stored in the cache. -/
def draw_mandelbrot (R : FloatModel) (buf : Buffer) (real_start real_end im_start im_end : ℚ)
    (k : RasterCache) : Option (Buffer × RasterCache) :=
  if real_start = k.cached_real_start ∧ real_end = k.cached_real_end ∧
      im_start = k.cached_im_start ∧ im_end = k.cached_im_end then
    some (memcpy buf k.mandelbrot_cache, k)
  else
    let stepX := R.f32 (R.f32 (real_end - real_start) / SSD1306_WIDTH)
    let stepY := R.f32 (R.f32 (im_end - im_start) / SSD1306_HEIGHT)
    (draw_mandelbrot_loops R real_start im_start stepX stepY buf).map fun b =>
      (b, { mandelbrot_cache := memcpy k.mandelbrot_cache b
            cached_real_start := real_start
            cached_real_end := real_end
            cached_im_start := im_start
            cached_im_end := im_end })

/-! ## View state (`pico_mandelbrot.c`) -/

/-- The struct `render_data_t`: one stored viewport. -/
structure render_data_t where
  real_start : ℚ
  real_end : ℚ
  im_start : ℚ
  im_end : ℚ
deriving DecidableEq

/-- Calls with an effect outside the program state, in the order they are made:
the framebuffer operations of a repaint, the display pushes with the bytes
pushed, and the two diagnostics printed by the button handler. -/
inductive Call where
  | memset
  | render (frame : List Nat)
  | draw_mandelbrot
  | draw_cursor
  | printf_cursor_size (n : Int)
  | printf_realloc_failure

/-- The global variables of `pico_mandelbrot.c` and `ssd1306.c`, the level of the
LED pin, the size of the allocation behind `render_data` (`none` when the pointer
is `NULL`), and the calls made so far. -/
structure State where
  last_time : Nat
  buf : Buffer
  real_start : ℚ
  real_end : ℚ
  im_start : ℚ
  im_end : ℚ
  temp_real_start : ℚ
  temp_real_end : ℚ
  temp_im_start : ℚ
  temp_im_end : ℚ
  new_x_position : Nat
  new_y_position : Nat
  temp_cursor_x_position : Nat
  temp_cursor_y_position : Nat
  new_height : Nat
  new_width : Nat
  new_cursor_size : Int
  temp_cursor_size : Nat
  cursor_button_status : Bool
  render_data : Int → render_data_t
  render_data_alloc : Option Nat
  render_data_count : Int
  led : Bool
  raster : RasterCache
  calls : List Call

/-- The four viewport bounds of a state as one record. -/
def State.viewport (s : State) : render_data_t :=
  ⟨s.real_start, s.real_end, s.im_start, s.im_end⟩

/-- `frame_area.buflen` as `calc_render_area_buflen` computes it in `main`. -/
def frame_area_buflen : Nat := (SSD1306_WIDTH - 1 - 0 + 1) * (SSD1306_NUM_PAGES - 1 - 0 + 1)

/-- The bytes `render(buf, &frame_area)` sends to the display. -/
def frame (buf : Buffer) : List Nat := (List.range frame_area_buflen).map buf

/-- The state in which `main` enters its idle loop: the initialisers of the
globals, the LED switched off by `setup_general`, ten history entries allocated
with contents `mem`, and the cleared buffer pushed once. -/
def init (mem : Int → render_data_t) : State where
  last_time := 0
  buf := fun _ => 0
  real_start := -2
  real_end := 1
  im_start := -3 / 2
  im_end := 3 / 2
  temp_real_start := 0
  temp_real_end := 0
  temp_im_start := 0
  temp_im_end := 0
  new_x_position := 0
  new_y_position := 0
  temp_cursor_x_position := 0
  temp_cursor_y_position := 0
  new_height := 0
  new_width := 0
  new_cursor_size := 0
  temp_cursor_size := 0
  cursor_button_status := true
  render_data := mem
  render_data_alloc := some 10
  render_data_count := -1
  led := false
  raster := ⟨fun _ => 0, 0, 0, 0, 0⟩
  calls := [Call.memset, Call.render (frame fun _ => 0)]

/-- `zoom_in(left, top, width, height)`. -/
def zoom_in (R : FloatModel) (left top width height : Nat) (s : State) : State :=
  let x0 : Nat := (left + width / 2) % 256
  let y0 : Nat := (top + height / 2) % 256
  let new_height_zoom : Int := (height / 2 : Nat)
  let new_width_zoom : Int := (width / 2 : Nat)
  let real_range := R.f32 (s.real_end - s.real_start)
  let im_range := R.f32 (s.im_end - s.im_start)
  let left_point : ℚ := ((x0 : Int) - new_width_zoom : Int)
  let right_point : ℚ := ((x0 : Int) + new_width_zoom : Int)
  let top_point : ℚ := ((y0 : Int) - new_height_zoom : Int)
  let bottom_point : ℚ := ((y0 : Int) + new_height_zoom : Int)
  let real_start := R.f32 (s.real_start + R.f32 (R.f32 (real_range * left_point) / SSD1306_WIDTH))
  let real_end :=
    R.f32 (real_start + R.f32 (R.f32 (R.f32 (right_point - left_point) * real_range) / SSD1306_WIDTH))
  let im_start := R.f32 (s.im_start + R.f32 (R.f32 (im_range * top_point) / SSD1306_HEIGHT))
  let im_end :=
    R.f32 (im_start + R.f32 (R.f32 (R.f32 (bottom_point - top_point) * im_range) / SSD1306_HEIGHT))
  { s with real_start := real_start, real_end := real_end, im_start := im_start, im_end := im_end }

/-- `undo_zoom_in(...)` (its arguments are unused).  `realloc_ok` tells whether
`realloc` returns a non-null pointer. -/
def undo_zoom_in (realloc_ok : Bool) (s : State) : State :=
  if 0 ≤ s.render_data_count ∧ s.render_data_count ≤ 10 then
    let s1 := { s with
      real_start := (s.render_data s.render_data_count).real_start
      real_end := (s.render_data s.render_data_count).real_end
      im_start := (s.render_data s.render_data_count).im_start
      im_end := (s.render_data s.render_data_count).im_end }
    if realloc_ok then
      { s1 with
        render_data_alloc := some s1.render_data_count.toNat
        render_data_count := s1.render_data_count - 1 }
    else
      { s1 with
        render_data_alloc := none
        calls := s1.calls ++ [Call.printf_realloc_failure] }
  else s

/-- What one invocation of the button interrupt handler observes: the clock, the
levels of the three buttons (`true` for a pressed button, which reads 0), and the
outcome of the `realloc` call it may make. -/
structure ButtonEvent where
  now : Nat
  button_a : Bool
  button_b : Bool
  sw : Bool
  realloc_ok : Bool

/-- The part of the handler for `BUTTON_A`. -/
def on_button_a (R : FloatModel) (s : State) : State :=
  if s.cursor_button_status then
    { s with new_cursor_size := s.new_cursor_size + 1 }
  else
    let s1 := { s with render_data_count := s.render_data_count + 1 }
    let s2 := { s1 with
      render_data := Function.update s1.render_data s1.render_data_count
        ⟨s1.real_start, s1.real_end, s1.im_start, s1.im_end⟩ }
    zoom_in R s2.new_x_position s2.new_y_position s2.new_width s2.new_height s2

/-- The part of the handler for `BUTTON_B`. -/
def on_button_b (realloc_ok : Bool) (s : State) : State :=
  if s.cursor_button_status then
    let n := s.new_cursor_size - 1
    let n := if n < 0 then 0 else n
    { s with new_cursor_size := n, calls := s.calls ++ [Call.printf_cursor_size n] }
  else
    undo_zoom_in realloc_ok s

/-- The part of the handler for `SW`. -/
def on_button_sw (s : State) : State :=
  { s with cursor_button_status := !s.cursor_button_status, led := !s.led }

/-- The body of the handler once the debounce test has passed. -/
def accepted_body (R : FloatModel) (e : ButtonEvent) (s : State) : State :=
  let s1 := if e.button_a then on_button_a R s else s
  let s2 := if e.button_b then on_button_b e.realloc_ok s1 else s1
  if e.sw then on_button_sw s2 else s2

/-- The debounce test `current_time - last_time > 200000` on `uint32_t` values. -/
def accepts (s : State) (now : Nat) : Bool :=
  decide ((now % 2 ^ 32 + 2 ^ 32 - s.last_time) % 2 ^ 32 > 200000)

/-- `button_interruption_gpio_irq_handler`. -/
def button_interruption_gpio_irq_handler (R : FloatModel) (e : ButtonEvent) (s : State) : State :=
  if accepts s e.now then
    accepted_body R e { s with last_time := e.now % 2 ^ 32 }
  else s

/-- The redraw test of `controller`. -/
def needs_repaint (x0 y0 : Nat) (s : State) : Bool :=
  decide (x0 ≠ s.temp_cursor_x_position ∨ y0 ≠ s.temp_cursor_y_position ∨
    s.new_cursor_size ≠ (s.temp_cursor_size : Int) ∨
    s.real_start ≠ s.temp_real_start ∨ s.real_end ≠ s.temp_real_end ∨
    s.im_start ≠ s.temp_im_start ∨ s.im_end ≠ s.temp_im_end)

/-- `controller(x0, y0)`; `none` when an assertion in a drawing primitive aborts. -/
def controller (R : FloatModel) (x0 y0 : Nat) (s : State) : Option State :=
  let s := { s with
    new_height := (s.new_cursor_size % 256).toNat
    new_width := (s.new_cursor_size % 256).toNat
    new_x_position := x0
    new_y_position := y0 }
  if needs_repaint x0 y0 s then
    let buf0 := memset_zero s.buf
    (draw_mandelbrot R buf0 s.real_start s.real_end s.im_start s.im_end s.raster).bind fun r =>
    (draw_cursor r.1 s.new_y_position s.new_x_position s.new_width s.new_height true).map fun b =>
    { s with
      buf := b
      raster := r.2
      calls := s.calls ++
        [Call.memset, Call.render (frame buf0), Call.draw_mandelbrot, Call.draw_cursor,
          Call.render (frame b)]
      temp_cursor_x_position := s.new_x_position
      temp_cursor_y_position := s.new_y_position
      temp_cursor_size := (s.new_cursor_size % 256).toNat
      temp_real_start := s.real_start
      temp_real_end := s.real_end
      temp_im_start := s.im_start
      temp_im_end := s.im_end }
  else some s

/-- The horizontal cursor position computed by the timer callback. -/
def x_cursor (R : FloatModel) (vry_value : Nat) (new_cursor_size : Int) : Nat :=
  (truncToInt (R.f64 (R.f64 ((vry_value : ℚ) / 4084) * R.f64 (127 - (new_cursor_size : ℚ)))) % 256).toNat

/-- The vertical cursor position computed by the timer callback. -/
def y_cursor (R : FloatModel) (vrx_value : Nat) (new_cursor_size : Int) : Nat :=
  (truncToInt (R.f64 (((63 - new_cursor_size : Int) : ℚ) -
    R.f64 (R.f64 ((vrx_value : ℚ) / 4082) * R.f64 (63 - (new_cursor_size : ℚ))))) % 256).toNat

/-- `controller_repeating_timer_callback` with the joystick readings it samples. -/
def controller_repeating_timer_callback (R : FloatModel) (vrx_value vry_value : Nat)
    (s : State) : Option State :=
  controller R (x_cursor R vry_value s.new_cursor_size) (y_cursor R vrx_value s.new_cursor_size) s

/-- What happens to the program after `main` has set it up: a button interrupt
or a timer tick with its joystick readings. -/
inductive Event where
  | button (e : ButtonEvent)
  | tick (vrx_value vry_value : Nat)

/-- One event. -/
def step (R : FloatModel) (ev : Event) (s : State) : Option State :=
  match ev with
  | Event.button e => some (button_interruption_gpio_irq_handler R e s)
  | Event.tick vrx vry => controller_repeating_timer_callback R vrx vry s

/-- A sequence of events, stopping at an abort. -/
def run (R : FloatModel) : List Event → State → Option State
  | [], s => some s
  | ev :: rest, s => (step R ev s).bind (run R rest)

/-- The states the program can be in after `main` has set it up. -/
def Reachable (R : FloatModel) (s : State) : Prop :=
  ∃ mem evs, run R evs (init mem) = some s

/-- A press of the `SW` button alone, seen by the handler at clock reading `now`. -/
def press_sw (now : Nat) : Event := Event.button ⟨now, false, false, true, true⟩

/-- A press of button A alone. -/
def press_a (now : Nat) : Event := Event.button ⟨now, true, false, false, true⟩

/-- A press of button B alone, the `realloc` it may trigger succeeding. -/
def press_b (now : Nat) : Event := Event.button ⟨now, false, true, false, true⟩

/-- The mode switch followed by twelve presses of button A, 300 ms apart. -/
def overflow_run : List Event :=
  press_sw 300000 :: (List.range 12).map (fun i => press_a (600000 + 300000 * i))

/-- Sixty-four presses of button A in the initial mode, 300 ms apart. -/
def grow_run : List Event :=
  (List.range 64).map (fun i => press_a (300000 + 300000 * i))

/-- History contents at startup used in concrete runs. -/
def mem0 : Int → render_data_t := fun _ => ⟨0, 0, 0, 0⟩

/-- The state `grow_run` leads to: cursor size 64, last press at 19.2 s. -/
def grown : State := { init mem0 with new_cursor_size := 64, last_time := 19200000 }

/-- The run to a ZoomAdjust state with a 64 by 64 cursor at the origin: `grow_run`,
a tick with the joystick at `(4082, 0)`, and the mode switch. -/
def zoom_prefix : List Event := grow_run ++ [Event.tick 4082 0, press_sw 19500000]

/-- The run `zoom_prefix` followed by `n` presses of button A, 300 ms apart. -/
def zoom_run (n : Nat) : List Event :=
  zoom_prefix ++ (List.range n).map (fun i => press_a (19800000 + 300000 * i))

/-! ## Pixel mapping of `draw_mandelbrot` -/

/-- The local `stepX` of `draw_mandelbrot`. -/
def stepX (R : FloatModel) (real_start real_end : ℚ) : ℚ :=
  R.f32 (R.f32 (real_end - real_start) / SSD1306_WIDTH)

/-- The local `stepY` of `draw_mandelbrot`. -/
def stepY (R : FloatModel) (im_start im_end : ℚ) : ℚ :=
  R.f32 (R.f32 (im_end - im_start) / SSD1306_HEIGHT)

/-- The local `real` of `draw_mandelbrot` for column `x`. -/
def pixel_real (R : FloatModel) (real_start stepX : ℚ) (x : Nat) : ℚ :=
  R.f32 (real_start + R.f32 ((x : ℚ) * stepX))

/-- The local `imag` of `draw_mandelbrot` for row `y`. -/
def pixel_imag (R : FloatModel) (im_start stepY : ℚ) (y : Nat) : ℚ :=
  R.f32 (im_start + R.f32 ((y : ℚ) * stepY))

/-- The local `c` of `draw_mandelbrot` for pixel `(x, y)` of a viewport. -/
def pixel_c (R : FloatModel) (real_start real_end im_start im_end : ℚ) (x y : Nat) : Cfloat :=
  ⟨pixel_real R real_start (stepX R real_start real_end) x,
    pixel_imag R im_start (stepY R im_start im_end) y⟩

/-- Following the spec's words, not the code: the orbit `z_0 = 0`,
`z_(k+1) = z_k ^ 2 + c` in complex arithmetic without rounding. -/
def orbit (c : Cfloat) : Nat → Cfloat
  | 0 => ⟨0, 0⟩
  | k + 1 =>
    ⟨(orbit c k).re * (orbit c k).re - (orbit c k).im * (orbit c k).im + c.re,
      2 * (orbit c k).re * (orbit c k).im + c.im⟩

/-- The mode switch, two presses of button A and one press of button B, 300 ms
apart: two zooms and one undo. -/
def shrink_run : List Event :=
  [press_sw 300000, press_a 600000, press_a 900000, press_b 1200000]

/-- The mode switch followed by ten presses of button A, 300 ms apart. -/
def fill_run : List Event :=
  press_sw 300000 :: (List.range 10).map (fun i => press_a (600000 + 300000 * i))

/-- The cache states `draw_mandelbrot` can be in: the zeroed state `main` starts
with, and the state after any further call. -/
inductive CacheReachable (R : FloatModel) : RasterCache → Prop
  | start : CacheReachable R ⟨fun _ => 0, 0, 0, 0, 0⟩
  | call (buf b : Buffer) (real_start real_end im_start im_end : ℚ) (k k1 : RasterCache) :
      CacheReachable R k →
      draw_mandelbrot R buf real_start real_end im_start im_end k = some (b, k1) →
      CacheReachable R k1

/-- The run of 256 presses of button A in the initial mode, 300 ms apart. -/
def wrap_run : List Event :=
  (List.range 256).map (fun i => press_a (300000 + 300000 * i))

/-- The state `wrap_run` leads to: cursor size 256, last press at 76.8 s. -/
def wrapped : State := { init mem0 with new_cursor_size := 256, last_time := 76800000 }

/-- One press of button A in the initial mode, a tick with the joystick at `(0, 0)`,
the mode switch, and a press of button A: a zoom on a cursor of one pixel. -/
def dot_run : List Event :=
  [press_a 300000, Event.tick 0 0, press_sw 600000, press_a 900000]

/-- A viewport with its bounds in order on both axes. -/
def ordered (v : render_data_t) : Prop :=
  v.real_start < v.real_end ∧ v.im_start < v.im_end

/-- The entry that a press of button A in ZoomAdjust mode writes,
`render_data[render_data_count + 1]`, lies inside the block `render_data` points
to: the pointer is not null, the index is not negative and it is below the
number of entries allocated. -/
def push_in_storage (s : State) : Bool :=
  match s.render_data_alloc with
  | some n => decide (0 ≤ s.render_data_count + 1 ∧ s.render_data_count + 1 < (n : Int))
  | none => false

/-- The history is inside its storage: the pointer is not null, the block has at
most the ten entries of `main`, and every entry the history counts (indices 0 to
`render_data_count`) lies in the block. -/
def StorageInvariant (s : State) : Prop :=
  ∃ n : Nat, s.render_data_alloc = some n ∧ n ≤ 10 ∧
    -1 ≤ s.render_data_count ∧ s.render_data_count + 1 ≤ (n : Int)

/-- The current viewport and every entry the history counts are in order, and the
history is inside its storage. -/
def ViewInvariant (s : State) : Prop :=
  ordered s.viewport ∧
    (∀ i, 0 ≤ i → i ≤ s.render_data_count → ordered (s.render_data i)) ∧
    StorageInvariant s

/-- The condition on one event under which the order of the bounds is kept: an
accepted event that zooms (button A in ZoomAdjust mode) finds a cursor at least
two pixels wide and high and pushes inside the storage of the history, and an
accepted event that undoes (button B in ZoomAdjust mode) has its `realloc`
succeed. -/
def zoom_ready (ev : Event) (s : State) : Bool :=
  match ev with
  | Event.button e =>
    (!(accepts s e.now && e.button_a && !s.cursor_button_status) ||
      (decide (2 ≤ s.new_width) && decide (2 ≤ s.new_height) && push_in_storage s)) &&
    (!(accepts s e.now && e.button_b && !s.cursor_button_status) || e.realloc_ok)
  | Event.tick _ _ => true

/-- The condition `zoom_ready` at every event of a run. -/
def run_ready (R : FloatModel) : List Event → State → Bool
  | [], _ => true
  | ev :: rest, s =>
    zoom_ready ev s &&
      match step R ev s with
      | some s1 => run_ready R rest s1
      | none => true

/-! ## Bits and pixels -/

set_option maxRecDepth 100000 in
/-- Setting bit `k` of a byte: bit `k` becomes 1, the other seven keep their value. -/
theorem byte_set_bit : ∀ b < 256, ∀ k < 8, ∀ j < 8,
    ((b ||| (1 <<< k)) % 256).testBit j = (if j = k then true else b.testBit j) := by
  decide

set_option maxRecDepth 100000 in
/-- Clearing bit `k` of a byte: bit `k` becomes 0, the other seven keep their value. -/
theorem byte_clear_bit : ∀ b < 256, ∀ k < 8, ∀ j < 8,
    ((b &&& (0xFFFFFFFF - (1 <<< k))) % 256).testBit j = (if j = k then false else b.testBit j) := by
  decide

/-- The low eight bits of a value are those of its `uint8_t` conversion. -/
theorem testBit_mod_256 (v j : Nat) (hj : j < 8) : (v % 256).testBit j = v.testBit j := by
  have h := Nat.testBit_mod_two_pow v 8 j
  simpa [hj] using h

theorem new_byte_testBit (v k j : Nat) (on_ : Bool) (hk : k < 8) (hj : j < 8) :
    (new_byte v k on_).testBit j = (if j = k then on_ else v.testBit j) := by
  have hv : v % 256 < 256 := Nat.mod_lt _ (by norm_num)
  cases on_
  · simp only [new_byte, Bool.false_eq_true, if_false]
    rw [byte_clear_bit _ hv k hk j hj, testBit_mod_256 v j hj]
  · simp only [new_byte, if_true]
    rw [byte_set_bit _ hv k hk j hj, testBit_mod_256 v j hj]

theorem new_byte_lt (v k : Nat) (on_ : Bool) : new_byte v k on_ < 256 := by
  unfold new_byte
  split <;> exact Nat.mod_lt _ (by norm_num)

/-- Inside the bitmap `set_pixel` does not abort and rewrites exactly one byte. -/
theorem set_pixel_eq (buf : Buffer) (x y : Nat) (on_ : Bool) (hx : x < 128) (hy : y < 64) :
    set_pixel buf x y on_ =
      some (Function.update buf (y / 8 * 128 + x) (new_byte (buf (y / 8 * 128 + x)) (y % 8) on_)) := by
  have h : (0 : Int) ≤ x ∧ (x : Int) < (SSD1306_WIDTH : Nat) ∧ (0 : Int) ≤ y ∧
      (y : Int) < (SSD1306_HEIGHT : Nat) := by
    refine ⟨by omega, ?_, by omega, ?_⟩ <;> simp <;> omega
  unfold set_pixel
  rw [if_pos h]
  simp only [Int.toNat_ofNat, new_byte]

/-- Outside the bitmap `set_pixel` aborts. -/
theorem set_pixel_eq_none (buf : Buffer) (x y : Int) (on_ : Bool)
    (h : ¬ (0 ≤ x ∧ x < 128 ∧ 0 ≤ y ∧ y < 64)) : set_pixel buf x y on_ = none := by
  unfold set_pixel
  rw [if_neg]
  simpa using h

/-- Two pixels of the bitmap share byte and bit only when they are the same pixel. -/
theorem pixel_addr_inj (x y x' y' : Nat) (hx : x < 128) (hx' : x' < 128)
    (h1 : y' / 8 * 128 + x' = y / 8 * 128 + x) (h2 : y' % 8 = y % 8) : x' = x ∧ y' = y := by
  omega

/-- Reading a pixel after one byte update made by `set_pixel`. -/
theorem getPixel_update (buf : Buffer) (x y x' y' : Nat) (on_ : Bool) (hx : x < 128)
    (hx' : x' < 128) :
    getPixel (Function.update buf (y / 8 * 128 + x) (new_byte (buf (y / 8 * 128 + x)) (y % 8) on_))
      x' y' = if x' = x ∧ y' = y then on_ else getPixel buf x' y' := by
  unfold getPixel
  by_cases ha : y' / 8 * 128 + x' = y / 8 * 128 + x
  · rw [show y' / 8 * SSD1306_WIDTH + x' = y / 8 * 128 + x from ha, Function.update_same,
      new_byte_testBit _ _ _ _ (Nat.mod_lt _ (by norm_num)) (Nat.mod_lt _ (by norm_num))]
    by_cases hb : y' % 8 = y % 8
    · have := pixel_addr_inj x y x' y' hx hx' ha hb
      simp [hb, this]
    · have hne : ¬ (x' = x ∧ y' = y) := fun h => hb (by rw [h.2])
      simp [hb, hne]
  · have hne : ¬ (x' = x ∧ y' = y) := fun h => ha (by rw [h.1, h.2])
    rw [show y' / 8 * SSD1306_WIDTH + x' = y' / 8 * 128 + x' from rfl,
      Function.update_noteq ha, if_neg hne]

/-! ## Drawing primitives -/

/-- `set_pixel` inside the bitmap: the new buffer, its pixels and its upper half. -/
theorem set_pixel_pixels (buf : Buffer) (x y : Nat) (on_ : Bool) (hx : x < 128) (hy : y < 64) :
    ∃ b, set_pixel buf x y on_ = some b ∧
      (∀ x' y', x' < 128 → getPixel b x' y' = if x' = x ∧ y' = y then on_ else getPixel buf x' y') ∧
      (∀ i, 1024 ≤ i → b i = buf i) := by
  refine ⟨_, set_pixel_eq buf x y on_ hx hy, ?_, ?_⟩
  · intro x' y' hx'
    exact getPixel_update buf x y x' y' on_ hx hx'
  · intro i hi
    exact Function.update_noteq (by omega) _ _

theorem draw_cursor_rows_spec (top left width height : Nat) (on_ : Bool)
    (hh : 1 ≤ height) (hl : left + width ≤ 128) (ht : top + height ≤ 64) :
    ∀ n fuel x buf, left + width - x = n → n < fuel →
      ∃ b, draw_cursor_rows top left width height on_ fuel x buf = some b ∧
        (∀ x' y', x' < 128 → getPixel b x' y' =
          if x ≤ x' ∧ x' < left + width ∧ (y' = top ∨ y' = top + height - 1) then on_
          else getPixel buf x' y') ∧
        (∀ i, 1024 ≤ i → b i = buf i) := by
  intro n
  induction n with
  | zero =>
    intro fuel x buf hn hf
    obtain ⟨f, rfl⟩ : ∃ f, fuel = f + 1 := ⟨fuel - 1, by omega⟩
    have hx : ¬ x < left + width := by omega
    refine ⟨buf, by simp [draw_cursor_rows, hx], ?_, fun _ _ => rfl⟩
    intro x' y' _
    rw [if_neg]
    omega
  | succ n ih =>
    intro fuel x buf hn hf
    obtain ⟨f, rfl⟩ : ∃ f, fuel = f + 1 := ⟨fuel - 1, by omega⟩
    have hx : x < left + width := by omega
    obtain ⟨b1, e1, p1, u1⟩ := set_pixel_pixels buf x top on_ (by omega) (by omega)
    have hcast : ((top : Int) + height - 1) = ((top + height - 1 : Nat) : Int) := by omega
    obtain ⟨b2, e2, p2, u2⟩ := set_pixel_pixels b1 x (top + height - 1) on_ (by omega) (by omega)
    have hwrap : (x + 1) % 256 = x + 1 := Nat.mod_eq_of_lt (by omega)
    obtain ⟨b, e, p, u⟩ := ih f (x + 1) b2 (by omega) (by omega)
    refine ⟨b, ?_, ?_, ?_⟩
    · simp only [draw_cursor_rows, hx, if_true, e1, Option.some_bind, hcast, e2, hwrap, e]
    · intro x' y' hx'
      rw [p x' y' hx', p2 x' y' hx', p1 x' y' hx']
      by_cases h1 : x' = x
      · subst h1
        by_cases h2 : y' = top <;> by_cases h3 : y' = top + height - 1 <;> simp [h2, h3, hx]
      · by_cases h2 : x + 1 ≤ x' ∧ x' < left + width ∧ (y' = top ∨ y' = top + height - 1)
        · rw [if_pos h2, if_pos ⟨by omega, h2.2⟩]
        · rw [if_neg h2, if_neg (fun h => h1 h.1), if_neg (fun h => h1 h.1), if_neg]
          intro h
          exact h2 ⟨by omega, h.2⟩
    · intro i hi
      rw [u i hi, u2 i hi, u1 i hi]

theorem draw_cursor_cols_spec (top left width height : Nat) (on_ : Bool)
    (hw : 1 ≤ width) (hl : left + width ≤ 128) (ht : top + height ≤ 64) :
    ∀ n fuel y buf, top + height - y = n → n < fuel →
      ∃ b, draw_cursor_cols top left width height on_ fuel y buf = some b ∧
        (∀ x' y', x' < 128 → getPixel b x' y' =
          if y ≤ y' ∧ y' < top + height ∧ (x' = left ∨ x' = left + width - 1) then on_
          else getPixel buf x' y') ∧
        (∀ i, 1024 ≤ i → b i = buf i) := by
  intro n
  induction n with
  | zero =>
    intro fuel y buf hn hf
    obtain ⟨f, rfl⟩ : ∃ f, fuel = f + 1 := ⟨fuel - 1, by omega⟩
    have hy : ¬ y < top + height := by omega
    refine ⟨buf, by simp [draw_cursor_cols, hy], ?_, fun _ _ => rfl⟩
    intro x' y' _
    rw [if_neg]
    omega
  | succ n ih =>
    intro fuel y buf hn hf
    obtain ⟨f, rfl⟩ : ∃ f, fuel = f + 1 := ⟨fuel - 1, by omega⟩
    have hy : y < top + height := by omega
    obtain ⟨b1, e1, p1, u1⟩ := set_pixel_pixels buf left y on_ (by omega) (by omega)
    have hcast : ((left : Int) + width - 1) = ((left + width - 1 : Nat) : Int) := by omega
    obtain ⟨b2, e2, p2, u2⟩ := set_pixel_pixels b1 (left + width - 1) y on_ (by omega) (by omega)
    have hwrap : (y + 1) % 256 = y + 1 := Nat.mod_eq_of_lt (by omega)
    obtain ⟨b, e, p, u⟩ := ih f (y + 1) b2 (by omega) (by omega)
    refine ⟨b, ?_, ?_, ?_⟩
    · simp only [draw_cursor_cols, hy, if_true, e1, Option.some_bind, hcast, e2, hwrap, e]
    · intro x' y' hx'
      rw [p x' y' hx', p2 x' y' hx', p1 x' y' hx']
      by_cases h1 : y' = y
      · subst h1
        by_cases h2 : x' = left <;> by_cases h3 : x' = left + width - 1 <;> simp [h2, h3, hy]
      · by_cases h2 : y + 1 ≤ y' ∧ y' < top + height ∧ (x' = left ∨ x' = left + width - 1)
        · rw [if_pos h2, if_pos ⟨by omega, h2.2⟩]
        · rw [if_neg h2, if_neg (fun h => h1 h.2), if_neg (fun h => h1 h.2), if_neg]
          intro h
          exact h2 ⟨by omega, h.2⟩
    · intro i hi
      rw [u i hi, u2 i hi, u1 i hi]

/-- Both loops of `draw_cursor` on a rectangle inside the bitmap: the call returns,
the perimeter pixels take the value `on_`, every other pixel keeps its value. -/
theorem draw_cursor_pixels (buf : Buffer) (top left width height : Nat) (on_ : Bool)
    (hw : 1 ≤ width) (hh : 1 ≤ height) (hl : left + width ≤ 128) (ht : top + height ≤ 64) :
    ∃ b, draw_cursor buf top left width height on_ = some b ∧
      (∀ x y, x < 128 → y < 64 →
        getPixel b x y =
          if ((y = top ∨ y = top + height - 1) ∧ left ≤ x ∧ x < left + width) ∨
              ((x = left ∨ x = left + width - 1) ∧ top ≤ y ∧ y < top + height) then on_
          else getPixel buf x y) ∧
      (∀ i, 1024 ≤ i → b i = buf i) := by
  obtain ⟨b1, e1, p1, u1⟩ := draw_cursor_rows_spec top left width height on_ hh hl ht
    (left + width - left) 256 left buf rfl (by omega)
  obtain ⟨b2, e2, p2, u2⟩ := draw_cursor_cols_spec top left width height on_ hw hl ht
    (top + height - top) 256 top b1 rfl (by omega)
  refine ⟨b2, by simp [draw_cursor, e1, e2], ?_, fun i hi => by rw [u2 i hi, u1 i hi]⟩
  intro x y hx _
  rw [p2 x y hx, p1 x y hx]
  by_cases hc : top ≤ y ∧ y < top + height ∧ (x = left ∨ x = left + width - 1)
  · rw [if_pos hc, if_pos]
    exact Or.inr ⟨hc.2.2, hc.1, hc.2.1⟩
  · rw [if_neg hc]
    by_cases hr : left ≤ x ∧ x < left + width ∧ (y = top ∨ y = top + height - 1)
    · rw [if_pos hr, if_pos]
      exact Or.inl ⟨hr.2.2, hr.1, hr.2.1⟩
    · rw [if_neg hr, if_neg]
      rintro (h | h)
      · exact hr ⟨h.2.1, h.2.2, h.1⟩
      · exact hc ⟨h.2.1, h.2.2, h.1⟩

/-! ## Rasterizer -/

/-- One column of the pixel loops: every listed pixel of column `x` gets its value. -/
theorem column_fold (g : Nat → Bool) (x : Nat) (hx : x < 128) :
    ∀ (ys : List Nat) (buf : Buffer), (∀ y ∈ ys, y < 64) →
      ∃ b, ys.foldlM (fun b (y : Nat) => set_pixel b x y (g y)) buf = some b ∧
        (∀ x' y', x' < 128 → getPixel b x' y' =
          if x' = x ∧ y' ∈ ys then g y' else getPixel buf x' y') ∧
        (∀ i, 1024 ≤ i → b i = buf i) := by
  intro ys
  induction ys with
  | nil =>
    intro buf _
    exact ⟨buf, rfl, by simp, fun _ _ => rfl⟩
  | cons y ys ih =>
    intro buf hys
    obtain ⟨b1, e1, p1, u1⟩ := set_pixel_pixels buf x y (g y) hx (hys y (List.mem_cons_self _ _))
    obtain ⟨b, e, p, u⟩ := ih b1 (fun y' hy' => hys y' (List.mem_cons_of_mem _ hy'))
    refine ⟨b, ?_, ?_, fun i hi => by rw [u i hi, u1 i hi]⟩
    · rw [List.foldlM_cons, e1]
      exact e
    · intro x' y' hx'
      rw [p x' y' hx', p1 x' y' hx']
      by_cases h1 : x' = x ∧ y' ∈ ys
      · rw [if_pos h1, if_pos ⟨h1.1, List.mem_cons_of_mem _ h1.2⟩]
      · rw [if_neg h1]
        by_cases h2 : x' = x ∧ y' = y
        · rw [if_pos h2, if_pos ⟨h2.1, by rw [h2.2]; exact List.mem_cons_self _ _⟩, h2.2]
        · rw [if_neg h2, if_neg]
          rintro ⟨hx1, hm⟩
          rcases List.mem_cons.mp hm with h | h
          · exact h2 ⟨hx1, h⟩
          · exact h1 ⟨hx1, h⟩

/-- The pixel loops over listed columns and rows. -/
theorem grid_fold (g : Nat → Nat → Bool) (ys : List Nat) (hys : ∀ y ∈ ys, y < 64) :
    ∀ (xs : List Nat) (buf : Buffer), (∀ x ∈ xs, x < 128) →
      ∃ b, xs.foldlM (fun b (x : Nat) =>
          ys.foldlM (fun b (y : Nat) => set_pixel b x y (g x y)) b) buf = some b ∧
        (∀ x' y', x' < 128 → getPixel b x' y' =
          if x' ∈ xs ∧ y' ∈ ys then g x' y' else getPixel buf x' y') ∧
        (∀ i, 1024 ≤ i → b i = buf i) := by
  intro xs
  induction xs with
  | nil =>
    intro buf _
    exact ⟨buf, rfl, by simp, fun _ _ => rfl⟩
  | cons x xs ih =>
    intro buf hxs
    obtain ⟨b1, e1, p1, u1⟩ := column_fold (g x) x (hxs x (List.mem_cons_self _ _)) ys buf hys
    obtain ⟨b, e, p, u⟩ := ih b1 (fun x' hx' => hxs x' (List.mem_cons_of_mem _ hx'))
    refine ⟨b, ?_, ?_, fun i hi => by rw [u i hi, u1 i hi]⟩
    · rw [List.foldlM_cons, e1]
      exact e
    · intro x' y' hx'
      rw [p x' y' hx', p1 x' y' hx']
      by_cases h1 : x' ∈ xs ∧ y' ∈ ys
      · rw [if_pos h1, if_pos ⟨List.mem_cons_of_mem _ h1.1, h1.2⟩]
      · rw [if_neg h1]
        by_cases h2 : x' = x ∧ y' ∈ ys
        · rw [if_pos h2, if_pos ⟨by rw [h2.1]; exact List.mem_cons_self _ _, h2.2⟩, h2.1]
        · rw [if_neg h2, if_neg]
          rintro ⟨hm, hy⟩
          rcases List.mem_cons.mp hm with h | h
          · exact h2 ⟨h, hy⟩
          · exact h1 ⟨h, hy⟩

/-- The pixel loops of `draw_mandelbrot` never abort and give every pixel of the
bitmap its computed value; the upper half of the buffer is left alone. -/
theorem draw_mandelbrot_loops_spec (R : FloatModel) (real_start im_start stepX stepY : ℚ)
    (buf : Buffer) :
    ∃ b, draw_mandelbrot_loops R real_start im_start stepX stepY buf = some b ∧
      (∀ x y, x < 128 → y < 64 →
        getPixel b x y = pixelOn R real_start im_start stepX stepY x y) ∧
      (∀ i, 1024 ≤ i → b i = buf i) := by
  obtain ⟨b, e, p, u⟩ := grid_fold (pixelOn R real_start im_start stepX stepY)
    (List.range SSD1306_HEIGHT) (fun y hy => List.mem_range.mp hy)
    (List.range SSD1306_WIDTH) buf (fun x hx => List.mem_range.mp hx)
  refine ⟨b, e, ?_, u⟩
  intro x y hx hy
  rw [p x y hx, if_pos ⟨List.mem_range.mpr hx, List.mem_range.mpr hy⟩]

theorem ideal_faithful32 : FloatModel.Faithful32 FloatModel.ideal :=
  ⟨fun _ _ h => h, fun _ _ _ _ => rfl⟩

/-- While an invariant that implies `cabsf(z) <= 2` holds, the loop of `mandelbrot`
runs until its counter stops it. -/
theorem mandelbrot_loop_of_invariant (R : FloatModel) (c : Cfloat) (I : Cfloat → Prop)
    (hI : ∀ z, I z → cabsf_le_2 z = true) (hstep : ∀ z, I z → I (mandelbrot_step R c z)) :
    ∀ fuel z n, I z → mandelbrot_loop R c fuel z n = n + fuel := by
  intro fuel
  induction fuel with
  | zero => intro z n _; rfl
  | succ f ih =>
    intro z n hz
    rw [mandelbrot_loop, if_pos (hI z hz), ih _ _ (hstep z hz)]
    omega

theorem faithful_fix (R : FloatModel) (h : R.Faithful32) (m : ℤ) (e : ℕ) (q : ℚ)
    (hm : |m| < 2 ^ 24) (he : e ≤ 64) (hq : q = (m : ℚ) / 2 ^ e) : R.f32 q = q := by
  rw [hq]
  exact h.2 m e hm he

/-- The orbit of `c = -1/2` stays real and inside `[-1/2, 0]`. -/
theorem orbit_minus_half (R : FloatModel) (h : R.Faithful32) (z : Cfloat)
    (hz : z.im = 0 ∧ -1 / 2 ≤ z.re ∧ z.re ≤ 0) :
    (mandelbrot_step R ⟨-1 / 2, 0⟩ z).im = 0 ∧ -1 / 2 ≤ (mandelbrot_step R ⟨-1 / 2, 0⟩ z).re ∧
      (mandelbrot_step R ⟨-1 / 2, 0⟩ z).re ≤ 0 := by
  obtain ⟨him, hlo, hhi⟩ := hz
  have f0 : R.f32 0 = 0 := faithful_fix R h 0 0 0 (by norm_num) (by norm_num) (by norm_num)
  have fq : R.f32 (1 / 4) = 1 / 4 :=
    faithful_fix R h 1 2 _ (by norm_num) (by norm_num) (by norm_num)
  have fh : R.f32 (-1 / 2) = -1 / 2 :=
    faithful_fix R h (-1) 1 _ (by norm_num) (by norm_num) (by norm_num)
  have fmq : R.f32 (-1 / 4) = -1 / 4 :=
    faithful_fix R h (-1) 2 _ (by norm_num) (by norm_num) (by norm_num)
  have lo : ∀ a x, R.f32 a = a → a ≤ x → a ≤ R.f32 x := fun a x ha hx => by
    have := h.1 hx
    rwa [ha] at this
  have hi : ∀ a x, R.f32 a = a → x ≤ a → R.f32 x ≤ a := fun a x ha hx => by
    have := h.1 hx
    rwa [ha] at this
  have a0 : 0 ≤ R.f32 (z.re * z.re) := lo 0 _ f0 (mul_self_nonneg _)
  have a1 : R.f32 (z.re * z.re) ≤ 1 / 4 := hi (1 / 4) _ fq (by nlinarith)
  have b0 : 0 ≤ R.f32 (R.f32 (z.re * z.re) - 0) := lo 0 _ f0 (by linarith)
  have b1 : R.f32 (R.f32 (z.re * z.re) - 0) ≤ 1 / 4 := hi (1 / 4) _ fq (by linarith)
  simp only [mandelbrot_step, him, mul_zero, zero_mul, f0, add_zero]
  exact ⟨trivial, lo (-1 / 2) _ fh (by linarith),
    le_trans (hi (-1 / 4) _ fmq (by linarith)) (by norm_num)⟩

theorem mandelbrot_minus_half (R : FloatModel) (h : R.Faithful32) :
    mandelbrot R ⟨-1 / 2, 0⟩ = MAX_ITER := by
  have := mandelbrot_loop_of_invariant R ⟨-1 / 2, 0⟩
    (fun z => z.im = 0 ∧ -1 / 2 ≤ z.re ∧ z.re ≤ 0)
    (fun z hz => by
      obtain ⟨him, hlo, hhi⟩ := hz
      simp only [cabsf_le_2, him, mul_zero, add_zero, decide_eq_true_eq]
      nlinarith)
    (fun z hz => orbit_minus_half R h z hz) MAX_ITER ⟨0, 0⟩ 0 ⟨rfl, by norm_num, le_refl _⟩
  rw [mandelbrot, this, Nat.zero_add]

theorem mandelbrot_corner (R : FloatModel) (h : R.Faithful32) :
    mandelbrot R ⟨-2, -3 / 2⟩ = 1 := by
  have f0 : R.f32 0 = 0 := faithful_fix R h 0 0 0 (by norm_num) (by norm_num) (by norm_num)
  have f2 : R.f32 (-2) = -2 :=
    faithful_fix R h (-2) 0 _ (by norm_num) (by norm_num) (by norm_num)
  have f3 : R.f32 (-3 / 2) = -3 / 2 :=
    faithful_fix R h (-3) 1 _ (by norm_num) (by norm_num) (by norm_num)
  have h0 : cabsf_le_2 ⟨0, 0⟩ = true := by simp [cabsf_le_2]
  have h1 : cabsf_le_2 ⟨-2, -3 / 2⟩ = false := by
    simp only [cabsf_le_2, decide_eq_false_iff_not]
    norm_num
  have hs : mandelbrot_step R ⟨-2, -3 / 2⟩ ⟨0, 0⟩ = ⟨-2, -3 / 2⟩ := by
    simp only [mandelbrot_step, mul_zero, f0, sub_zero, add_zero, zero_add, f2, f3]
  rw [mandelbrot, show MAX_ITER = 79 + 1 from rfl, mandelbrot_loop, if_pos h0, hs,
    show (79 : Nat) = 78 + 1 from rfl, mandelbrot_loop, h1]
  rfl

/-- A cache miss: the call returns, every pixel of the bitmap holds its computed
value, and the cache holds the bounds and a copy of the buffer. -/
theorem draw_mandelbrot_miss (R : FloatModel) (buf : Buffer)
    (real_start real_end im_start im_end : ℚ) (k : RasterCache)
    (hmiss : ¬ (real_start = k.cached_real_start ∧ real_end = k.cached_real_end ∧
      im_start = k.cached_im_start ∧ im_end = k.cached_im_end)) :
    ∃ b, draw_mandelbrot R buf real_start real_end im_start im_end k =
        some (b, ⟨memcpy k.mandelbrot_cache b, real_start, real_end, im_start, im_end⟩) ∧
      (∀ x y, x < 128 → y < 64 → getPixel b x y =
        pixelOn R real_start im_start (R.f32 (R.f32 (real_end - real_start) / SSD1306_WIDTH))
          (R.f32 (R.f32 (im_end - im_start) / SSD1306_HEIGHT)) x y) ∧
      (∀ i, 1024 ≤ i → b i = buf i) := by
  obtain ⟨b, e, p, u⟩ := draw_mandelbrot_loops_spec R real_start im_start
    (R.f32 (R.f32 (real_end - real_start) / SSD1306_WIDTH))
    (R.f32 (R.f32 (im_end - im_start) / SSD1306_HEIGHT)) buf
  refine ⟨b, ?_, p, u⟩
  simp only [draw_mandelbrot, if_neg hmiss, e, Option.map_some']

/-- A cache hit: the cached bitmap is copied and the cache is left alone. -/
theorem draw_mandelbrot_hit (R : FloatModel) (buf : Buffer)
    (real_start real_end im_start im_end : ℚ) (k : RasterCache)
    (hhit : real_start = k.cached_real_start ∧ real_end = k.cached_real_end ∧
      im_start = k.cached_im_start ∧ im_end = k.cached_im_end) :
    draw_mandelbrot R buf real_start real_end im_start im_end k =
      some (memcpy buf k.mandelbrot_cache, k) := by
  simp only [draw_mandelbrot, if_pos hhit]

/-! ## Runs and reachable states -/

theorem run_append (R : FloatModel) (evs1 evs2 : List Event) (s : State) :
    run R (evs1 ++ evs2) s = (run R evs1 s).bind (run R evs2) := by
  induction evs1 generalizing s with
  | nil => rfl
  | cons ev rest ih =>
    simp only [List.cons_append, run]
    cases step R ev s with
    | none => rfl
    | some s1 => simpa using ih s1

theorem reachable_init (R : FloatModel) (mem : Int → render_data_t) : Reachable R (init mem) :=
  ⟨mem, [], rfl⟩

theorem reachable_step (R : FloatModel) (s s1 : State) (ev : Event) (h : Reachable R s)
    (hs : step R ev s = some s1) : Reachable R s1 := by
  obtain ⟨mem, evs, h⟩ := h
  refine ⟨mem, evs ++ [ev], ?_⟩
  rw [run_append, h]
  simp [run, hs]

theorem reachable_button (R : FloatModel) (s : State) (e : ButtonEvent) (h : Reachable R s) :
    Reachable R (button_interruption_gpio_irq_handler R e s) :=
  reachable_step R s _ (Event.button e) h rfl

/-- Induction over the reachable states. -/
theorem reachable_induction (R : FloatModel) (P : State → Prop)
    (h0 : ∀ mem, P (init mem))
    (hstep : ∀ s ev s1, P s → step R ev s = some s1 → P s1) :
    ∀ s, Reachable R s → P s := by
  rintro s ⟨mem, evs, h⟩
  have key : ∀ (evs : List Event) (s0 s : State), P s0 → run R evs s0 = some s → P s := by
    intro evs
    induction evs with
    | nil =>
      intro s0 s hp hr
      simp only [run, Option.some.injEq] at hr
      exact hr ▸ hp
    | cons ev rest ih =>
      intro s0 s hp hr
      simp only [run] at hr
      cases hs : step R ev s0 with
      | none => simp [hs] at hr
      | some s1 =>
        rw [hs] at hr
        exact ih s1 s (hstep s0 ev s1 hp hs) hr
  exact key evs (init mem) s (h0 mem) h

/-- `controller` changes neither the cursor size nor anything the button handler
reads or writes besides the cursor geometry. -/
theorem controller_size (R : FloatModel) (x y : Nat) (s s1 : State)
    (h : controller R x y s = some s1) : s1.new_cursor_size = s.new_cursor_size := by
  unfold controller at h
  simp only at h
  split at h
  · simp only [Option.bind_eq_some, Option.map_eq_some'] at h
    obtain ⟨r, -, b, -, rfl⟩ := h
    rfl
  · simp only [Option.some.injEq] at h
    rw [← h]

theorem on_button_a_size (R : FloatModel) (s : State) :
    (on_button_a R s).new_cursor_size =
      if s.cursor_button_status then s.new_cursor_size + 1 else s.new_cursor_size := by
  unfold on_button_a
  split <;> rfl

theorem undo_zoom_in_size (ok : Bool) (s : State) :
    (undo_zoom_in ok s).new_cursor_size = s.new_cursor_size := by
  unfold undo_zoom_in
  split
  · cases ok <;> rfl
  · rfl

theorem on_button_b_size (ok : Bool) (s : State) :
    (on_button_b ok s).new_cursor_size =
      if s.cursor_button_status then
        (if s.new_cursor_size - 1 < 0 then 0 else s.new_cursor_size - 1)
      else s.new_cursor_size := by
  unfold on_button_b
  split
  · rfl
  · exact undo_zoom_in_size ok s

theorem on_button_a_size_nonneg (R : FloatModel) (s : State) (h : 0 ≤ s.new_cursor_size) :
    0 ≤ (on_button_a R s).new_cursor_size := by
  rw [on_button_a_size]
  split <;> omega

theorem on_button_b_size_nonneg (ok : Bool) (s : State) (h : 0 ≤ s.new_cursor_size) :
    0 ≤ (on_button_b ok s).new_cursor_size := by
  rw [on_button_b_size]
  split
  · split <;> omega
  · exact h

theorem accepted_body_size_nonneg (R : FloatModel) (e : ButtonEvent) (s : State)
    (h : 0 ≤ s.new_cursor_size) : 0 ≤ (accepted_body R e s).new_cursor_size := by
  have ha : 0 ≤ (if e.button_a then on_button_a R s else s).new_cursor_size := by
    cases e.button_a
    · exact h
    · exact on_button_a_size_nonneg R s h
  have hb : 0 ≤ (if e.button_b then
      on_button_b e.realloc_ok (if e.button_a then on_button_a R s else s)
      else (if e.button_a then on_button_a R s else s)).new_cursor_size := by
    cases e.button_b
    · exact ha
    · exact on_button_b_size_nonneg _ _ ha
  unfold accepted_body
  cases e.sw
  · exact hb
  · exact hb

/-- Button A in CursorAdjust mode adds one to the size and keeps the mode. -/
theorem on_button_a_cursor (R : FloatModel) (t : State) (hm : t.cursor_button_status = true) :
    (on_button_a R t).cursor_button_status = true ∧
      (on_button_a R t).new_cursor_size = t.new_cursor_size + 1 := by
  unfold on_button_a
  rw [if_pos hm]
  exact ⟨hm, rfl⟩

/-- Button B in CursorAdjust mode at size 0 or 1 gives size 0. -/
theorem on_button_b_small (ok : Bool) (t : State) (hm : t.cursor_button_status = true)
    (h : t.new_cursor_size = 0 ∨ t.new_cursor_size = 1) :
    (on_button_b ok t).new_cursor_size = 0 := by
  rw [on_button_b_size, hm]
  rcases h with h | h <;> simp [h]

/-- The handler body with button B pressed in CursorAdjust mode at size 0. -/
theorem accepted_body_b_at_zero (R : FloatModel) (e : ButtonEvent) (t : State)
    (hm : t.cursor_button_status = true) (h0 : t.new_cursor_size = 0)
    (hb : e.button_b = true) : (accepted_body R e t).new_cursor_size = 0 := by
  have hA : (if e.button_a then on_button_a R t else t).cursor_button_status = true ∧
      ((if e.button_a then on_button_a R t else t).new_cursor_size = 0 ∨
        (if e.button_a then on_button_a R t else t).new_cursor_size = 1) := by
    cases e.button_a
    · exact ⟨hm, Or.inl h0⟩
    · obtain ⟨h1, h2⟩ := on_button_a_cursor R t hm
      rw [h0] at h2
      exact ⟨h1, Or.inr h2⟩
  have hB := on_button_b_small e.realloc_ok _ hA.1 hA.2
  unfold accepted_body
  simp only [hb, if_true]
  cases e.sw
  · exact hB
  · exact hB

theorem handler_size_nonneg (R : FloatModel) (e : ButtonEvent) (s : State)
    (h : 0 ≤ s.new_cursor_size) :
    0 ≤ (button_interruption_gpio_irq_handler R e s).new_cursor_size := by
  unfold button_interruption_gpio_irq_handler
  split
  · exact accepted_body_size_nonneg R e _ h
  · exact h

theorem reachable_size_nonneg (R : FloatModel) (s : State) (h : Reachable R s) :
    0 ≤ s.new_cursor_size := by
  refine reachable_induction R (fun s => 0 ≤ s.new_cursor_size) (fun _ => le_refl _) ?_ s h
  intro s ev s1 hp hs
  cases ev with
  | button e =>
    simp only [step, Option.some.injEq] at hs
    rw [← hs]
    exact handler_size_nonneg R e s hp
  | tick vrx vry =>
    simp only [step, controller_repeating_timer_callback] at hs
    rw [controller_size R _ _ s s1 hs]
    exact hp

/-! ## Debounce -/

theorem on_button_a_last_time (R : FloatModel) (s : State) :
    (on_button_a R s).last_time = s.last_time := by
  unfold on_button_a
  split <;> rfl

theorem undo_zoom_in_last_time (ok : Bool) (s : State) :
    (undo_zoom_in ok s).last_time = s.last_time := by
  unfold undo_zoom_in
  split
  · cases ok <;> rfl
  · rfl

theorem on_button_b_last_time (ok : Bool) (s : State) :
    (on_button_b ok s).last_time = s.last_time := by
  unfold on_button_b
  split
  · rfl
  · exact undo_zoom_in_last_time ok s

theorem accepted_body_last_time (R : FloatModel) (e : ButtonEvent) (s : State) :
    (accepted_body R e s).last_time = s.last_time := by
  have ha : (if e.button_a then on_button_a R s else s).last_time = s.last_time := by
    cases e.button_a
    · rfl
    · exact on_button_a_last_time R s
  have hb : (if e.button_b then
      on_button_b e.realloc_ok (if e.button_a then on_button_a R s else s)
      else (if e.button_a then on_button_a R s else s)).last_time = s.last_time := by
    cases e.button_b
    · exact ha
    · exact (on_button_b_last_time _ _).trans ha
  unfold accepted_body
  cases e.sw
  · exact hb
  · exact hb

theorem handler_of_accepts (R : FloatModel) (e : ButtonEvent) (s : State)
    (h : accepts s e.now = true) :
    button_interruption_gpio_irq_handler R e s =
      accepted_body R e { s with last_time := e.now % 2 ^ 32 } := by
  unfold button_interruption_gpio_irq_handler
  rw [if_pos h]

theorem handler_of_rejects (R : FloatModel) (e : ButtonEvent) (s : State)
    (h : accepts s e.now = false) : button_interruption_gpio_irq_handler R e s = s := by
  unfold button_interruption_gpio_irq_handler
  rw [h]
  rfl

/-- After an accepted event the debounce timestamp is the clock reading of that event. -/
theorem handler_last_time (R : FloatModel) (e : ButtonEvent) (s : State)
    (h : accepts s e.now = true) :
    (button_interruption_gpio_irq_handler R e s).last_time = e.now % 2 ^ 32 := by
  unfold button_interruption_gpio_irq_handler
  rw [if_pos h, accepted_body_last_time]

/-! ## Redraw controller -/

/-- The redraw test does not read the cursor geometry `controller` refreshes. -/
theorem needs_repaint_geometry (x y : Nat) (s : State) :
    needs_repaint x y { s with
      new_height := (s.new_cursor_size % 256).toNat
      new_width := (s.new_cursor_size % 256).toNat
      new_x_position := x
      new_y_position := y } = needs_repaint x y s := rfl

/-- Nothing to repaint: only the cursor geometry is refreshed. -/
theorem controller_idle (R : FloatModel) (x y : Nat) (s : State)
    (h : needs_repaint x y s = false) :
    controller R x y s = some { s with
      new_height := (s.new_cursor_size % 256).toNat
      new_width := (s.new_cursor_size % 256).toNat
      new_x_position := x
      new_y_position := y } := by
  unfold controller
  simp only [needs_repaint_geometry, h, Bool.false_eq_true, if_false]

/-- `draw_mandelbrot` always returns. -/
theorem draw_mandelbrot_total (R : FloatModel) (buf : Buffer)
    (real_start real_end im_start im_end : ℚ) (k : RasterCache) :
    ∃ r, draw_mandelbrot R buf real_start real_end im_start im_end k = some r := by
  by_cases h : real_start = k.cached_real_start ∧ real_end = k.cached_real_end ∧
      im_start = k.cached_im_start ∧ im_end = k.cached_im_end
  · exact ⟨_, draw_mandelbrot_hit R buf _ _ _ _ k h⟩
  · obtain ⟨b, e, -, -⟩ := draw_mandelbrot_miss R buf _ _ _ _ k h
    exact ⟨_, e⟩

/-- An empty cursor draws nothing. -/
theorem draw_cursor_empty (buf : Buffer) (top left : Nat) (on_ : Bool) :
    draw_cursor buf top left 0 0 on_ = some buf := by
  simp [draw_cursor, draw_cursor_rows, draw_cursor_cols]

/-- `draw_cursor` returns when the rectangle is empty or inside the bitmap. -/
theorem draw_cursor_total (buf : Buffer) (top left w : Nat) (on_ : Bool)
    (h : w = 0 ∨ (left + w ≤ 128 ∧ top + w ≤ 64)) :
    ∃ b, draw_cursor buf top left w w on_ = some b := by
  rcases Nat.eq_zero_or_pos w with h0 | hpos
  · subst h0
    exact ⟨buf, draw_cursor_empty buf top left on_⟩
  · rcases h with h | h
    · omega
    · obtain ⟨b, e, -, -⟩ := draw_cursor_pixels buf top left w w on_ hpos hpos h.1 h.2
      exact ⟨b, e⟩

/-- Something to repaint: one cycle, which completes when `draw_cursor` returns. -/
theorem controller_repaint (R : FloatModel) (x y : Nat) (s : State)
    (h : needs_repaint x y s = true) :
    ∃ bm k, draw_mandelbrot R (memset_zero s.buf) s.real_start s.real_end s.im_start s.im_end
        s.raster = some (bm, k) ∧
      controller R x y s =
        (draw_cursor bm y x (s.new_cursor_size % 256).toNat (s.new_cursor_size % 256).toNat
          true).map fun b =>
          { s with
            new_height := (s.new_cursor_size % 256).toNat
            new_width := (s.new_cursor_size % 256).toNat
            new_x_position := x
            new_y_position := y
            buf := b
            raster := k
            calls := s.calls ++
              [Call.memset, Call.render (frame (memset_zero s.buf)), Call.draw_mandelbrot,
                Call.draw_cursor, Call.render (frame b)]
            temp_cursor_x_position := x
            temp_cursor_y_position := y
            temp_cursor_size := (s.new_cursor_size % 256).toNat
            temp_real_start := s.real_start
            temp_real_end := s.real_end
            temp_im_start := s.im_start
            temp_im_end := s.im_end } := by
  obtain ⟨⟨bm, k⟩, e⟩ := draw_mandelbrot_total R (memset_zero s.buf) s.real_start s.real_end
    s.im_start s.im_end s.raster
  refine ⟨bm, k, e, ?_⟩
  unfold controller
  simp only [needs_repaint_geometry, h, if_true, e, Option.some_bind]

set_option maxRecDepth 100000 in
/-- The state after the sixty-four presses of `grow_run`. -/
theorem run_grow_run : run FloatModel.ideal grow_run (init mem0) = some grown := by
  rfl

/-- A cursor whose top row lies below the bitmap makes `draw_cursor` abort. -/
theorem draw_cursor_abort (buf : Buffer) (top left w : Nat) (on_ : Bool) (hw : 0 < w)
    (ht : 64 ≤ top) : draw_cursor buf top left w w on_ = none := by
  have h1 : set_pixel buf left top on_ = none :=
    set_pixel_eq_none buf left top on_ (by omega)
  have hlt : left < left + w := by omega
  unfold draw_cursor
  rw [show (256 : Nat) = 255 + 1 from rfl, draw_cursor_rows, if_pos hlt, h1]
  rfl

theorem x_cursor_zero (size : Int) : x_cursor FloatModel.ideal 0 size = 0 := by
  simp [x_cursor, FloatModel.ideal, truncToInt]

theorem y_cursor_64 : y_cursor FloatModel.ideal 0 64 = 255 := by
  have h : truncToInt (-1 : ℚ) = -1 := by
    have e : ⌈(-1 : ℚ)⌉ = -1 := by
      rw [Int.ceil_eq_iff]
      norm_num
    simp [truncToInt, e]
  simp only [y_cursor, FloatModel.ideal, id]
  norm_num [h]
  rfl

/-! ## Zoom and undo -/

theorem accepted_body_a (R : FloatModel) (e : ButtonEvent) (s : State)
    (ha : e.button_a = true) (hb : e.button_b = false) (hs : e.sw = false) :
    accepted_body R e s = on_button_a R s := by
  unfold accepted_body
  simp [ha, hb, hs]

theorem accepted_body_b (R : FloatModel) (e : ButtonEvent) (s : State)
    (ha : e.button_a = false) (hb : e.button_b = true) (hs : e.sw = false) :
    accepted_body R e s = on_button_b e.realloc_ok s := by
  unfold accepted_body
  simp [ha, hb, hs]

theorem accepted_body_sw (R : FloatModel) (e : ButtonEvent) (s : State)
    (ha : e.button_a = false) (hb : e.button_b = false) (hs : e.sw = true) :
    accepted_body R e s = on_button_sw s := by
  unfold accepted_body
  simp [ha, hb, hs]

/-- Button A in zoom mode: the viewport is stored one place above the old count
and `zoom_in` runs on the stored state. -/
theorem on_button_a_zoom (R : FloatModel) (s : State) (h : s.cursor_button_status = false) :
    on_button_a R s =
      zoom_in R s.new_x_position s.new_y_position s.new_width s.new_height
        { s with
          render_data_count := s.render_data_count + 1
          render_data := Function.update s.render_data (s.render_data_count + 1)
            ⟨s.real_start, s.real_end, s.im_start, s.im_end⟩ } := by
  unfold on_button_a
  simp [h]

/-- Button B in zoom mode is `undo_zoom_in`. -/
theorem on_button_b_zoom (ok : Bool) (s : State) (h : s.cursor_button_status = false) :
    on_button_b ok s = undo_zoom_in ok s := by
  unfold on_button_b
  simp [h]

/-- Inside its guard `undo_zoom_in` restores the entry at the current count. -/
theorem undo_zoom_in_viewport (ok : Bool) (s : State)
    (h : 0 ≤ s.render_data_count ∧ s.render_data_count ≤ 10) :
    (undo_zoom_in ok s).viewport = s.render_data s.render_data_count := by
  unfold undo_zoom_in
  rw [if_pos h]
  cases ok <;> rfl

/-- Outside its guard `undo_zoom_in` does nothing. -/
theorem undo_zoom_in_guard_fails (ok : Bool) (s : State)
    (h : ¬ (0 ≤ s.render_data_count ∧ s.render_data_count ≤ 10)) : undo_zoom_in ok s = s := by
  unfold undo_zoom_in
  rw [if_neg h]

theorem y_cursor_4082_64 : y_cursor FloatModel.ideal 4082 64 = 0 := by
  have h : (((63 - 64 : Int) : ℚ) - ((4082 : ℕ) : ℚ) / 4082 * (63 - ((64 : Int) : ℚ))) = 0 := by
    norm_num
  simp only [y_cursor, FloatModel.ideal, id, h]
  simp [truncToInt]

/-- What `controller` leaves alone and what it sets, whether it repaints or not. -/
theorem controller_frame (R : FloatModel) (x y : Nat) (s s1 : State)
    (h : controller R x y s = some s1) :
    s1.new_x_position = x ∧ s1.new_y_position = y ∧
      s1.new_width = (s.new_cursor_size % 256).toNat ∧
      s1.new_height = (s.new_cursor_size % 256).toNat ∧
      s1.real_start = s.real_start ∧ s1.real_end = s.real_end ∧
      s1.im_start = s.im_start ∧ s1.im_end = s.im_end ∧
      s1.new_cursor_size = s.new_cursor_size ∧
      s1.cursor_button_status = s.cursor_button_status ∧
      s1.render_data = s.render_data ∧ s1.render_data_alloc = s.render_data_alloc ∧
      s1.render_data_count = s.render_data_count ∧
      s1.last_time = s.last_time ∧ s1.led = s.led := by
  unfold controller at h
  simp only at h
  split at h
  · simp only [Option.bind_eq_some, Option.map_eq_some'] at h
    obtain ⟨r, -, b, -, rfl⟩ := h
    exact ⟨rfl, rfl, rfl, rfl, rfl, rfl, rfl, rfl, rfl, rfl, rfl, rfl, rfl, rfl, rfl⟩
  · simp only [Option.some.injEq] at h
    rw [← h]
    exact ⟨rfl, rfl, rfl, rfl, rfl, rfl, rfl, rfl, rfl, rfl, rfl, rfl, rfl, rfl, rfl⟩

/-- `controller` returns when the cursor square is empty or inside the bitmap. -/
theorem controller_total (R : FloatModel) (x y : Nat) (s : State)
    (hin : (s.new_cursor_size % 256).toNat = 0 ∨
      (x + (s.new_cursor_size % 256).toNat ≤ 128 ∧ y + (s.new_cursor_size % 256).toNat ≤ 64)) :
    ∃ s1, controller R x y s = some s1 := by
  by_cases hd : needs_repaint x y s = true
  · obtain ⟨bm, k, -, e⟩ := controller_repaint R x y s hd
    obtain ⟨b, eb⟩ := draw_cursor_total bm y x (s.new_cursor_size % 256).toNat true hin
    rw [eb, Option.map_some'] at e
    exact ⟨_, e⟩
  · exact ⟨_, controller_idle R x y s (by simpa using hd)⟩

/-- The tick of `zoom_prefix` returns. -/
theorem zoom_prefix_tick :
    ∃ s1, controller FloatModel.ideal 0 0 grown = some s1 ∧
      controller_repeating_timer_callback FloatModel.ideal 4082 0 grown = some s1 := by
  obtain ⟨s1, e⟩ := controller_total FloatModel.ideal 0 0 grown
    (Or.inr ⟨by decide, by decide⟩)
  refine ⟨s1, e, ?_⟩
  unfold controller_repeating_timer_callback
  rw [x_cursor_zero, show grown.new_cursor_size = 64 from rfl, y_cursor_4082_64, e]

/-- The states reached by `zoom_run`: the mode is ZoomAdjust, the cursor is the
64 by 64 square at the origin, `n` zooms have halved the real range `n` times and
left `n` entries in the history. -/
theorem zoom_run_state (n : Nat) :
    ∃ s, run FloatModel.ideal (zoom_run n) (init mem0) = some s ∧
      s.cursor_button_status = false ∧ s.new_x_position = 0 ∧ s.new_y_position = 0 ∧
      s.new_width = 64 ∧ s.new_height = 64 ∧
      s.real_start = -2 ∧ s.real_end = -2 + 3 / 2 ^ n ∧ s.im_start = -3 / 2 ∧ s.im_end = 3 / 2 ∧
      s.render_data_count = (n : Int) - 1 ∧
      s.last_time = (19500000 + 300000 * n) % 2 ^ 32 := by
  induction n with
  | zero =>
    obtain ⟨s1, e1c, e1⟩ := zoom_prefix_tick
    obtain ⟨fx, fy, fw, fh, frs, fre, fis, fie, -, fm, -, -, fc, fl, -⟩ :=
      controller_frame _ _ _ _ _ e1c
    have hacc : accepts s1 19500000 = true := by
      simp only [accepts, fl, decide_eq_true_eq]
      decide
    refine ⟨button_interruption_gpio_irq_handler FloatModel.ideal
      ⟨19500000, false, false, true, true⟩ s1, ?_, ?_⟩
    · rw [zoom_run, zoom_prefix, List.range_zero, List.map_nil, List.append_nil, run_append,
        run_grow_run]
      simp only [Option.some_bind, run, step, e1, press_sw]
    · rw [handler_of_accepts _ _ s1 hacc, accepted_body_sw _ _ _ rfl rfl rfl]
      refine ⟨?_, ?_, ?_, ?_, ?_, ?_, ?_, ?_, ?_, ?_, ?_⟩
      · simp only [on_button_sw, fm]
        rfl
      · exact fx
      · exact fy
      · exact fw
      · exact fh
      · exact frs
      · show s1.real_end = -2 + 3 / 2 ^ 0
        rw [fre]
        show (1 : ℚ) = -2 + 3 / 2 ^ 0
        norm_num
      · exact fis
      · exact fie
      · exact fc
      · rfl
  | succ n ih =>
    obtain ⟨s, hs, hmode, hx, hy, hw, hh, hrs, hre, his, hie, hc, hl⟩ := ih
    have hacc : accepts s (19800000 + 300000 * n) = true := by
      simp only [accepts, hl, decide_eq_true_eq]
      omega
    have e1 : button_interruption_gpio_irq_handler FloatModel.ideal
        ⟨19800000 + 300000 * n, true, false, false, true⟩ s =
        zoom_in FloatModel.ideal s.new_x_position s.new_y_position s.new_width s.new_height
          { s with
            last_time := (19800000 + 300000 * n) % 2 ^ 32
            render_data_count := s.render_data_count + 1
            render_data := Function.update s.render_data (s.render_data_count + 1)
              ⟨s.real_start, s.real_end, s.im_start, s.im_end⟩ } := by
      rw [handler_of_accepts _ _ s hacc, accepted_body_a _ _ _ rfl rfl rfl]
      exact on_button_a_zoom _ _ hmode
    refine ⟨button_interruption_gpio_irq_handler FloatModel.ideal
      ⟨19800000 + 300000 * n, true, false, false, true⟩ s, ?_, ?_⟩
    · rw [zoom_run, List.range_succ, List.map_append, ← List.append_assoc, run_append]
      rw [show zoom_prefix ++ List.map (fun i => press_a (19800000 + 300000 * i)) (List.range n)
        = zoom_run n from rfl, hs]
      rfl
    · rw [e1]
      simp only [zoom_in, FloatModel.ideal, id, hx, hy, hw, hh, hrs, hre, his, hie, hc, hmode]
      refine ⟨trivial, trivial, trivial, trivial, trivial, ?_, ?_, ?_, ?_, ?_, ?_⟩
      · norm_num
      · norm_num
        field_simp
        ring
      · norm_num
      · norm_num
      · push_cast
        ring
      · omega

/-- Button A moves the history count only in zoom mode, and then by one. -/
theorem on_button_a_count (R : FloatModel) (s : State) :
    (on_button_a R s).render_data_count =
      if s.cursor_button_status then s.render_data_count else s.render_data_count + 1 := by
  unfold on_button_a
  split <;> rfl

theorem undo_zoom_in_count_ge (ok : Bool) (s : State) (h : -1 ≤ s.render_data_count) :
    -1 ≤ (undo_zoom_in ok s).render_data_count := by
  unfold undo_zoom_in
  split
  · cases ok
    · exact h
    · show -1 ≤ s.render_data_count - 1
      omega
  · exact h

theorem on_button_b_count_ge (ok : Bool) (s : State) (h : -1 ≤ s.render_data_count) :
    -1 ≤ (on_button_b ok s).render_data_count := by
  unfold on_button_b
  split
  · exact h
  · exact undo_zoom_in_count_ge ok s h

theorem accepted_body_count_ge (R : FloatModel) (e : ButtonEvent) (s : State)
    (h : -1 ≤ s.render_data_count) : -1 ≤ (accepted_body R e s).render_data_count := by
  have ha : -1 ≤ (if e.button_a then on_button_a R s else s).render_data_count := by
    cases e.button_a
    · exact h
    · show -1 ≤ (on_button_a R s).render_data_count
      rw [on_button_a_count]
      split <;> omega
  have hb : -1 ≤ (if e.button_b then
      on_button_b e.realloc_ok (if e.button_a then on_button_a R s else s)
      else (if e.button_a then on_button_a R s else s)).render_data_count := by
    cases e.button_b
    · exact ha
    · exact on_button_b_count_ge _ _ ha
  unfold accepted_body
  cases e.sw
  · exact hb
  · exact hb

/-- The history count of a reachable state is at least -1. -/
theorem reachable_count_ge (R : FloatModel) (s : State) (h : Reachable R s) :
    -1 ≤ s.render_data_count := by
  refine reachable_induction R (fun s => -1 ≤ s.render_data_count) (fun _ => le_refl _) ?_ s h
  intro s ev s1 hp hs
  cases ev with
  | button e =>
    simp only [step, Option.some.injEq] at hs
    rw [← hs]
    unfold button_interruption_gpio_irq_handler
    split
    · exact accepted_body_count_ge R e _ hp
    · exact hp
  | tick vrx vry =>
    simp only [step, controller_repeating_timer_callback] at hs
    rw [(controller_frame R _ _ s s1 hs).2.2.2.2.2.2.2.2.2.2.2.2.1]
    exact hp

/-! ## Iteration budget of `draw_cursor` -/

/-- A successful `set_pixel` had its coordinates inside the bitmap. -/
theorem set_pixel_some_bounds (buf b : Buffer) (x y : Int) (on_ : Bool)
    (h : set_pixel buf x y on_ = some b) : 0 ≤ x ∧ x < 128 ∧ 0 ≤ y ∧ y < 64 := by
  by_contra hc
  rw [set_pixel_eq_none buf x y on_ hc] at h
  exact Option.noConfusion h

/-- The first loop of `draw_cursor` never uses up its iterations: any two budgets
of at least `129 - x` (and at least 1) give the same result. -/
theorem draw_cursor_rows_fuel (top left width height : Nat) (on_ : Bool) :
    ∀ n x buf f1 f2, 129 - x ≤ n → n ≤ f1 → n ≤ f2 → 1 ≤ f1 → 1 ≤ f2 →
      draw_cursor_rows top left width height on_ f1 x buf =
        draw_cursor_rows top left width height on_ f2 x buf := by
  intro n
  induction n with
  | zero =>
    intro x buf f1 f2 hn _ _ h1 h2
    obtain ⟨g1, rfl⟩ : ∃ g, f1 = g + 1 := ⟨f1 - 1, by omega⟩
    obtain ⟨g2, rfl⟩ : ∃ g, f2 = g + 1 := ⟨f2 - 1, by omega⟩
    rw [draw_cursor_rows, draw_cursor_rows]
    split
    · have hnone : set_pixel buf x top on_ = none :=
        set_pixel_eq_none buf x top on_ (by omega)
      simp only [hnone, Option.none_bind]
    · rfl
  | succ n ih =>
    intro x buf f1 f2 hn hf1 hf2 _ _
    obtain ⟨g1, rfl⟩ : ∃ g, f1 = g + 1 := ⟨f1 - 1, by omega⟩
    obtain ⟨g2, rfl⟩ : ∃ g, f2 = g + 1 := ⟨f2 - 1, by omega⟩
    rw [draw_cursor_rows, draw_cursor_rows]
    split
    · cases h1 : set_pixel buf x top on_ with
      | none => simp only [Option.none_bind]
      | some b1 =>
        have hx := (set_pixel_some_bounds buf b1 x top on_ h1).2.1
        cases h2 : set_pixel b1 x ((top : Int) + height - 1) on_ with
        | none => simp only [Option.some_bind, h2, Option.none_bind]
        | some b2 =>
          simp only [Option.some_bind, h2]
          have hwrap : (x + 1) % 256 = x + 1 := Nat.mod_eq_of_lt (by omega)
          rw [hwrap]
          exact ih (x + 1) b2 g1 g2 (by omega) (by omega) (by omega) (by omega) (by omega)
    · rfl

/-- The second loop of `draw_cursor` never uses up its iterations. -/
theorem draw_cursor_cols_fuel (top left width height : Nat) (on_ : Bool) :
    ∀ n y buf f1 f2, 65 - y ≤ n → n ≤ f1 → n ≤ f2 → 1 ≤ f1 → 1 ≤ f2 →
      draw_cursor_cols top left width height on_ f1 y buf =
        draw_cursor_cols top left width height on_ f2 y buf := by
  intro n
  induction n with
  | zero =>
    intro y buf f1 f2 hn _ _ h1 h2
    obtain ⟨g1, rfl⟩ : ∃ g, f1 = g + 1 := ⟨f1 - 1, by omega⟩
    obtain ⟨g2, rfl⟩ : ∃ g, f2 = g + 1 := ⟨f2 - 1, by omega⟩
    rw [draw_cursor_cols, draw_cursor_cols]
    split
    · have hnone : set_pixel buf left y on_ = none :=
        set_pixel_eq_none buf left y on_ (by omega)
      simp only [hnone, Option.none_bind]
    · rfl
  | succ n ih =>
    intro y buf f1 f2 hn hf1 hf2 _ _
    obtain ⟨g1, rfl⟩ : ∃ g, f1 = g + 1 := ⟨f1 - 1, by omega⟩
    obtain ⟨g2, rfl⟩ : ∃ g, f2 = g + 1 := ⟨f2 - 1, by omega⟩
    rw [draw_cursor_cols, draw_cursor_cols]
    split
    · cases h1 : set_pixel buf left y on_ with
      | none => simp only [Option.none_bind]
      | some b1 =>
        have hy := (set_pixel_some_bounds buf b1 left y on_ h1).2.2.2
        cases h2 : set_pixel b1 ((left : Int) + width - 1) y on_ with
        | none => simp only [Option.some_bind, h2, Option.none_bind]
        | some b2 =>
          simp only [Option.some_bind, h2]
          have hwrap : (y + 1) % 256 = y + 1 := Nat.mod_eq_of_lt (by omega)
          rw [hwrap]
          exact ih (y + 1) b2 g1 g2 (by omega) (by omega) (by omega) (by omega) (by omega)
    · rfl

/-- The iteration budget of `draw_cursor` is never the reason for `none`: every
budget of at least 129 gives the result of the budget 256. -/
theorem draw_cursor_fuel (buf : Buffer) (top left width height : Nat) (on_ : Bool)
    (f1 f2 : Nat) (h1 : 129 ≤ f1) (h2 : 129 ≤ f2) :
    (draw_cursor_rows top left width height on_ f1 left buf).bind
        (draw_cursor_cols top left width height on_ f2 top) =
      draw_cursor buf top left width height on_ := by
  unfold draw_cursor
  rw [draw_cursor_rows_fuel top left width height on_ 129 left buf f1 256 (by omega) h1
    (by omega) (by omega) (by omega)]
  cases draw_cursor_rows top left width height on_ 256 left buf with
  | none => rfl
  | some b =>
    simp only [Option.some_bind]
    exact draw_cursor_cols_fuel top left width height on_ 129 top b f2 256 (by omega) h2
      (by omega) (by omega) (by omega)

/-! ## Cursor sampling -/

/-- In exact arithmetic, for readings up to 4095 and sizes from 0 to 63, the
position computed by the timer callback keeps the cursor square on the screen. -/
theorem cursor_on_screen_of_small_size (vrx vry : Nat) (size : Int) (hx : vrx ≤ 4095)
    (hy : vry ≤ 4095) (h0 : 0 ≤ size) (h63 : size ≤ 63) :
    (x_cursor FloatModel.ideal vry size : Int) + size ≤ 127 ∧
      (y_cursor FloatModel.ideal vrx size : Int) + size ≤ 63 := by
  have hsq : (0 : ℚ) ≤ size := by exact_mod_cast h0
  have hsq63 : (size : ℚ) ≤ 63 := by exact_mod_cast h63
  have hxq : (vrx : ℚ) ≤ 4095 := by exact_mod_cast hx
  have hyq : (vry : ℚ) ≤ 4095 := by exact_mod_cast hy
  have hx0 : (0 : ℚ) ≤ vrx := Nat.cast_nonneg _
  have hy0 : (0 : ℚ) ≤ vry := Nat.cast_nonneg _
  constructor
  · -- horizontal
    set q : ℚ := (vry : ℚ) / 4084 * (127 - (size : ℚ)) with hq
    have hq0 : 0 ≤ q := by
      rw [hq]
      apply mul_nonneg
      · positivity
      · linarith
    have hq1 : q < ((127 - size + 1 : Int) : ℚ) := by
      rw [hq]
      push_cast
      have : (vry : ℚ) / 4084 * (127 - (size : ℚ)) ≤ 4095 / 4084 * (127 - (size : ℚ)) := by
        apply mul_le_mul_of_nonneg_right
        · apply div_le_div_of_nonneg_right hyq (by norm_num)
        · linarith
      nlinarith
    have hf0 : 0 ≤ ⌊q⌋ := Int.floor_nonneg.mpr hq0
    have hf1 : ⌊q⌋ ≤ 127 - size := by
      have := Int.floor_lt.mpr hq1
      omega
    have ht : truncToInt q = ⌊q⌋ := by simp [truncToInt, hq0]
    simp only [x_cursor, FloatModel.ideal, id, ← hq, ht]
    rw [Int.emod_eq_of_lt hf0 (by omega), Int.toNat_of_nonneg hf0]
    omega
  · -- vertical
    set q : ℚ := ((63 - size : Int) : ℚ) - (vrx : ℚ) / 4082 * (63 - (size : ℚ)) with hq
    have hqexp : q = (63 - (size : ℚ)) * (1 - (vrx : ℚ) / 4082) := by
      rw [hq]
      push_cast
      ring
    have hlow : -1 < q := by
      rw [hqexp]
      have h1 : (1 - (vrx : ℚ) / 4082) ≥ -13 / 4082 := by
        have : (vrx : ℚ) / 4082 ≤ 4095 / 4082 := div_le_div_of_nonneg_right hxq (by norm_num)
        linarith
      nlinarith
    have hup : q ≤ ((63 - size : Int) : ℚ) := by
      rw [hq]
      have : 0 ≤ (vrx : ℚ) / 4082 * (63 - (size : ℚ)) := by
        apply mul_nonneg
        · positivity
        · linarith
      linarith
    have ht0 : 0 ≤ truncToInt q := by
      unfold truncToInt
      split
      · exact Int.floor_nonneg.mpr (by assumption)
      · have : (-1 : Int) < ⌈q⌉ := Int.lt_ceil.mpr (by exact_mod_cast hlow)
        omega
    have ht1 : truncToInt q ≤ 63 - size := by
      unfold truncToInt
      split
      · have h2 : ((⌊q⌋ : Int) : ℚ) ≤ ((63 - size : Int) : ℚ) := le_trans (Int.floor_le q) hup
        exact_mod_cast h2
      · exact Int.ceil_le.mpr hup
    simp only [y_cursor, FloatModel.ideal, id, ← hq]
    rw [Int.emod_eq_of_lt ht0 (by omega), Int.toNat_of_nonneg ht0]
    omega

/-! ## Mode and indicator -/

/-- Button A changes neither the mode nor the LED. -/
theorem on_button_a_mode (R : FloatModel) (s : State) :
    (on_button_a R s).cursor_button_status = s.cursor_button_status ∧
      (on_button_a R s).led = s.led := by
  unfold on_button_a
  split <;> exact ⟨rfl, rfl⟩

theorem undo_zoom_in_mode (ok : Bool) (s : State) :
    (undo_zoom_in ok s).cursor_button_status = s.cursor_button_status ∧
      (undo_zoom_in ok s).led = s.led := by
  unfold undo_zoom_in
  split
  · cases ok <;> exact ⟨rfl, rfl⟩
  · exact ⟨rfl, rfl⟩

/-- Button B changes neither the mode nor the LED. -/
theorem on_button_b_mode (ok : Bool) (s : State) :
    (on_button_b ok s).cursor_button_status = s.cursor_button_status ∧
      (on_button_b ok s).led = s.led := by
  unfold on_button_b
  split
  · exact ⟨rfl, rfl⟩
  · exact undo_zoom_in_mode ok s

/-- The handler body flips mode and LED together when `SW` is pressed and leaves
both alone otherwise. -/
theorem accepted_body_mode (R : FloatModel) (e : ButtonEvent) (s : State) :
    (accepted_body R e s).cursor_button_status =
        (if e.sw then !s.cursor_button_status else s.cursor_button_status) ∧
      (accepted_body R e s).led = (if e.sw then !s.led else s.led) := by
  have ha : (if e.button_a then on_button_a R s else s).cursor_button_status =
      s.cursor_button_status ∧ (if e.button_a then on_button_a R s else s).led = s.led := by
    cases e.button_a
    · exact ⟨rfl, rfl⟩
    · exact on_button_a_mode R s
  have hb : (if e.button_b then
      on_button_b e.realloc_ok (if e.button_a then on_button_a R s else s)
      else (if e.button_a then on_button_a R s else s)).cursor_button_status =
        s.cursor_button_status ∧
      (if e.button_b then
      on_button_b e.realloc_ok (if e.button_a then on_button_a R s else s)
      else (if e.button_a then on_button_a R s else s)).led = s.led := by
    cases e.button_b
    · exact ha
    · exact ⟨(on_button_b_mode _ _).1.trans ha.1, (on_button_b_mode _ _).2.trans ha.2⟩
  unfold accepted_body
  cases e.sw
  · exact hb
  · simp only [if_true, on_button_sw]
    exact ⟨by rw [hb.1], by rw [hb.2]⟩

theorem handler_mode (R : FloatModel) (e : ButtonEvent) (s : State) :
    (button_interruption_gpio_irq_handler R e s).cursor_button_status =
        (if accepts s e.now && e.sw then !s.cursor_button_status else s.cursor_button_status) ∧
      (button_interruption_gpio_irq_handler R e s).led =
        (if accepts s e.now && e.sw then !s.led else s.led) := by
  cases hacc : accepts s e.now
  · rw [handler_of_rejects R e s hacc]
    simp
  · rw [handler_of_accepts R e s hacc]
    simpa using accepted_body_mode R e { s with last_time := e.now % 2 ^ 32 }

theorem reachable_led (R : FloatModel) (s : State) (h : Reachable R s) :
    s.led = !s.cursor_button_status := by
  refine reachable_induction R (fun s => s.led = !s.cursor_button_status) (fun _ => rfl) ?_ s h
  intro s ev s1 hp hs
  cases ev with
  | button e =>
    simp only [step, Option.some.injEq] at hs
    rw [← hs, (handler_mode R e s).1, (handler_mode R e s).2]
    split
    · rw [hp]
    · exact hp
  | tick vrx vry =>
    simp only [step, controller_repeating_timer_callback] at hs
    obtain ⟨-, -, -, -, -, -, -, -, -, fm, -, -, -, -, fl⟩ := controller_frame R _ _ s s1 hs
    rw [fm, fl]
    exact hp

/-! ## Zoom geometry -/

/-- The four bounds `zoom_in` computes in exact arithmetic, for a cursor whose
centre computation does not wrap. -/
theorem zoom_in_ideal_bounds (s : State) (left top width height : Nat)
    (hl : left + width / 2 < 256) (ht : top + height / 2 < 256) :
    (zoom_in FloatModel.ideal left top width height s).real_start =
        s.real_start + (left : ℚ) * ((s.real_end - s.real_start) / 128) ∧
      (zoom_in FloatModel.ideal left top width height s).real_end =
        s.real_start + ((left + 2 * (width / 2) : ℕ) : ℚ) * ((s.real_end - s.real_start) / 128) ∧
      (zoom_in FloatModel.ideal left top width height s).im_start =
        s.im_start + (top : ℚ) * ((s.im_end - s.im_start) / 64) ∧
      (zoom_in FloatModel.ideal left top width height s).im_end =
        s.im_start + ((top + 2 * (height / 2) : ℕ) : ℚ) * ((s.im_end - s.im_start) / 64) := by
  have hx : (left + width / 2) % 256 = left + width / 2 := Nat.mod_eq_of_lt hl
  have hy : (top + height / 2) % 256 = top + height / 2 := Nat.mod_eq_of_lt ht
  simp only [zoom_in, FloatModel.ideal, id, hx, hy]
  generalize width / 2 = wz
  generalize height / 2 = hz
  refine ⟨?_, ?_, ?_, ?_⟩ <;> push_cast <;> ring

/-- A point `p + n * ((q - p) / d)` with `0 <= n <= d` lies between `p` and `q`. -/
theorem between_of_fraction (p q : ℚ) (n d : ℕ) (hd : 0 < d) (hn : n ≤ d) :
    min p q ≤ p + (n : ℚ) * ((q - p) / d) ∧ p + (n : ℚ) * ((q - p) / d) ≤ max p q := by
  have hdq : (0 : ℚ) < d := by exact_mod_cast hd
  have hnq : (n : ℚ) ≤ d := by exact_mod_cast hn
  have hn0 : (0 : ℚ) ≤ n := Nat.cast_nonneg n
  have ha0 : 0 ≤ (n : ℚ) / d := div_nonneg hn0 hdq.le
  have ha1 : (n : ℚ) / d ≤ 1 := (div_le_one hdq).mpr hnq
  have e : p + (n : ℚ) * ((q - p) / d) = p + (n : ℚ) / d * (q - p) := by
    field_simp
  rw [e]
  rcases le_total p q with h | h
  · rw [min_eq_left h, max_eq_right h]
    constructor <;> nlinarith
  · rw [min_eq_right h, max_eq_left h]
    constructor <;> nlinarith

/-- For `p <= q` the points at fractions `n <= m <= d` are in order between `p` and `q`. -/
theorem ordered_of_fractions (p q : ℚ) (n m d : ℕ) (hd : 0 < d) (hnm : n ≤ m) (hm : m ≤ d)
    (hpq : p ≤ q) :
    p ≤ p + (n : ℚ) * ((q - p) / d) ∧
      p + (n : ℚ) * ((q - p) / d) ≤ p + (m : ℚ) * ((q - p) / d) ∧
      p + (m : ℚ) * ((q - p) / d) ≤ q := by
  have hdq : (0 : ℚ) < d := by exact_mod_cast hd
  have hnmq : (n : ℚ) ≤ m := by exact_mod_cast hnm
  have hmq : (m : ℚ) ≤ d := by exact_mod_cast hm
  have hn0 : (0 : ℚ) ≤ n := Nat.cast_nonneg n
  have hs : 0 ≤ (q - p) / d := div_nonneg (by linarith) hdq.le
  have e : (d : ℚ) * ((q - p) / d) = q - p := by field_simp
  refine ⟨?_, ?_, ?_⟩
  · nlinarith
  · nlinarith
  · nlinarith

/-- In exact arithmetic the pixel mapping of `draw_mandelbrot` is affine in the
column. -/
theorem pixel_real_ideal (real_start real_end : ℚ) (x : Nat) :
    pixel_real FloatModel.ideal real_start (stepX FloatModel.ideal real_start real_end) x =
      real_start + (x : ℚ) * ((real_end - real_start) / 128) := by
  simp [pixel_real, stepX, FloatModel.ideal]

/-- In exact arithmetic the pixel mapping of `draw_mandelbrot` is affine in the row. -/
theorem pixel_imag_ideal (im_start im_end : ℚ) (y : Nat) :
    pixel_imag FloatModel.ideal im_start (stepY FloatModel.ideal im_start im_end) y =
      im_start + (y : ℚ) * ((im_end - im_start) / 64) := by
  simp [pixel_imag, stepY, FloatModel.ideal]

/-- The value `draw_mandelbrot` computes for a pixel is the escape-time test at the
point `pixel_c` of that pixel. -/
theorem pixelOn_eq (R : FloatModel) (real_start real_end im_start im_end : ℚ) (x y : Nat) :
    pixelOn R real_start im_start (R.f32 (R.f32 (real_end - real_start) / SSD1306_WIDTH))
        (R.f32 (R.f32 (im_end - im_start) / SSD1306_HEIGHT)) x y =
      decide (mandelbrot R (pixel_c R real_start real_end im_start im_end x y) = MAX_ITER) :=
  rfl

/-! ## Escape time -/

/-- The loop of `mandelbrot` started at counter `n` with `fuel` iterations left
stops at the first iterate outside the disc of radius 2, or when the counter
stops it. -/
theorem mandelbrot_loop_spec (R : FloatModel) (c : Cfloat) :
    ∀ (fuel : Nat) (z : Cfloat) (n : Nat),
      n ≤ mandelbrot_loop R c fuel z n ∧ mandelbrot_loop R c fuel z n ≤ n + fuel ∧
      (∀ j, n + j < mandelbrot_loop R c fuel z n →
        cabsf_le_2 ((mandelbrot_step R c)^[j] z) = true) ∧
      (mandelbrot_loop R c fuel z n < n + fuel →
        cabsf_le_2 ((mandelbrot_step R c)^[mandelbrot_loop R c fuel z n - n] z) = false) := by
  intro fuel
  induction fuel with
  | zero =>
    intro z n
    refine ⟨le_refl _, le_refl _, ?_, ?_⟩
    · intro j hj
      simp only [mandelbrot_loop] at hj
      omega
    · intro h
      simp only [mandelbrot_loop] at h
      omega
  | succ f ih =>
    intro z n
    rw [mandelbrot_loop]
    by_cases hz : cabsf_le_2 z = true
    · rw [if_pos hz]
      obtain ⟨h1, h2, h3, h4⟩ := ih (mandelbrot_step R c z) (n + 1)
      refine ⟨by omega, by omega, ?_, ?_⟩
      · intro j hj
        cases j with
        | zero => exact hz
        | succ j =>
          rw [Function.iterate_succ_apply]
          exact h3 j (by omega)
      · intro hlt
        have := h4 (by omega)
        rw [← Function.iterate_succ_apply] at this
        rw [show mandelbrot_loop R c f (mandelbrot_step R c z) (n + 1) - n =
          (mandelbrot_loop R c f (mandelbrot_step R c z) (n + 1) - (n + 1)) + 1 by omega]
        exact this
    · rw [if_neg hz]
      refine ⟨le_refl _, by omega, ?_, ?_⟩
      · intro j hj
        omega
      · intro _
        rw [Nat.sub_self]
        simpa using hz

/-- The value of `mandelbrot(c)`: at most `MAX_ITER`, every earlier iterate is in
the disc of radius 2, and below `MAX_ITER` the iterate at the returned index is
not. -/
theorem mandelbrot_least_escape (R : FloatModel) (c : Cfloat) :
    mandelbrot R c ≤ MAX_ITER ∧
      (∀ j, j < mandelbrot R c → cabsf_le_2 ((mandelbrot_step R c)^[j] ⟨0, 0⟩) = true) ∧
      (mandelbrot R c < MAX_ITER →
        cabsf_le_2 ((mandelbrot_step R c)^[mandelbrot R c] ⟨0, 0⟩) = false) := by
  obtain ⟨-, h2, h3, h4⟩ := mandelbrot_loop_spec R c MAX_ITER ⟨0, 0⟩ 0
  refine ⟨by simpa using h2, ?_, ?_⟩
  · intro j hj
    exact h3 j (by simpa [mandelbrot] using hj)
  · intro hlt
    have := h4 (by simpa [mandelbrot] using hlt)
    simpa [mandelbrot] using this

/-- The loop reaches `MAX_ITER` exactly when the first `MAX_ITER` iterates are all in
the disc of radius 2. -/
theorem mandelbrot_eq_max_iff (R : FloatModel) (c : Cfloat) :
    mandelbrot R c = MAX_ITER ↔
      ∀ j, j < MAX_ITER → cabsf_le_2 ((mandelbrot_step R c)^[j] ⟨0, 0⟩) = true := by
  obtain ⟨h1, h2, h3⟩ := mandelbrot_least_escape R c
  constructor
  · intro h j hj
    exact h2 j (by rw [h]; exact hj)
  · intro h
    by_contra hne
    have hlt : mandelbrot R c < MAX_ITER := lt_of_le_of_ne h1 hne
    have := h3 hlt
    rw [h _ hlt] at this
    exact Bool.noConfusion this

/-- In exact arithmetic the iterates of the loop body are the orbit of the spec. -/
theorem iterate_ideal_eq_orbit (c : Cfloat) (j : Nat) :
    (mandelbrot_step FloatModel.ideal c)^[j] ⟨0, 0⟩ = orbit c j := by
  induction j with
  | zero => rfl
  | succ j ih =>
    rw [Function.iterate_succ_apply', ih, orbit]
    simp only [mandelbrot_step, FloatModel.ideal, id]
    congr 1
    ring

/-- The orbit of the spec, read in the complex numbers, is the iteration of
`z ↦ z ^ 2 + c`. -/
theorem orbit_complex (c : Cfloat) (j : Nat) :
    (Complex.mk ((orbit c j).re : ℝ) ((orbit c j).im : ℝ)) =
      (fun z : ℂ => z ^ 2 + Complex.mk (c.re : ℝ) (c.im : ℝ))^[j] 0 := by
  induction j with
  | zero =>
    simp [orbit]
    rfl
  | succ j ih =>
    rw [Function.iterate_succ_apply', ← ih, orbit]
    apply Complex.ext
    · simp [pow_two]
    · simp [pow_two]
      ring

/-- The test `cabsf(z) <= 2` is the comparison of the complex modulus with 2. -/
theorem cabsf_le_2_iff (z : Cfloat) :
    cabsf_le_2 z = true ↔ Complex.abs (Complex.mk (z.re : ℝ) (z.im : ℝ)) ≤ 2 := by
  simp only [cabsf_le_2, decide_eq_true_eq]
  rw [show (2 : ℝ) = Real.sqrt 4 by
    rw [show (4 : ℝ) = 2 ^ 2 by norm_num]
    exact (Real.sqrt_sq (by norm_num)).symm]
  rw [Complex.abs_apply, Complex.normSq_mk]
  rw [Real.sqrt_le_sqrt_iff (by norm_num)]
  constructor
  · intro h
    have : ((z.re * z.re + z.im * z.im : ℚ) : ℝ) ≤ ((4 : ℚ) : ℝ) := by exact_mod_cast h
    simpa using this
  · intro h
    have : ((z.re * z.re + z.im * z.im : ℚ) : ℝ) ≤ ((4 : ℚ) : ℝ) := by
      push_cast
      exact h
    exact_mod_cast this

/-- In exact arithmetic `mandelbrot(c)` is the least index at which the orbit of the
spec leaves the disc of radius 2, capped at `MAX_ITER`. -/
theorem mandelbrot_ideal_orbit (c : Cfloat) :
    mandelbrot FloatModel.ideal c ≤ MAX_ITER ∧
      (∀ j, j < mandelbrot FloatModel.ideal c →
        (orbit c j).re * (orbit c j).re + (orbit c j).im * (orbit c j).im ≤ 4) ∧
      (mandelbrot FloatModel.ideal c < MAX_ITER →
        4 < (orbit c (mandelbrot FloatModel.ideal c)).re *
              (orbit c (mandelbrot FloatModel.ideal c)).re +
            (orbit c (mandelbrot FloatModel.ideal c)).im *
              (orbit c (mandelbrot FloatModel.ideal c)).im) ∧
      (mandelbrot FloatModel.ideal c = MAX_ITER ↔
        ∀ j, j < MAX_ITER →
          (orbit c j).re * (orbit c j).re + (orbit c j).im * (orbit c j).im ≤ 4) := by
  obtain ⟨h1, h2, h3⟩ := mandelbrot_least_escape FloatModel.ideal c
  refine ⟨h1, ?_, ?_, ?_⟩
  · intro j hj
    have := h2 j hj
    rw [iterate_ideal_eq_orbit] at this
    simpa [cabsf_le_2] using this
  · intro hlt
    have := h3 hlt
    rw [iterate_ideal_eq_orbit] at this
    simpa [cabsf_le_2] using this
  · rw [mandelbrot_eq_max_iff]
    constructor
    · intro h j hj
      have := h j hj
      rw [iterate_ideal_eq_orbit] at this
      simpa [cabsf_le_2] using this
    · intro h j hj
      rw [iterate_ideal_eq_orbit]
      simpa [cabsf_le_2] using h j hj

/-- The modulus test on the orbit of the spec, read in the complex numbers. -/
theorem orbit_modulus (c : Cfloat) (j : Nat) :
    (orbit c j).re * (orbit c j).re + (orbit c j).im * (orbit c j).im ≤ 4 ↔
      Complex.abs ((fun z : ℂ => z ^ 2 + Complex.mk (c.re : ℝ) (c.im : ℝ))^[j] 0) ≤ 2 := by
  rw [← orbit_complex, ← cabsf_le_2_iff]
  simp [cabsf_le_2]

/-! ## Failing reallocation -/

/-- Inside its guard and with `realloc` failing, `undo_zoom_in` has already
overwritten the four bounds, stores the null pointer, prints the diagnostic and
leaves the count alone. -/
theorem undo_zoom_in_realloc_failure (s : State)
    (h : 0 ≤ s.render_data_count ∧ s.render_data_count ≤ 10) :
    undo_zoom_in false s =
      { s with
        real_start := (s.render_data s.render_data_count).real_start
        real_end := (s.render_data s.render_data_count).real_end
        im_start := (s.render_data s.render_data_count).im_start
        im_end := (s.render_data s.render_data_count).im_end
        render_data_alloc := none
        calls := s.calls ++ [Call.printf_realloc_failure] } := by
  unfold undo_zoom_in
  rw [if_pos h]
  rfl

/-- Button A leaves the allocation alone. -/
theorem on_button_a_alloc (R : FloatModel) (s : State) :
    (on_button_a R s).render_data_alloc = s.render_data_alloc := by
  unfold on_button_a
  split <;> rfl

/-- An event without button B leaves the allocation alone. -/
theorem handler_alloc (R : FloatModel) (e : ButtonEvent) (s : State) (hb : e.button_b = false) :
    (button_interruption_gpio_irq_handler R e s).render_data_alloc = s.render_data_alloc := by
  have ha : ∀ t : State, (if e.button_a then on_button_a R t else t).render_data_alloc =
      t.render_data_alloc := by
    intro t
    cases e.button_a
    · rfl
    · exact on_button_a_alloc R t
  have hbody : ∀ t : State, (accepted_body R e t).render_data_alloc = t.render_data_alloc := by
    intro t
    unfold accepted_body
    rw [hb]
    cases e.sw
    · exact ha t
    · exact ha t
  unfold button_interruption_gpio_irq_handler
  split
  · exact hbody _
  · rfl

/-- The allocation is still the one of `main` after `zoom_run n`. -/
theorem zoom_run_alloc (n : Nat) (s : State)
    (h : run FloatModel.ideal (zoom_run n) (init mem0) = some s) :
    s.render_data_alloc = some 10 := by
  induction n generalizing s with
  | zero =>
    obtain ⟨s1, e1c, e1⟩ := zoom_prefix_tick
    have fa := (controller_frame _ _ _ _ _ e1c).2.2.2.2.2.2.2.2.2.2.2.1
    rw [zoom_run, zoom_prefix, List.range_zero, List.map_nil, List.append_nil, run_append,
      run_grow_run] at h
    simp only [Option.some_bind, run, step, e1, press_sw, Option.some.injEq] at h
    rw [← h, handler_alloc _ _ _ rfl, fa]
    rfl
  | succ n ih =>
    rw [zoom_run, List.range_succ, List.map_append, ← List.append_assoc, run_append,
      show zoom_prefix ++ List.map (fun i => press_a (19800000 + 300000 * i)) (List.range n)
        = zoom_run n from rfl] at h
    cases hr : run FloatModel.ideal (zoom_run n) (init mem0) with
    | none =>
      rw [hr] at h
      exact Option.noConfusion h
    | some t =>
      rw [hr] at h
      simp only [Option.some_bind, List.map_cons, List.map_nil, run, step, press_a,
        Option.some.injEq] at h
      rw [← h, handler_alloc _ _ _ rfl]
      exact ih t hr

/-! ## Storage of the history -/

/-- An accepted press of button A alone in ZoomAdjust mode stores the viewport at
index `render_data_count + 1`. -/
theorem push_index (R : FloatModel) (s : State) (e : ButtonEvent)
    (hmode : s.cursor_button_status = false) (hacc : accepts s e.now = true)
    (hA : e.button_a = true ∧ e.button_b = false ∧ e.sw = false) :
    (button_interruption_gpio_irq_handler R e s).render_data =
      Function.update s.render_data (s.render_data_count + 1) s.viewport := by
  rw [handler_of_accepts R e s hacc, accepted_body_a R e _ hA.1 hA.2.1 hA.2.2]
  have := on_button_a_zoom R { s with last_time := e.now % 2 ^ 32 } hmode
  rw [this]
  rfl

set_option maxRecDepth 100000 in
/-- Mode, debounce test, push index and allocation after `shrink_run`. -/
theorem shrink_run_state :
    (run FloatModel.ideal shrink_run (init mem0)).map
      (fun s => (s.cursor_button_status, accepts s 1500000, s.render_data_count + 1,
        s.render_data_alloc)) = some (false, true, 1, some 1) := by
  decide

set_option maxRecDepth 100000 in
/-- Mode, debounce test, push index and allocation after `fill_run`. -/
theorem fill_run_state :
    (run FloatModel.ideal fill_run (init mem0)).map
      (fun s => (s.cursor_button_status, accepts s 3600000, s.render_data_count + 1,
        s.render_data_alloc)) = some (false, true, 10, some 10) := by
  decide

/-! ## Raster cache -/

/-- The orbit of `c = 0` stays at 0, so `mandelbrot(0)` runs to the cap. -/
theorem mandelbrot_zero (R : FloatModel) (h : R.Faithful32) :
    mandelbrot R ⟨0, 0⟩ = MAX_ITER := by
  have f0 : R.f32 0 = 0 := faithful_fix R h 0 0 0 (by norm_num) (by norm_num) (by norm_num)
  have := mandelbrot_loop_of_invariant R ⟨0, 0⟩ (fun z => z = ⟨0, 0⟩)
    (fun z hz => by
      rw [hz]
      simp [cabsf_le_2])
    (fun z hz => by
      rw [hz]
      simp only [mandelbrot_step, mul_zero, f0, sub_zero, add_zero])
    MAX_ITER ⟨0, 0⟩ 0 rfl
  rw [mandelbrot, this, Nat.zero_add]

/-- For the viewport with all four bounds 0 every pixel is computed as on. -/
theorem pixelOn_zero_viewport (R : FloatModel) (h : R.Faithful32) (x y : Nat) :
    pixelOn R 0 0 (R.f32 (R.f32 (0 - 0) / SSD1306_WIDTH))
      (R.f32 (R.f32 (0 - 0) / SSD1306_HEIGHT)) x y = true := by
  have f0 : R.f32 0 = 0 := faithful_fix R h 0 0 0 (by norm_num) (by norm_num) (by norm_num)
  simp only [pixelOn, sub_zero, f0, zero_div, mul_zero, add_zero, mandelbrot_zero R h,
    decide_True]

/-- The bitmap of a zeroed buffer is blank. -/
theorem getPixel_memcpy_zero (buf : Buffer) (x y : Nat) (hx : x < 128) (hy : y < 64) :
    getPixel (memcpy buf (fun _ => 0)) x y = false := by
  have hi : y / 8 * SSD1306_WIDTH + x < SSD1306_BUF_LEN := by
    show y / 8 * 128 + x < 2048
    omega
  simp only [getPixel, memcpy, if_pos hi, Nat.zero_testBit]

/-- The pixels of a buffer survive `memcpy` into another buffer. -/
theorem getPixel_memcpy (dst src : Buffer) (x y : Nat) (hx : x < 128) (hy : y < 64) :
    getPixel (memcpy dst src) x y = getPixel src x y := by
  have hi : y / 8 * SSD1306_WIDTH + x < SSD1306_BUF_LEN := by
    show y / 8 * 128 + x < 2048
    omega
  simp only [getPixel, memcpy, if_pos hi]

/-- A reachable cache is the untouched one, or its bitmap is the one computed for
its bounds. -/
theorem cache_reachable_sound (R : FloatModel) (k : RasterCache) (h : CacheReachable R k) :
    (k.cached_real_start = 0 ∧ k.cached_real_end = 0 ∧ k.cached_im_start = 0 ∧
        k.cached_im_end = 0 ∧ k.mandelbrot_cache = fun _ => 0) ∨
      ∀ x y, x < 128 → y < 64 → getPixel k.mandelbrot_cache x y =
        pixelOn R k.cached_real_start k.cached_im_start
          (R.f32 (R.f32 (k.cached_real_end - k.cached_real_start) / SSD1306_WIDTH))
          (R.f32 (R.f32 (k.cached_im_end - k.cached_im_start) / SSD1306_HEIGHT)) x y := by
  induction h with
  | start => exact Or.inl ⟨rfl, rfl, rfl, rfl, rfl⟩
  | call buf b rs re is ie k k1 _ hcall ih =>
    by_cases hhit : rs = k.cached_real_start ∧ re = k.cached_real_end ∧
        is = k.cached_im_start ∧ ie = k.cached_im_end
    · rw [draw_mandelbrot_hit R buf rs re is ie k hhit] at hcall
      simp only [Option.some.injEq, Prod.mk.injEq] at hcall
      rw [← hcall.2]
      exact ih
    · obtain ⟨b1, e, p, -⟩ := draw_mandelbrot_miss R buf rs re is ie k hhit
      rw [e] at hcall
      simp only [Option.some.injEq, Prod.mk.injEq] at hcall
      rw [← hcall.2]
      right
      intro x y hx hy
      show getPixel (memcpy k.mandelbrot_cache b1) x y = _
      rw [getPixel_memcpy _ _ x y hx hy]
      exact p x y hx hy

/-- Apart from the all-zero viewport asked of the untouched cache, a call of
`draw_mandelbrot` on a reachable cache returns the bitmap its loops compute for
the requested bounds. -/
theorem cache_serves_computed_bitmap (R : FloatModel) (k : RasterCache)
    (h : CacheReachable R k) (buf : Buffer) (real_start real_end im_start im_end : ℚ)
    (hreq : ¬ (real_start = 0 ∧ real_end = 0 ∧ im_start = 0 ∧ im_end = 0)) :
    ∃ b k1, draw_mandelbrot R buf real_start real_end im_start im_end k = some (b, k1) ∧
      ∀ x y, x < 128 → y < 64 → getPixel b x y =
        pixelOn R real_start im_start (R.f32 (R.f32 (real_end - real_start) / SSD1306_WIDTH))
          (R.f32 (R.f32 (im_end - im_start) / SSD1306_HEIGHT)) x y := by
  by_cases hhit : real_start = k.cached_real_start ∧ real_end = k.cached_real_end ∧
      im_start = k.cached_im_start ∧ im_end = k.cached_im_end
  · refine ⟨_, _, draw_mandelbrot_hit R buf _ _ _ _ k hhit, ?_⟩
    intro x y hx hy
    rw [getPixel_memcpy _ _ x y hx hy]
    rcases cache_reachable_sound R k h with hp | hs
    · exfalso
      apply hreq
      obtain ⟨h1, h2, h3, h4⟩ := hhit
      exact ⟨h1.trans hp.1, h2.trans hp.2.1, h3.trans hp.2.2.1, h4.trans hp.2.2.2.1⟩
    · obtain ⟨h1, h2, h3, h4⟩ := hhit
      rw [hs x y hx hy, ← h1, ← h2, ← h3, ← h4]
  · obtain ⟨b, e, p, -⟩ := draw_mandelbrot_miss R buf _ _ _ _ k hhit
    exact ⟨b, _, e, p⟩

/-! ## Rendered snapshot -/

/-- The state after `n` presses of button A in the initial mode, 300 ms apart. -/
theorem run_presses (n : Nat) (hn : n ≤ 14000) :
    run FloatModel.ideal ((List.range n).map (fun i => press_a (300000 + 300000 * i)))
        (init mem0) =
      some { init mem0 with new_cursor_size := (n : Int), last_time := 300000 * n } := by
  induction n with
  | zero => rfl
  | succ n ih =>
    have hacc : accepts { init mem0 with new_cursor_size := (n : Int), last_time := 300000 * n }
        (300000 + 300000 * n) = true := by
      simp only [accepts, decide_eq_true_eq]
      omega
    have e : button_interruption_gpio_irq_handler FloatModel.ideal
        ⟨300000 + 300000 * n, true, false, false, true⟩
        { init mem0 with new_cursor_size := (n : Int), last_time := 300000 * n } =
        { init mem0 with
          new_cursor_size := (n : Int) + 1
          last_time := (300000 + 300000 * n) % 2 ^ 32 } := by
      rw [handler_of_accepts _ _ _ hacc, accepted_body_a _ _ _ rfl rfl rfl]
      rfl
    rw [List.range_succ, List.map_append, run_append, ih (by omega)]
    simp only [Option.some_bind, List.map_cons, List.map_nil, run, step, press_a, e]
    rw [Nat.mod_eq_of_lt (by omega), show 300000 + 300000 * n = 300000 * (n + 1) by ring]
    rfl

/-- The state after the 256 presses of `wrap_run`. -/
theorem run_wrap_run : run FloatModel.ideal wrap_run (init mem0) = some wrapped :=
  run_presses 256 (by decide)

/-- At cursor size 256 the reading 0 of the vertical axis samples row 63. -/
theorem y_cursor_256 : y_cursor FloatModel.ideal 0 256 = 63 := by
  have h : truncToInt (-193 : ℚ) = -193 := by
    have e : ⌈(-193 : ℚ)⌉ = -193 := by
      rw [Int.ceil_eq_iff]
      norm_num
    simp [truncToInt, e]
  simp only [y_cursor, FloatModel.ideal, id]
  norm_num [h]
  rfl

/-- After a repaint with a cursor size from 0 to 255 the snapshot holds the values
just rendered, and the same call again finds nothing to repaint. -/
theorem controller_snapshot (R : FloatModel) (x y : Nat) (s s1 : State)
    (hlo : 0 ≤ s.new_cursor_size) (hhi : s.new_cursor_size ≤ 255)
    (hr : needs_repaint x y s = true) (h : controller R x y s = some s1) :
    s1.temp_cursor_x_position = x ∧ s1.temp_cursor_y_position = y ∧
      (s1.temp_cursor_size : Int) = s1.new_cursor_size ∧
      s1.temp_cursor_size = s1.new_width ∧ s1.temp_cursor_size = s1.new_height ∧
      s1.temp_real_start = s1.real_start ∧ s1.temp_real_end = s1.real_end ∧
      s1.temp_im_start = s1.im_start ∧ s1.temp_im_end = s1.im_end ∧
      needs_repaint x y s1 = false ∧ controller R x y s1 = some s1 := by
  obtain ⟨bm, k, -, e⟩ := controller_repaint R x y s hr
  rw [e, Option.map_eq_some'] at h
  obtain ⟨b, -, rfl⟩ := h
  have hsz : (((s.new_cursor_size % 256).toNat : Nat) : Int) = s.new_cursor_size := by
    omega
  have hn : needs_repaint x y
      { s with
        new_height := (s.new_cursor_size % 256).toNat
        new_width := (s.new_cursor_size % 256).toNat
        new_x_position := x
        new_y_position := y
        buf := b
        raster := k
        calls := s.calls ++
          [Call.memset, Call.render (frame (memset_zero s.buf)), Call.draw_mandelbrot,
            Call.draw_cursor, Call.render (frame b)]
        temp_cursor_x_position := x
        temp_cursor_y_position := y
        temp_cursor_size := (s.new_cursor_size % 256).toNat
        temp_real_start := s.real_start
        temp_real_end := s.real_end
        temp_im_start := s.im_start
        temp_im_end := s.im_end } = false := by
    simp only [needs_repaint, decide_eq_false_iff_not]
    simp [hsz]
  refine ⟨rfl, rfl, hsz, rfl, rfl, rfl, rfl, rfl, rfl, hn, ?_⟩
  rw [controller_idle R x y _ hn]

/-- At cursor size 256 the joystick readings `(0, 0)` sample the position `(0, 63)`. -/
theorem tick_at_256 (t : State) (h : t.new_cursor_size = 256) :
    controller_repeating_timer_callback FloatModel.ideal 0 0 t =
      controller FloatModel.ideal 0 63 t := by
  unfold controller_repeating_timer_callback
  rw [x_cursor_zero, h, y_cursor_256]

/-! ## Order of the viewport bounds -/

/-- In exact arithmetic the ranges `zoom_in` leaves are the old ranges scaled by the
halved cursor sides, whatever the position of the cursor. -/
theorem zoom_in_ideal_ranges (s : State) (left top width height : Nat) :
    (zoom_in FloatModel.ideal left top width height s).real_end -
        (zoom_in FloatModel.ideal left top width height s).real_start =
      (2 * (width / 2 : ℕ) : ℚ) * (s.real_end - s.real_start) / 128 ∧
    (zoom_in FloatModel.ideal left top width height s).im_end -
        (zoom_in FloatModel.ideal left top width height s).im_start =
      (2 * (height / 2 : ℕ) : ℚ) * (s.im_end - s.im_start) / 64 := by
  simp only [zoom_in, FloatModel.ideal, id]
  generalize width / 2 = wz
  generalize height / 2 = hz
  generalize (left + wz) % 256 = x0
  generalize (top + hz) % 256 = y0
  constructor <;> push_cast <;> ring

/-- The function `zoom_in` touches the four bounds only. -/
theorem zoom_in_history (R : FloatModel) (s : State) (left top width height : Nat) :
    (zoom_in R left top width height s).render_data = s.render_data ∧
      (zoom_in R left top width height s).render_data_count = s.render_data_count ∧
      (zoom_in R left top width height s).cursor_button_status = s.cursor_button_status :=
  ⟨rfl, rfl, rfl⟩

/-- A zoom on a cursor at least two pixels wide and high keeps the bounds in order. -/
theorem zoom_in_ordered (s : State) (left top width height : Nat)
    (h : ordered s.viewport) (hw : 2 ≤ width) (hh : 2 ≤ height) :
    ordered (zoom_in FloatModel.ideal left top width height s).viewport := by
  obtain ⟨h1, h2⟩ := zoom_in_ideal_ranges s left top width height
  obtain ⟨o1, o2⟩ := h
  simp only [State.viewport] at o1 o2
  have w1 : (1 : ℚ) ≤ ((width / 2 : ℕ) : ℚ) := by
    have : 1 ≤ width / 2 := by omega
    exact_mod_cast this
  have w2 : (1 : ℚ) ≤ ((height / 2 : ℕ) : ℚ) := by
    have : 1 ≤ height / 2 := by omega
    exact_mod_cast this
  constructor
  · show (zoom_in FloatModel.ideal left top width height s).real_start <
      (zoom_in FloatModel.ideal left top width height s).real_end
    have : 0 < (2 * (width / 2 : ℕ) : ℚ) * (s.real_end - s.real_start) / 128 := by
      apply div_pos _ (by norm_num)
      apply mul_pos (by linarith) (by linarith)
    linarith
  · show (zoom_in FloatModel.ideal left top width height s).im_start <
      (zoom_in FloatModel.ideal left top width height s).im_end
    have : 0 < (2 * (height / 2 : ℕ) : ℚ) * (s.im_end - s.im_start) / 64 := by
      apply div_pos _ (by norm_num)
      apply mul_pos (by linarith) (by linarith)
    linarith

/-- The condition `push_in_storage` spelled out. -/
theorem push_in_storage_iff (s : State) :
    push_in_storage s = true ↔
      ∃ n : Nat, s.render_data_alloc = some n ∧ 0 ≤ s.render_data_count + 1 ∧
        s.render_data_count + 1 < (n : Int) := by
  unfold push_in_storage
  cases h : s.render_data_alloc with
  | none => simp
  | some n => simp

/-- The condition `zoom_ready` of a button event spelled out. -/
theorem zoom_ready_button (e : ButtonEvent) (s : State) :
    zoom_ready (Event.button e) s = true ↔
      ((accepts s e.now = true ∧ e.button_a = true ∧ s.cursor_button_status = false) →
        2 ≤ s.new_width ∧ 2 ≤ s.new_height ∧ push_in_storage s = true) ∧
      ((accepts s e.now = true ∧ e.button_b = true ∧ s.cursor_button_status = false) →
        e.realloc_ok = true) := by
  cases h1 : accepts s e.now <;> cases h2 : e.button_a <;> cases h3 : e.button_b <;>
    cases h4 : s.cursor_button_status <;> simp [zoom_ready, h1, h2, h3, h4, and_assoc]

/-- Button A keeps the invariant: in CursorAdjust mode it touches the size only, in
ZoomAdjust mode it stores an ordered viewport inside the storage and zooms on a
cursor of two pixels or more. -/
theorem on_button_a_invariant (s : State) (h : ViewInvariant s)
    (hr : s.cursor_button_status = false →
      2 ≤ s.new_width ∧ 2 ≤ s.new_height ∧ push_in_storage s = true) :
    ViewInvariant (on_button_a FloatModel.ideal s) := by
  cases hm : s.cursor_button_status
  · rw [on_button_a_zoom _ _ hm]
    obtain ⟨hw, hh, hp⟩ := hr hm
    obtain ⟨n, hal, -, hin⟩ := (push_in_storage_iff s).mp hp
    obtain ⟨m, hal2, hm10, hlo, -⟩ := h.2.2
    have hnm : n = m := by
      rw [hal] at hal2
      exact Option.some.inj hal2
    refine ⟨zoom_in_ordered _ _ _ _ _ h.1 hw hh, ?_, ?_⟩
    · intro i hi0 hi
      show ordered (Function.update s.render_data (s.render_data_count + 1)
        ⟨s.real_start, s.real_end, s.im_start, s.im_end⟩ i)
      have hi2 : i ≤ s.render_data_count + 1 := hi
      by_cases he : i = s.render_data_count + 1
      · rw [he, Function.update_same]
        exact h.1
      · rw [Function.update_noteq he]
        exact h.2.1 i hi0 (by omega)
    · refine ⟨n, hal, by omega, ?_, ?_⟩
      · show -1 ≤ s.render_data_count + 1
        omega
      · show s.render_data_count + 1 + 1 ≤ (n : Int)
        omega
  · have e : on_button_a FloatModel.ideal s =
        { s with new_cursor_size := s.new_cursor_size + 1 } := by
      unfold on_button_a
      rw [if_pos hm]
    rw [e]
    exact h

/-- With `realloc` succeeding `undo_zoom_in` keeps the invariant: what it restores
is an entry the history counts, and the block it leaves holds the entries still
counted. -/
theorem undo_zoom_in_invariant (s : State) (h : ViewInvariant s) :
    ViewInvariant (undo_zoom_in true s) := by
  unfold undo_zoom_in
  split
  · rename_i hg
    have ho := h.2.1 _ hg.1 (le_refl _)
    refine ⟨ho, ?_, ?_⟩
    · intro i hi0 hi
      have hi2 : i ≤ s.render_data_count - 1 := hi
      exact h.2.1 i hi0 (by omega)
    · refine ⟨s.render_data_count.toNat, rfl, by omega, ?_, ?_⟩
      · show -1 ≤ s.render_data_count - 1
        omega
      · show s.render_data_count - 1 + 1 ≤ ((s.render_data_count.toNat : Nat) : Int)
        omega
  · exact h

/-- Button B keeps the invariant when the `realloc` of an undo succeeds. -/
theorem on_button_b_invariant (ok : Bool) (s : State) (h : ViewInvariant s)
    (hok : s.cursor_button_status = false → ok = true) :
    ViewInvariant (on_button_b ok s) := by
  cases hm : s.cursor_button_status
  · rw [on_button_b_zoom _ _ hm, hok hm]
    exact undo_zoom_in_invariant s h
  · unfold on_button_b
    rw [if_pos hm]
    exact h

/-- The body of the handler keeps the invariant under the conditions of
`zoom_ready`. -/
theorem accepted_body_invariant (e : ButtonEvent) (s : State) (h : ViewInvariant s)
    (hrA : e.button_a = true → s.cursor_button_status = false →
      2 ≤ s.new_width ∧ 2 ≤ s.new_height ∧ push_in_storage s = true)
    (hrB : e.button_b = true → s.cursor_button_status = false → e.realloc_ok = true) :
    ViewInvariant (accepted_body FloatModel.ideal e s) := by
  have hma : (if e.button_a then on_button_a FloatModel.ideal s else s).cursor_button_status =
      s.cursor_button_status := by
    cases e.button_a
    · rfl
    · exact (on_button_a_mode FloatModel.ideal s).1
  have ha : ViewInvariant (if e.button_a then on_button_a FloatModel.ideal s else s) := by
    cases hA : e.button_a
    · exact h
    · exact on_button_a_invariant s h (hrA hA)
  have hb : ViewInvariant (if e.button_b then
      on_button_b e.realloc_ok (if e.button_a then on_button_a FloatModel.ideal s else s)
      else (if e.button_a then on_button_a FloatModel.ideal s else s)) := by
    cases hB : e.button_b
    · exact ha
    · refine on_button_b_invariant _ _ ha ?_
      intro hm
      rw [hma] at hm
      exact hrB hB hm
  unfold accepted_body
  cases e.sw
  · exact hb
  · exact hb

/-- One event keeps the invariant under the condition `zoom_ready`. -/
theorem step_invariant (ev : Event) (s s1 : State) (h : ViewInvariant s)
    (hr : zoom_ready ev s = true) (hs : step FloatModel.ideal ev s = some s1) :
    ViewInvariant s1 := by
  cases ev with
  | button e =>
    simp only [step, Option.some.injEq] at hs
    rw [← hs]
    obtain ⟨hrA, hrB⟩ := (zoom_ready_button e s).mp hr
    cases hacc : accepts s e.now
    · rw [handler_of_rejects _ e s hacc]
      exact h
    · rw [handler_of_accepts _ e s hacc]
      refine accepted_body_invariant e _ h ?_ ?_
      · intro hA hm
        exact hrA ⟨hacc, hA, hm⟩
      · intro hB hm
        exact hrB ⟨hacc, hB, hm⟩
  | tick vrx vry =>
    simp only [step, controller_repeating_timer_callback] at hs
    obtain ⟨-, -, -, -, frs, fre, fis, fie, -, -, fd, fa, fc, -, -⟩ :=
      controller_frame _ _ _ s s1 hs
    refine ⟨?_, ?_, ?_⟩
    · show s1.real_start < s1.real_end ∧ s1.im_start < s1.im_end
      rw [frs, fre, fis, fie]
      exact h.1
    · intro i hi0 hi
      rw [fd]
      rw [fc] at hi
      exact h.2.1 i hi0 hi
    · obtain ⟨n, hal, hn, hlo, hin⟩ := h.2.2
      exact ⟨n, by rw [fa, hal], hn, by rw [fc]; exact hlo, by rw [fc]; exact hin⟩

/-- A run keeps the invariant when the condition `zoom_ready` holds at every event. -/
theorem run_invariant (evs : List Event) :
    ∀ (s s1 : State), ViewInvariant s → run_ready FloatModel.ideal evs s = true →
      run FloatModel.ideal evs s = some s1 → ViewInvariant s1 := by
  induction evs with
  | nil =>
    intro s s1 h _ hs
    simp only [run, Option.some.injEq] at hs
    rw [← hs]
    exact h
  | cons ev rest ih =>
    intro s s1 h hr hs
    simp only [run] at hs
    simp only [run_ready, Bool.and_eq_true] at hr
    cases hst : step FloatModel.ideal ev s with
    | none =>
      rw [hst] at hs
      exact Option.noConfusion hs
    | some s2 =>
      rw [hst] at hs
      have hr2 := hr.2
      rw [hst] at hr2
      exact ih s2 s1 (step_invariant ev s s2 h hr.1 hst) hr2 hs

/-- The startup state satisfies the invariant: the viewport is `(-2, 1, -3/2, 3/2)`,
the history counts no entry and its storage is the ten entries of `main`. -/
theorem init_invariant (mem : Int → render_data_t) : ViewInvariant (init mem) := by
  refine ⟨⟨?_, ?_⟩, ?_, ?_⟩
  · show (-2 : ℚ) < 1
    norm_num
  · show (-3 / 2 : ℚ) < 3 / 2
    norm_num
  · intro i hi0 hi
    have : i ≤ -1 := hi
    omega
  · refine ⟨10, rfl, le_refl _, le_refl _, ?_⟩
    show (-1 : Int) + 1 ≤ ((10 : Nat) : Int)
    decide

/-- The condition `run_ready` over two runs in sequence. -/
theorem run_ready_append (R : FloatModel) (evs1 evs2 : List Event) (s : State) :
    run_ready R (evs1 ++ evs2) s =
      (run_ready R evs1 s &&
        match run R evs1 s with
        | some s1 => run_ready R evs2 s1
        | none => true) := by
  induction evs1 generalizing s with
  | nil => simp [run_ready, run]
  | cons ev rest ih =>
    rw [List.cons_append, run_ready, run_ready, run]
    cases hst : step R ev s with
    | none => simp
    | some s1 =>
      simp only [Option.some_bind]
      rw [ih s1, Bool.and_assoc]

set_option maxRecDepth 100000 in
/-- The presses of `grow_run` are made in CursorAdjust mode. -/
theorem run_ready_grow_run : run_ready FloatModel.ideal grow_run (init mem0) = true := by
  decide

/-- Every event of `zoom_run 1` meets the condition `zoom_ready`: the only zoom is
made on the 64 by 64 cursor and pushes entry 0 into the ten entries of `main`. -/
theorem run_ready_zoom_run : run_ready FloatModel.ideal (zoom_run 1) (init mem0) = true := by
  obtain ⟨s, hs, hmode, -, -, hw, hh, -, -, -, -, hc, -⟩ := zoom_run_state 0
  have hal := zoom_run_alloc 0 s hs
  obtain ⟨s1, -, e1⟩ := zoom_prefix_tick
  have h0 : zoom_run 0 = zoom_prefix := by
    simp [zoom_run]
  have hsw : zoom_ready (press_sw 19500000) s1 = true := by
    rw [press_sw, zoom_ready_button]
    simp
  have ht : zoom_ready (Event.tick 4082 0) grown = true := rfl
  have hst1 : step FloatModel.ideal (Event.tick 4082 0) grown = some s1 := e1
  have hst2 : step FloatModel.ideal (press_sw 19500000) s1 =
      some (button_interruption_gpio_irq_handler FloatModel.ideal
        ⟨19500000, false, false, true, true⟩ s1) := rfl
  have hp : run_ready FloatModel.ideal zoom_prefix (init mem0) = true := by
    rw [ zoom_prefix, run_ready_append, run_ready_grow_run, run_grow_run]
    simp only [Bool.true_and, run_ready, ht, hst1, hsw, hst2, Bool.and_true]
  have h1 : zoom_run 1 = zoom_prefix ++ [press_a 19800000] := rfl
  have hps : push_in_storage s = true := by
    rw [push_in_storage_iff]
    refine ⟨10, hal, ?_, ?_⟩
    · rw [hc]
      decide
    · rw [hc]
      decide
  have ha : zoom_ready (press_a 19800000) s = true := by
    rw [press_a, zoom_ready_button]
    refine ⟨fun _ => ⟨by omega, by omega, hps⟩, ?_⟩
    simp
  have hst3 : step FloatModel.ideal (press_a 19800000) s =
      some (button_interruption_gpio_irq_handler FloatModel.ideal
        ⟨19800000, true, false, false, true⟩ s) := rfl
  rw [h1, run_ready_append, hp, ← h0, hs]
  simp only [Bool.true_and, run_ready, ha, hst3, Bool.and_true]

/-- At cursor size 1 the reading 0 of the vertical axis samples row 62. -/
theorem y_cursor_1 : y_cursor FloatModel.ideal 0 1 = 62 := by
  have h : truncToInt (62 : ℚ) = 62 := by
    have e : ⌊(62 : ℚ)⌋ = 62 := by
      rw [Int.floor_eq_iff]
      norm_num
    simp [truncToInt, e]
  simp only [y_cursor, FloatModel.ideal, id]
  norm_num [h]
  rfl

/-! ## Size of the history storage -/

/-- The function `undo_zoom_in` never leaves more than ten entries allocated. -/
theorem undo_zoom_in_alloc_le (ok : Bool) (s : State)
    (h : ∀ n, s.render_data_alloc = some n → n ≤ 10) :
    ∀ n, (undo_zoom_in ok s).render_data_alloc = some n → n ≤ 10 := by
  unfold undo_zoom_in
  split
  · rename_i hg
    cases ok
    · intro n hn
      exact Option.noConfusion hn
    · intro n hn
      have : s.render_data_count.toNat = n := Option.some.inj hn
      omega
  · exact h

/-- Button B never leaves more than ten entries allocated. -/
theorem on_button_b_alloc_le (ok : Bool) (s : State)
    (h : ∀ n, s.render_data_alloc = some n → n ≤ 10) :
    ∀ n, (on_button_b ok s).render_data_alloc = some n → n ≤ 10 := by
  unfold on_button_b
  split
  · exact h
  · exact undo_zoom_in_alloc_le ok s h

/-- In every reachable state the storage of the history has at most the ten entries
of `main`. -/
theorem reachable_alloc_le (R : FloatModel) (s : State) (h : Reachable R s) :
    ∀ n, s.render_data_alloc = some n → n ≤ 10 := by
  refine reachable_induction R (fun s => ∀ n, s.render_data_alloc = some n → n ≤ 10) ?_ ?_ s h
  · intro mem n hn
    have : (10 : Nat) = n := Option.some.inj hn
    omega
  · intro s ev s1 hp hs
    cases ev with
    | button e =>
      simp only [step, Option.some.injEq] at hs
      rw [← hs]
      have ha : ∀ t : State, (∀ n, t.render_data_alloc = some n → n ≤ 10) →
          ∀ n, (if e.button_a then on_button_a R t else t).render_data_alloc = some n →
            n ≤ 10 := by
        intro t ht
        cases e.button_a
        · exact ht
        · intro n hn
          rw [show (if true = true then on_button_a R t else t) = on_button_a R t from rfl,
            on_button_a_alloc] at hn
          exact ht n hn
      have hbody : ∀ t : State, (∀ n, t.render_data_alloc = some n → n ≤ 10) →
          ∀ n, (accepted_body R e t).render_data_alloc = some n → n ≤ 10 := by
        intro t ht
        have hb : ∀ n, (if e.button_b then
            on_button_b e.realloc_ok (if e.button_a then on_button_a R t else t)
            else (if e.button_a then on_button_a R t else t)).render_data_alloc = some n →
              n ≤ 10 := by
          cases e.button_b
          · exact ha t ht
          · exact on_button_b_alloc_le _ _ (ha t ht)
        unfold accepted_body
        cases e.sw
        · exact hb
        · exact hb
      unfold button_interruption_gpio_irq_handler
      split
      · exact hbody _ hp
      · exact hp
    | tick vrx vry =>
      simp only [step, controller_repeating_timer_callback] at hs
      rw [(controller_frame R _ _ s s1 hs).2.2.2.2.2.2.2.2.2.2.2.1]
      exact hp

/-! ## Repaint cycle -/

/-- The two branches of `controller`.  When `x`, `y`, the cursor size and the four
bounds all equal the rendered snapshot, `controller(x, y)` returns with no call
made and with buffer, raster cache and snapshot unchanged.  When one of them
differs and the square `draw_cursor` is given (side `(uint8_t) new_cursor_size`)
is empty or lies inside the bitmap, `controller(x, y)` returns after exactly one
repaint cycle: clear, push of the cleared buffer, fractal, cursor outline, push
of the finished buffer. -/
theorem controller_change_detection (R : FloatModel) (x y : Nat) (s : State) :
    ((x = s.temp_cursor_x_position ∧ y = s.temp_cursor_y_position ∧
        s.new_cursor_size = (s.temp_cursor_size : Int) ∧
        s.real_start = s.temp_real_start ∧ s.real_end = s.temp_real_end ∧
        s.im_start = s.temp_im_start ∧ s.im_end = s.temp_im_end) →
      ∃ s1, controller R x y s = some s1 ∧
        s1.calls = s.calls ∧ s1.buf = s.buf ∧ s1.raster = s.raster ∧
        s1.temp_cursor_x_position = s.temp_cursor_x_position ∧
        s1.temp_cursor_y_position = s.temp_cursor_y_position ∧
        s1.temp_cursor_size = s.temp_cursor_size ∧
        s1.temp_real_start = s.temp_real_start ∧ s1.temp_real_end = s.temp_real_end ∧
        s1.temp_im_start = s.temp_im_start ∧ s1.temp_im_end = s.temp_im_end) ∧
    (¬ (x = s.temp_cursor_x_position ∧ y = s.temp_cursor_y_position ∧
        s.new_cursor_size = (s.temp_cursor_size : Int) ∧
        s.real_start = s.temp_real_start ∧ s.real_end = s.temp_real_end ∧
        s.im_start = s.temp_im_start ∧ s.im_end = s.temp_im_end) →
      ((s.new_cursor_size % 256).toNat = 0 ∨
        (x + (s.new_cursor_size % 256).toNat ≤ 128 ∧
          y + (s.new_cursor_size % 256).toNat ≤ 64)) →
      ∃ s1, controller R x y s = some s1 ∧
        s1.calls = s.calls ++
          [Call.memset, Call.render (frame (memset_zero s.buf)), Call.draw_mandelbrot,
            Call.draw_cursor, Call.render (frame s1.buf)]) := by
  constructor
  · intro heq
    have hd : needs_repaint x y s = false := by
      simp only [needs_repaint, decide_eq_false_iff_not]
      tauto
    exact ⟨_, controller_idle R x y s hd, rfl, rfl, rfl, rfl, rfl, rfl, rfl, rfl, rfl, rfl⟩
  · intro hne hin
    have hd : needs_repaint x y s = true := by
      simp only [needs_repaint, decide_eq_true_eq]
      tauto
    obtain ⟨bm, k, -, e⟩ := controller_repaint R x y s hd
    obtain ⟨b, eb⟩ := draw_cursor_total bm y x (s.new_cursor_size % 256).toNat true hin
    rw [eb, Option.map_some'] at e
    exact ⟨_, e, rfl⟩

/-- The two branches of `controller` at the startup state: the first tick repaints
(the bounds differ from the zeroed snapshot, the cursor is empty); a state whose
snapshot is up to date does not. -/
theorem controller_change_detection_at_startup :
    (∃ s1, controller FloatModel.ideal 0 0
        { init mem0 with temp_real_start := -2, temp_real_end := 1, temp_im_start := -3 / 2,
                         temp_im_end := 3 / 2 } = some s1 ∧
      s1.calls = (init mem0).calls) ∧
    (∃ s1, controller FloatModel.ideal 0 0 (init mem0) = some s1 ∧
      s1.calls = (init mem0).calls ++
        [Call.memset, Call.render (frame (memset_zero (init mem0).buf)), Call.draw_mandelbrot,
          Call.draw_cursor, Call.render (frame s1.buf)]) := by
  constructor
  · obtain ⟨s1, e, hc, -⟩ := (controller_change_detection FloatModel.ideal 0 0
      { init mem0 with temp_real_start := -2, temp_real_end := 1, temp_im_start := -3 / 2,
                       temp_im_end := 3 / 2 }).1 ⟨rfl, rfl, rfl, rfl, rfl, rfl, rfl⟩
    exact ⟨s1, e, hc⟩
  · exact (controller_change_detection FloatModel.ideal 0 0 (init mem0)).2
      (fun h => absurd h.2.2.2.1 (by simp [init])) (Or.inl rfl)

/-! ## The claims -/

set_option maxRecDepth 100000 in
/-- Claim C1, which the code does not meet.  The claim: the zoom history never holds
more than 11 entries, a push at capacity being dropped.  The code: button A in
ZoomAdjust mode increments `render_data_count` and stores the viewport without
any test, so the mode switch followed by twelve accepted presses of button A
leaves `render_data_count + 1 = 12` entries, in storage allocated for 10. -/
theorem history_overflow :
    (run FloatModel.ideal overflow_run (init mem0)).map
      (fun s => (s.render_data_count + 1, s.render_data_alloc)) = some (12, some 10) := by
  decide

/-- Claim C2 as amended: in ZoomAdjust mode, when the storage of the history holds at
most ten entries (as in every reachable state) and the entry about to be pushed
lies inside it (`0 <= render_data_count + 1 < entries allocated`), for every
rounding behaviour, viewport, cursor rectangle and `realloc` outcome, an accepted
press of button A followed by an accepted press of button B leaves the four
viewport bounds equal to their values before the press of A; the entry the undo
reads is the one just written, at index `render_data_count + 1` of the same
block. -/
theorem zoom_then_undo (R : FloatModel) (s : State) (eA eB : ButtonEvent) (n : Nat)
    (hmode : s.cursor_button_status = false)
    (hsto : s.render_data_alloc = some n) (hn : n ≤ 10)
    (hlo : 0 ≤ s.render_data_count + 1) (hin : s.render_data_count + 1 < (n : Int))
    (hA : eA.button_a = true ∧ eA.button_b = false ∧ eA.sw = false)
    (hB : eB.button_a = false ∧ eB.button_b = true ∧ eB.sw = false)
    (accA : accepts s eA.now = true)
    (accB : accepts (button_interruption_gpio_irq_handler R eA s) eB.now = true) :
    (button_interruption_gpio_irq_handler R eB
      (button_interruption_gpio_irq_handler R eA s)).viewport = s.viewport ∧
    (button_interruption_gpio_irq_handler R eA s).render_data_alloc = some n ∧
    (button_interruption_gpio_irq_handler R eA s).render_data_count =
      s.render_data_count + 1 := by
  have e1 : button_interruption_gpio_irq_handler R eA s =
      zoom_in R s.new_x_position s.new_y_position s.new_width s.new_height
        { s with
          last_time := eA.now % 2 ^ 32
          render_data_count := s.render_data_count + 1
          render_data := Function.update s.render_data (s.render_data_count + 1)
            ⟨s.real_start, s.real_end, s.im_start, s.im_end⟩ } := by
    rw [handler_of_accepts R eA s accA, accepted_body_a R eA _ hA.1 hA.2.1 hA.2.2]
    exact on_button_a_zoom R _ hmode
  refine ⟨?_, ?_, ?_⟩
  · rw [handler_of_accepts R eB _ accB, accepted_body_b R eB _ hB.1 hB.2.1 hB.2.2, e1,
      on_button_b_zoom _ _ (by exact hmode), undo_zoom_in_viewport]
    · simp [zoom_in, State.viewport]
    · simp only [zoom_in]
      omega
  · rw [handler_alloc R eA s hA.2.1, hsto]
  · rw [e1]
    rfl

/-- Witness of C2: zoom and undo from the startup viewport in ZoomAdjust mode, with
the ten entries of `main` allocated and none in use. -/
theorem zoom_then_undo_witness :
    (button_interruption_gpio_irq_handler FloatModel.ideal ⟨600000, false, true, false, true⟩
      (button_interruption_gpio_irq_handler FloatModel.ideal ⟨300000, true, false, false, true⟩
        { init mem0 with cursor_button_status := false })).viewport =
      ({ init mem0 with cursor_button_status := false } : State).viewport :=
  (zoom_then_undo FloatModel.ideal { init mem0 with cursor_button_status := false }
    ⟨300000, true, false, false, true⟩ ⟨600000, false, true, false, true⟩ 10 rfl rfl
    (by decide) (by decide) (by decide) ⟨rfl, rfl, rfl⟩ ⟨rfl, rfl, rfl⟩ (by decide)
    (by decide)).1

/-- Counterexample to C2 as stated: after the run `zoom_run 11` the history holds 11
entries; the next accepted press of button A halves the real range once more and
the accepted press of button B that follows restores nothing, because
`undo_zoom_in` finds `render_data_count = 11` outside its guard. -/
theorem zoom_then_undo_at_capacity :
    ∃ s, run FloatModel.ideal (zoom_run 11) (init mem0) = some s ∧
      s.cursor_button_status = false ∧ s.render_data_count = 10 ∧
      accepts s 23100000 = true ∧
      accepts (button_interruption_gpio_irq_handler FloatModel.ideal
        ⟨23100000, true, false, false, true⟩ s) 23400000 = true ∧
      (button_interruption_gpio_irq_handler FloatModel.ideal ⟨23400000, false, true, false, true⟩
        (button_interruption_gpio_irq_handler FloatModel.ideal
          ⟨23100000, true, false, false, true⟩ s)).viewport ≠ s.viewport := by
  obtain ⟨s, hs, hmode, hx, hy, hw, hh, hrs, hre, his, hie, hc, hl⟩ := zoom_run_state 11
  have hacc : accepts s 23100000 = true := by
    simp only [accepts, hl, decide_eq_true_eq]
    decide
  have e1 : button_interruption_gpio_irq_handler FloatModel.ideal
      ⟨23100000, true, false, false, true⟩ s =
      zoom_in FloatModel.ideal s.new_x_position s.new_y_position s.new_width s.new_height
        { s with
          last_time := 23100000 % 2 ^ 32
          render_data_count := s.render_data_count + 1
          render_data := Function.update s.render_data (s.render_data_count + 1)
            ⟨s.real_start, s.real_end, s.im_start, s.im_end⟩ } := by
    rw [handler_of_accepts _ _ s hacc, accepted_body_a _ _ _ rfl rfl rfl]
    exact on_button_a_zoom _ _ hmode
  have haccB : accepts (button_interruption_gpio_irq_handler FloatModel.ideal
      ⟨23100000, true, false, false, true⟩ s) 23400000 = true := by
    have hlt := handler_last_time FloatModel.ideal ⟨23100000, true, false, false, true⟩ s hacc
    simp only [accepts, hlt, decide_eq_true_eq]
    decide
  refine ⟨s, hs, hmode, by rw [hc]; rfl, hacc, haccB, ?_⟩
  rw [handler_of_accepts _ _ _ haccB, accepted_body_b _ _ _ rfl rfl rfl, e1,
    on_button_b_zoom _ _ (by exact hmode), undo_zoom_in_guard_fails]
  · intro h
    have h2 := congrArg render_data_t.real_end h
    simp only [State.viewport, zoom_in, FloatModel.ideal, id, hx, hw, hrs, hre] at h2
    norm_num at h2
  · simp only [zoom_in, hc]
    decide

/-- Claim C3: for every rounding behaviour, viewport and cache state, two calls of
`draw_mandelbrot` in succession with the same four bounds both return, the second
one is a cache hit that leaves the cache as the first call left it, and the
buffer it produces agrees byte for byte with the buffer the first call produced,
whatever the second buffer held before. -/
theorem draw_mandelbrot_twice (R : FloatModel) (buf1 buf2 : Buffer)
    (real_start real_end im_start im_end : ℚ) (k : RasterCache) :
    ∃ b1 k1 b2,
      draw_mandelbrot R buf1 real_start real_end im_start im_end k = some (b1, k1) ∧
      (real_start = k1.cached_real_start ∧ real_end = k1.cached_real_end ∧
        im_start = k1.cached_im_start ∧ im_end = k1.cached_im_end) ∧
      draw_mandelbrot R buf2 real_start real_end im_start im_end k1 = some (b2, k1) ∧
      ∀ i, i < SSD1306_BUF_LEN → b2 i = b1 i := by
  by_cases h : real_start = k.cached_real_start ∧ real_end = k.cached_real_end ∧
      im_start = k.cached_im_start ∧ im_end = k.cached_im_end
  · refine ⟨memcpy buf1 k.mandelbrot_cache, k, memcpy buf2 k.mandelbrot_cache,
      draw_mandelbrot_hit R buf1 _ _ _ _ k h, h, draw_mandelbrot_hit R buf2 _ _ _ _ k h, ?_⟩
    intro i hi
    simp only [memcpy, if_pos hi]
  · obtain ⟨b, e, -, -⟩ := draw_mandelbrot_miss R buf1 real_start real_end im_start im_end k h
    refine ⟨b, _, memcpy buf2 (memcpy k.mandelbrot_cache b), e, ⟨rfl, rfl, rfl, rfl⟩,
      draw_mandelbrot_hit R buf2 _ _ _ _ _ ⟨rfl, rfl, rfl, rfl⟩, ?_⟩
    intro i hi
    simp only [memcpy, if_pos hi]

/-- Claim C4: in every reachable state `new_cursor_size` is at least 0, and an
accepted event with button B pressed in CursorAdjust mode at size 0 leaves the
size at 0, whatever the levels of the other two buttons. -/
theorem cursor_size_never_negative (R : FloatModel) :
    (∀ s, Reachable R s → 0 ≤ s.new_cursor_size) ∧
    (∀ (s : State) (e : ButtonEvent), s.cursor_button_status = true → s.new_cursor_size = 0 →
      accepts s e.now = true → e.button_b = true →
      (button_interruption_gpio_irq_handler R e s).new_cursor_size = 0) := by
  refine ⟨reachable_size_nonneg R, ?_⟩
  intro s e hmode h0 hacc hb
  rw [handler_of_accepts R e s hacc]
  exact accepted_body_b_at_zero R e _ hmode h0 hb

/-- Witness of C4: the startup state, and button B pressed in it 300 ms after boot. -/
theorem cursor_size_never_negative_witness :
    0 ≤ (init mem0).new_cursor_size ∧
      (button_interruption_gpio_irq_handler FloatModel.ideal ⟨300000, false, true, false, true⟩
        (init mem0)).new_cursor_size = 0 :=
  ⟨(cursor_size_never_negative FloatModel.ideal).1 (init mem0) (reachable_init _ mem0),
    (cursor_size_never_negative FloatModel.ideal).2 (init mem0)
      ⟨300000, false, true, false, true⟩ rfl rfl (by decide) rfl⟩

/-- Claim C5, which the code does not meet.  The claim: when a field differs from the
snapshot, `controller(x, y)` performs exactly one repaint cycle.  The code: the
cursor size has no ceiling and `controller` hands it to `draw_cursor` unchecked.
In the state `grown`, reached by `grow_run` (size 64), the timer callback with
the readings `(0, 0)` samples the position `(0, 255)`; the position differs from
the snapshot, and `controller(0, 255)` starts the repaint and does not complete
it: the assertion of `set_pixel` aborts it inside `draw_cursor`. -/
theorem controller_abort_example :
    ∃ s, run FloatModel.ideal grow_run (init mem0) = some s ∧
      x_cursor FloatModel.ideal 0 s.new_cursor_size = 0 ∧
      y_cursor FloatModel.ideal 0 s.new_cursor_size = 255 ∧
      needs_repaint 0 255 s = true ∧
      (255 : Nat) ≠ s.temp_cursor_y_position ∧ controller FloatModel.ideal 0 255 s = none := by
  have hr : needs_repaint 0 255 grown = true := by
    simp [needs_repaint, grown, init]
  refine ⟨grown, run_grow_run, x_cursor_zero _, y_cursor_64, hr, by decide, ?_⟩
  obtain ⟨bm, k, -, e⟩ := controller_repaint FloatModel.ideal 0 255 grown hr
  rw [e, show (grown.new_cursor_size % 256).toNat = 64 from rfl,
    draw_cursor_abort bm 255 0 64 true (by decide) (by decide)]
  rfl

/-- Claim C6: if the event at clock reading `e0.now` was accepted, the handler run
50 ms later is rejected and changes no state, and the handler run 250 ms later
is accepted and performs the transition of its buttons, for every value of the
32-bit clock. -/
theorem debounce_window (R : FloatModel) (s : State) (e0 e1 e2 : ButtonEvent)
    (h0 : accepts s e0.now = true) (h1 : e1.now = e0.now + 50000)
    (h2 : e2.now = e0.now + 250000) :
    accepts (button_interruption_gpio_irq_handler R e0 s) e1.now = false ∧
    button_interruption_gpio_irq_handler R e1 (button_interruption_gpio_irq_handler R e0 s) =
      button_interruption_gpio_irq_handler R e0 s ∧
    accepts (button_interruption_gpio_irq_handler R e0 s) e2.now = true ∧
    button_interruption_gpio_irq_handler R e2 (button_interruption_gpio_irq_handler R e0 s) =
      accepted_body R e2
        { button_interruption_gpio_irq_handler R e0 s with last_time := e2.now % 2 ^ 32 } := by
  have hl := handler_last_time R e0 s h0
  have a1 : accepts (button_interruption_gpio_irq_handler R e0 s) e1.now = false := by
    simp only [accepts, hl, h1, decide_eq_false_iff_not]
    omega
  have a2 : accepts (button_interruption_gpio_irq_handler R e0 s) e2.now = true := by
    simp only [accepts, hl, h2, decide_eq_true_eq]
    omega
  refine ⟨a1, ?_, a2, ?_⟩
  · exact handler_of_rejects R e1 _ a1
  · exact handler_of_accepts R e2 _ a2

/-- Witness of C6: an event 300 ms after boot, then events 50 ms and 250 ms later. -/
theorem debounce_window_witness :
    accepts (button_interruption_gpio_irq_handler FloatModel.ideal
        ⟨300000, true, false, false, true⟩ (init mem0)) 350000 = false ∧
    button_interruption_gpio_irq_handler FloatModel.ideal ⟨350000, true, false, false, true⟩
        (button_interruption_gpio_irq_handler FloatModel.ideal
          ⟨300000, true, false, false, true⟩ (init mem0)) =
      button_interruption_gpio_irq_handler FloatModel.ideal
        ⟨300000, true, false, false, true⟩ (init mem0) ∧
    accepts (button_interruption_gpio_irq_handler FloatModel.ideal
        ⟨300000, true, false, false, true⟩ (init mem0)) 550000 = true ∧
    button_interruption_gpio_irq_handler FloatModel.ideal ⟨550000, true, false, false, true⟩
        (button_interruption_gpio_irq_handler FloatModel.ideal
          ⟨300000, true, false, false, true⟩ (init mem0)) =
      accepted_body FloatModel.ideal ⟨550000, true, false, false, true⟩
        { button_interruption_gpio_irq_handler FloatModel.ideal
            ⟨300000, true, false, false, true⟩ (init mem0) with
          last_time := 550000 % 2 ^ 32 } :=
  debounce_window FloatModel.ideal (init mem0) ⟨300000, true, false, false, true⟩
    ⟨350000, true, false, false, true⟩ ⟨550000, true, false, false, true⟩ (by decide) rfl rfl

/-- Claim C7: for every rounding behaviour that is monotone and exact on binary32
dyadics, a cache-miss `draw_mandelbrot` of the viewport `(-2, 1, -3/2, 3/2)`
returns with pixel `(0, 0)` cleared and pixel `(64, 32)` set. -/
theorem initial_view_pixels (R : FloatModel) (h : R.Faithful32) (buf : Buffer) (k : RasterCache)
    (hmiss : ¬ ((-2 : ℚ) = k.cached_real_start ∧ (1 : ℚ) = k.cached_real_end ∧
      (-3 / 2 : ℚ) = k.cached_im_start ∧ (3 / 2 : ℚ) = k.cached_im_end)) :
    ∃ b k1, draw_mandelbrot R buf (-2) 1 (-3 / 2) (3 / 2) k = some (b, k1) ∧
      getPixel b 0 0 = false ∧ getPixel b 64 32 = true := by
  have fix := fun m e q hm he hq => faithful_fix R h m e q hm he hq
  have f0 : R.f32 0 = 0 := fix 0 0 0 (by norm_num) (by norm_num) (by norm_num)
  have f3 : R.f32 3 = 3 := fix 3 0 _ (by norm_num) (by norm_num) (by norm_num)
  have fx : R.f32 (3 / 128) = 3 / 128 := fix 3 7 _ (by norm_num) (by norm_num) (by norm_num)
  have fy : R.f32 (3 / 64) = 3 / 64 := fix 3 6 _ (by norm_num) (by norm_num) (by norm_num)
  have f32_ : R.f32 (3 / 2) = 3 / 2 := fix 3 1 _ (by norm_num) (by norm_num) (by norm_num)
  have fm2 : R.f32 (-2) = -2 := fix (-2) 0 _ (by norm_num) (by norm_num) (by norm_num)
  have fm32 : R.f32 (-3 / 2) = -3 / 2 := fix (-3) 1 _ (by norm_num) (by norm_num) (by norm_num)
  have fmh : R.f32 (-1 / 2) = -1 / 2 := fix (-1) 1 _ (by norm_num) (by norm_num) (by norm_num)
  have hX : R.f32 (R.f32 ((1 : ℚ) - (-2)) / (SSD1306_WIDTH : ℕ)) = 3 / 128 := by
    rw [show ((1 : ℚ) - (-2)) = 3 by norm_num, f3,
      show (3 : ℚ) / (SSD1306_WIDTH : ℕ) = 3 / 128 by norm_num, fx]
  have hY : R.f32 (R.f32 ((3 / 2 : ℚ) - (-3 / 2)) / (SSD1306_HEIGHT : ℕ)) = 3 / 64 := by
    rw [show ((3 / 2 : ℚ) - (-3 / 2)) = 3 by norm_num, f3,
      show (3 : ℚ) / (SSD1306_HEIGHT : ℕ) = 3 / 64 by norm_num, fy]
  obtain ⟨b, e, p, -⟩ := draw_mandelbrot_miss R buf (-2) 1 (-3 / 2) (3 / 2) k hmiss
  rw [hX, hY] at p
  refine ⟨b, _, e, ?_, ?_⟩
  · rw [p 0 0 (by norm_num) (by norm_num)]
    simp only [pixelOn, Nat.cast_zero, zero_mul, f0, add_zero, fm2, fm32,
      mandelbrot_corner R h]
    decide
  · rw [p 64 32 (by norm_num) (by norm_num)]
    have e1 : ((64 : ℕ) : ℚ) * (3 / 128) = 3 / 2 := by norm_num
    have e2 : ((32 : ℕ) : ℚ) * (3 / 64) = 3 / 2 := by norm_num
    have e3 : (-2 : ℚ) + 3 / 2 = -1 / 2 := by norm_num
    have e4 : (-3 / 2 : ℚ) + 3 / 2 = 0 := by norm_num
    simp only [pixelOn, e1, e2, f32_, e3, e4, fmh, f0, mandelbrot_minus_half R h]
    decide

/-- Witness of C7: exact arithmetic and the never written cache of startup. -/
theorem initial_view_pixels_witness :
    ∃ b k1, draw_mandelbrot FloatModel.ideal (fun _ => 0) (-2) 1 (-3 / 2) (3 / 2)
        ⟨fun _ => 0, 0, 0, 0, 0⟩ = some (b, k1) ∧
      getPixel b 0 0 = false ∧ getPixel b 64 32 = true :=
  initial_view_pixels FloatModel.ideal ideal_faithful32 (fun _ => 0) ⟨fun _ => 0, 0, 0, 0, 0⟩
    (by norm_num)

/-- Claim C8: for `0 <= x < 128` and `0 <= y < 64`, `set_pixel(buf, x, y, on_)`
returns a buffer whose byte `(y / 8) * 128 + x` has bit `y % 8` equal to `on_` and
its other seven bits unchanged, every other byte being unchanged. -/
theorem set_pixel_spec (buf : Buffer) (x y : Nat) (on_ : Bool) (hx : x < 128) (hy : y < 64) :
    ∃ b, set_pixel buf x y on_ = some b ∧
      (b (y / 8 * 128 + x)).testBit (y % 8) = on_ ∧
      (∀ j, j < 8 → j ≠ y % 8 →
        (b (y / 8 * 128 + x)).testBit j = (buf (y / 8 * 128 + x)).testBit j) ∧
      (∀ i, i ≠ y / 8 * 128 + x → b i = buf i) := by
  refine ⟨_, set_pixel_eq buf x y on_ hx hy, ?_, ?_, ?_⟩
  · rw [Function.update_same, new_byte_testBit _ _ _ _ (Nat.mod_lt _ (by norm_num))
      (Nat.mod_lt _ (by norm_num)), if_pos rfl]
  · intro j hj hne
    rw [Function.update_same, new_byte_testBit _ _ _ _ (Nat.mod_lt _ (by norm_num)) hj, if_neg hne]
  · intro i hi
    exact Function.update_noteq hi _ _

/-- Witness of C8: pixel `(3, 10)` of the cleared buffer. -/
theorem set_pixel_spec_witness :
    ∃ b, set_pixel (fun _ => 0) 3 10 true = some b ∧
      (b (10 / 8 * 128 + 3)).testBit (10 % 8) = true ∧
      (∀ j, j < 8 → j ≠ 10 % 8 →
        (b (10 / 8 * 128 + 3)).testBit j = ((fun _ => 0 : Buffer) (10 / 8 * 128 + 3)).testBit j) ∧
      (∀ i, i ≠ 10 / 8 * 128 + 3 → b i = (fun _ => 0 : Buffer) i) :=
  set_pixel_spec (fun _ => 0) 3 10 true (by decide) (by decide)

/-- Claim C9: for a rectangle with `width >= 1` and `height >= 1` inside the 128 by
64 bitmap, `draw_cursor` returns; afterwards the pixels of rows `top` and
`top + height - 1` between the two sides, and of columns `left` and
`left + width - 1` between top and bottom, have the value `on_`, every other
pixel keeps its value, and so does the part of the buffer behind the bitmap. -/
theorem draw_cursor_outline (buf : Buffer) (top left width height : Nat) (on_ : Bool)
    (hw : 1 ≤ width) (hh : 1 ≤ height) (hl : left + width ≤ 128) (ht : top + height ≤ 64) :
    ∃ b, draw_cursor buf top left width height on_ = some b ∧
      (∀ x y, x < 128 → y < 64 →
        getPixel b x y =
          if ((y = top ∨ y = top + height - 1) ∧ left ≤ x ∧ x < left + width) ∨
              ((x = left ∨ x = left + width - 1) ∧ top ≤ y ∧ y < top + height) then on_
          else getPixel buf x y) ∧
      (∀ i, 1024 ≤ i → b i = buf i) :=
  draw_cursor_pixels buf top left width height on_ hw hh hl ht

/-- Witness of C9: a 4 by 5 rectangle at column 3, row 2 of the cleared buffer. -/
theorem draw_cursor_outline_witness :
    ∃ b, draw_cursor (fun _ => 0) 2 3 4 5 true = some b ∧
      (∀ x y, x < 128 → y < 64 →
        getPixel b x y =
          if ((y = 2 ∨ y = 2 + 5 - 1) ∧ 3 ≤ x ∧ x < 3 + 4) ∨
              ((x = 3 ∨ x = 3 + 4 - 1) ∧ 2 ≤ y ∧ y < 2 + 5) then true
          else getPixel (fun _ => 0) x y) ∧
      (∀ i, 1024 ≤ i → b i = (fun _ => 0 : Buffer) i) :=
  draw_cursor_outline (fun _ => 0) 2 3 4 5 true (by decide) (by decide) (by decide) (by decide)

/-- Claim C10, which the code does not meet.  The claim: for every reachable cursor
size the sampled position keeps the cursor square on the screen, so no
assertion of `set_pixel` fails.  The code: the size has no ceiling; after the
sixty-four presses of `grow_run` it is 64, the readings `(0, 0)` give
`y_cursor = 255`, and the tick aborts on the assertion. -/
theorem cursor_off_screen :
    ∃ s, run FloatModel.ideal grow_run (init mem0) = some s ∧ s.new_cursor_size = 64 ∧
      y_cursor FloatModel.ideal 0 s.new_cursor_size = 255 ∧
      ¬ (y_cursor FloatModel.ideal 0 s.new_cursor_size + 64 ≤ 63) ∧
      controller_repeating_timer_callback FloatModel.ideal 0 0 s = none := by
  refine ⟨grown, run_grow_run, rfl, y_cursor_64, ?_, ?_⟩
  · rw [show grown.new_cursor_size = 64 from rfl, y_cursor_64]
    decide
  · have hr : needs_repaint 0 255 grown = true := by
      simp [needs_repaint, grown, init]
    obtain ⟨bm, k, -, e⟩ := controller_repaint FloatModel.ideal 0 255 grown hr
    unfold controller_repeating_timer_callback
    rw [x_cursor_zero, show y_cursor FloatModel.ideal 0 grown.new_cursor_size = 255
      from y_cursor_64, e, show (grown.new_cursor_size % 256).toNat = 64 from rfl,
      draw_cursor_abort bm 255 0 64 true (by decide) (by decide)]
    rfl

/-- Claim C11: at startup the history is empty (`render_data_count = -1`), and with
an empty history an accepted press of button B alone in ZoomAdjust mode changes
nothing but the debounce clock: bounds, history contents, allocation and count,
cursor, mode and LED are as before and no diagnostic is printed. -/
theorem undo_on_empty_history (R : FloatModel) (s : State) (e : ButtonEvent)
    (hmode : s.cursor_button_status = false) (hc : s.render_data_count = -1)
    (hacc : accepts s e.now = true)
    (hB : e.button_a = false ∧ e.button_b = true ∧ e.sw = false) :
    (∀ mem, (init mem).render_data_count = -1) ∧
      button_interruption_gpio_irq_handler R e s = { s with last_time := e.now % 2 ^ 32 } := by
  refine ⟨fun _ => rfl, ?_⟩
  rw [handler_of_accepts R e s hacc, accepted_body_b R e _ hB.1 hB.2.1 hB.2.2,
    on_button_b_zoom _ _ (by exact hmode), undo_zoom_in_guard_fails]
  show ¬ (0 ≤ s.render_data_count ∧ s.render_data_count ≤ 10)
  rw [hc]
  decide

/-- Witness of C11: button B pressed 300 ms after boot in the startup state switched
to ZoomAdjust mode. -/
theorem undo_on_empty_history_witness :
    button_interruption_gpio_irq_handler FloatModel.ideal ⟨300000, false, true, false, true⟩
        { init mem0 with cursor_button_status := false, led := true } =
      { init mem0 with cursor_button_status := false, led := true, last_time := 300000 % 2 ^ 32 } :=
  (undo_on_empty_history FloatModel.ideal
    { init mem0 with cursor_button_status := false, led := true }
    ⟨300000, false, true, false, true⟩ rfl rfl (by decide) ⟨rfl, rfl, rfl⟩).2

/-- Claim C13: the startup state is CursorAdjust with the LED off; in every reachable
state the LED is on exactly when the mode is ZoomAdjust
(`cursor_button_status = false`); an accepted event with `SW` pressed flips both
the mode and the LED; a rejected event, an accepted event without `SW`, and a
timer tick change neither. -/
theorem led_shows_mode (R : FloatModel) :
    (∀ mem, (init mem).cursor_button_status = true ∧ (init mem).led = false) ∧
    (∀ s, Reachable R s → (s.led = true ↔ s.cursor_button_status = false)) ∧
    (∀ (s : State) (e : ButtonEvent), accepts s e.now = true → e.sw = true →
      (button_interruption_gpio_irq_handler R e s).cursor_button_status =
          (!s.cursor_button_status) ∧
        (button_interruption_gpio_irq_handler R e s).led = (!s.led)) ∧
    (∀ (s : State) (e : ButtonEvent), (accepts s e.now = false ∨ e.sw = false) →
      (button_interruption_gpio_irq_handler R e s).cursor_button_status =
          s.cursor_button_status ∧
        (button_interruption_gpio_irq_handler R e s).led = s.led) ∧
    (∀ (s s1 : State) (vrx vry : Nat),
      controller_repeating_timer_callback R vrx vry s = some s1 →
      s1.cursor_button_status = s.cursor_button_status ∧ s1.led = s.led) := by
  refine ⟨fun _ => ⟨rfl, rfl⟩, ?_, ?_, ?_, ?_⟩
  · intro s hs
    rw [reachable_led R s hs]
    cases s.cursor_button_status <;> simp
  · intro s e hacc hsw
    have := handler_mode R e s
    simpa [hacc, hsw] using this
  · intro s e h
    have := handler_mode R e s
    rcases h with h | h <;> simpa [h] using this
  · intro s s1 vrx vry h
    obtain ⟨-, -, -, -, -, -, -, -, -, fm, -, -, -, -, fl⟩ := controller_frame R _ _ s s1 h
    exact ⟨fm, fl⟩

/-- Witness of C13: the startup state, and the mode switch pressed in it 300 ms after
boot. -/
theorem led_shows_mode_witness :
    ((init mem0).led = true ↔ (init mem0).cursor_button_status = false) ∧
      (button_interruption_gpio_irq_handler FloatModel.ideal ⟨300000, false, false, true, true⟩
          (init mem0)).cursor_button_status = (!(init mem0).cursor_button_status) ∧
      (button_interruption_gpio_irq_handler FloatModel.ideal ⟨300000, false, false, true, true⟩
          (init mem0)).led = (!(init mem0).led) :=
  ⟨(led_shows_mode FloatModel.ideal).2.1 (init mem0) (reachable_init _ mem0),
    (led_shows_mode FloatModel.ideal).2.2.1 (init mem0) ⟨300000, false, false, true, true⟩
      (by decide) rfl⟩

/-- Claim C17: in exact arithmetic, for every viewport and every cursor rectangle
with `left + 2 * (width / 2) <= 128` and `top + 2 * (height / 2) <= 64`, the
bounds `zoom_in` computes are the coordinates the pixel mapping of
`draw_mandelbrot` gives, in the old viewport, to columns `left` and
`left + 2 * (width / 2)` and to rows `top` and `top + 2 * (height / 2)`; each new
bound lies between the two old bounds of its axis, and when the old bounds are
in order the new interval lies inside the old one. -/
theorem zoom_in_matches_pixel_mapping (s : State) (left top width height : Nat)
    (hl : left + 2 * (width / 2) ≤ 128) (ht : top + 2 * (height / 2) ≤ 64) :
    ((zoom_in FloatModel.ideal left top width height s).real_start =
        pixel_real FloatModel.ideal s.real_start
          (stepX FloatModel.ideal s.real_start s.real_end) left ∧
      (zoom_in FloatModel.ideal left top width height s).real_end =
        pixel_real FloatModel.ideal s.real_start
          (stepX FloatModel.ideal s.real_start s.real_end) (left + 2 * (width / 2)) ∧
      (zoom_in FloatModel.ideal left top width height s).im_start =
        pixel_imag FloatModel.ideal s.im_start
          (stepY FloatModel.ideal s.im_start s.im_end) top ∧
      (zoom_in FloatModel.ideal left top width height s).im_end =
        pixel_imag FloatModel.ideal s.im_start
          (stepY FloatModel.ideal s.im_start s.im_end) (top + 2 * (height / 2))) ∧
    ((zoom_in FloatModel.ideal left top width height s).real_start =
        s.real_start + (left : ℚ) * ((s.real_end - s.real_start) / 128) ∧
      (zoom_in FloatModel.ideal left top width height s).real_end =
        s.real_start + ((left + 2 * (width / 2) : ℕ) : ℚ) * ((s.real_end - s.real_start) / 128) ∧
      (zoom_in FloatModel.ideal left top width height s).im_start =
        s.im_start + (top : ℚ) * ((s.im_end - s.im_start) / 64) ∧
      (zoom_in FloatModel.ideal left top width height s).im_end =
        s.im_start + ((top + 2 * (height / 2) : ℕ) : ℚ) * ((s.im_end - s.im_start) / 64)) ∧
    ((min s.real_start s.real_end ≤ (zoom_in FloatModel.ideal left top width height s).real_start ∧
        (zoom_in FloatModel.ideal left top width height s).real_start ≤
          max s.real_start s.real_end) ∧
      (min s.real_start s.real_end ≤ (zoom_in FloatModel.ideal left top width height s).real_end ∧
        (zoom_in FloatModel.ideal left top width height s).real_end ≤
          max s.real_start s.real_end) ∧
      (min s.im_start s.im_end ≤ (zoom_in FloatModel.ideal left top width height s).im_start ∧
        (zoom_in FloatModel.ideal left top width height s).im_start ≤ max s.im_start s.im_end) ∧
      (min s.im_start s.im_end ≤ (zoom_in FloatModel.ideal left top width height s).im_end ∧
        (zoom_in FloatModel.ideal left top width height s).im_end ≤ max s.im_start s.im_end)) ∧
    (s.real_start ≤ s.real_end →
      s.real_start ≤ (zoom_in FloatModel.ideal left top width height s).real_start ∧
        (zoom_in FloatModel.ideal left top width height s).real_start ≤
          (zoom_in FloatModel.ideal left top width height s).real_end ∧
        (zoom_in FloatModel.ideal left top width height s).real_end ≤ s.real_end) ∧
    (s.im_start ≤ s.im_end →
      s.im_start ≤ (zoom_in FloatModel.ideal left top width height s).im_start ∧
        (zoom_in FloatModel.ideal left top width height s).im_start ≤
          (zoom_in FloatModel.ideal left top width height s).im_end ∧
        (zoom_in FloatModel.ideal left top width height s).im_end ≤ s.im_end) := by
  obtain ⟨h1, h2, h3, h4⟩ := zoom_in_ideal_bounds s left top width height (by omega) (by omega)
  refine ⟨⟨?_, ?_, ?_, ?_⟩, ⟨h1, h2, h3, h4⟩, ⟨?_, ?_, ?_, ?_⟩, ?_, ?_⟩
  · rw [h1, pixel_real_ideal]
  · rw [h2, pixel_real_ideal]
  · rw [h3, pixel_imag_ideal]
  · rw [h4, pixel_imag_ideal]
  · rw [h1]
    exact_mod_cast between_of_fraction s.real_start s.real_end left 128 (by norm_num) (by omega)
  · rw [h2]
    exact_mod_cast between_of_fraction s.real_start s.real_end (left + 2 * (width / 2)) 128
      (by norm_num) hl
  · rw [h3]
    exact_mod_cast between_of_fraction s.im_start s.im_end top 64 (by norm_num) (by omega)
  · rw [h4]
    exact_mod_cast between_of_fraction s.im_start s.im_end (top + 2 * (height / 2)) 64
      (by norm_num) ht
  · intro hle
    rw [h1, h2]
    exact_mod_cast ordered_of_fractions s.real_start s.real_end left (left + 2 * (width / 2)) 128
      (by norm_num) (by omega) hl hle
  · intro hle
    rw [h3, h4]
    exact_mod_cast ordered_of_fractions s.im_start s.im_end top (top + 2 * (height / 2)) 64
      (by norm_num) (by omega) ht hle

/-- Witness of C17: the startup viewport and the cursor rectangle with corner
`(32, 16)`, 64 wide and 32 high. -/
theorem zoom_in_matches_pixel_mapping_witness :
    (zoom_in FloatModel.ideal 32 16 64 32 (init mem0)).real_start =
        pixel_real FloatModel.ideal (init mem0).real_start
          (stepX FloatModel.ideal (init mem0).real_start (init mem0).real_end) 32 ∧
      ((init mem0).real_start ≤ (init mem0).real_end →
        (init mem0).real_start ≤ (zoom_in FloatModel.ideal 32 16 64 32 (init mem0)).real_start ∧
          (zoom_in FloatModel.ideal 32 16 64 32 (init mem0)).real_start ≤
            (zoom_in FloatModel.ideal 32 16 64 32 (init mem0)).real_end ∧
          (zoom_in FloatModel.ideal 32 16 64 32 (init mem0)).real_end ≤ (init mem0).real_end) :=
  ⟨(zoom_in_matches_pixel_mapping (init mem0) 32 16 64 32 (by decide) (by decide)).1.1,
    (zoom_in_matches_pixel_mapping (init mem0) 32 16 64 32 (by decide) (by decide)).2.2.2.1⟩

/-- Claim C15, in exact arithmetic: on a cache miss `draw_mandelbrot` returns, and for
every pixel `(x, y)` of the bitmap, with `c` the point
`(real_start + x * stepX) + i (im_start + y * stepY)`,
`stepX = (real_end - real_start) / 128`, `stepY = (im_end - im_start) / 64`, the
pixel is on exactly when the orbit `z_0 = 0`, `z_(k+1) = z_k ^ 2 + c` has
`|z_k| <= 2` for every `k < MAX_ITER` (stated on the rational orbit and in the
complex numbers), exactly when `mandelbrot(c) = MAX_ITER`; and `mandelbrot(c)` is
the least index at which the orbit leaves the disc of radius 2, capped at
`MAX_ITER`. -/
theorem escape_time_pixels (buf : Buffer) (real_start real_end im_start im_end : ℚ)
    (k : RasterCache)
    (hmiss : ¬ (real_start = k.cached_real_start ∧ real_end = k.cached_real_end ∧
      im_start = k.cached_im_start ∧ im_end = k.cached_im_end)) :
    ∃ b k1, draw_mandelbrot FloatModel.ideal buf real_start real_end im_start im_end k =
        some (b, k1) ∧
      ∀ (x y : Nat) (c : Cfloat), x < 128 → y < 64 →
        c = ⟨real_start + (x : ℚ) * ((real_end - real_start) / 128),
          im_start + (y : ℚ) * ((im_end - im_start) / 64)⟩ →
        (getPixel b x y = true ↔
          ∀ j, j < MAX_ITER →
            (orbit c j).re * (orbit c j).re + (orbit c j).im * (orbit c j).im ≤ 4) ∧
        (getPixel b x y = true ↔
          ∀ j, j < MAX_ITER →
            Complex.abs ((fun z : ℂ => z ^ 2 + Complex.mk (c.re : ℝ) (c.im : ℝ))^[j] 0) ≤ 2) ∧
        (getPixel b x y = true ↔ mandelbrot FloatModel.ideal c = MAX_ITER) ∧
        mandelbrot FloatModel.ideal c ≤ MAX_ITER ∧
        (∀ j, j < mandelbrot FloatModel.ideal c →
          (orbit c j).re * (orbit c j).re + (orbit c j).im * (orbit c j).im ≤ 4) ∧
        (mandelbrot FloatModel.ideal c < MAX_ITER →
          4 < (orbit c (mandelbrot FloatModel.ideal c)).re *
                (orbit c (mandelbrot FloatModel.ideal c)).re +
              (orbit c (mandelbrot FloatModel.ideal c)).im *
                (orbit c (mandelbrot FloatModel.ideal c)).im) := by
  obtain ⟨b, e, p, -⟩ :=
    draw_mandelbrot_miss FloatModel.ideal buf real_start real_end im_start im_end k hmiss
  refine ⟨b, _, e, ?_⟩
  intro x y c hx hy hc
  have hpc : pixel_c FloatModel.ideal real_start real_end im_start im_end x y = c := by
    rw [hc, pixel_c, pixel_real_ideal, pixel_imag_ideal]
  have hpix : getPixel b x y = true ↔ mandelbrot FloatModel.ideal c = MAX_ITER := by
    rw [p x y hx hy, pixelOn_eq, hpc, decide_eq_true_eq]
  obtain ⟨h1, h2, h3, h4⟩ := mandelbrot_ideal_orbit c
  refine ⟨hpix.trans h4, ?_, hpix, h1, h2, h3⟩
  rw [hpix, h4]
  constructor
  · intro h j hj
    exact (orbit_modulus c j).mp (h j hj)
  · intro h j hj
    exact (orbit_modulus c j).mpr (h j hj)

/-- Witness of C15: the first repaint after startup (the startup viewport, the cache
as `main` finds it) and the centre pixel. -/
theorem escape_time_pixels_witness :
    ∃ b k1, draw_mandelbrot FloatModel.ideal (fun _ => 0) (-2) 1 (-3 / 2) (3 / 2)
        (init mem0).raster = some (b, k1) ∧
      (getPixel b 64 32 = true ↔
          mandelbrot FloatModel.ideal
            ⟨-2 + ((64 : ℕ) : ℚ) * ((1 - -2) / 128),
              -3 / 2 + ((32 : ℕ) : ℚ) * ((3 / 2 - -3 / 2) / 64)⟩ = MAX_ITER) := by
  obtain ⟨b, k1, e, h⟩ := escape_time_pixels (fun _ => 0) (-2) 1 (-3 / 2) (3 / 2)
    (init mem0).raster (by
      intro h
      have := h.1
      simp [init] at this)
  exact ⟨b, k1, e, (h 64 32 _ (by decide) (by decide) rfl).2.2.1⟩

/-- Claim C12, which the code does not meet.  The claim: when `realloc` fails in
`undo_zoom_in`, bounds, history entries and count are as before the call.  The
code: the four bounds are overwritten before `realloc` is called and the
pointer is overwritten with its result.  After `zoom_run 1` and one more
accepted press of button A the mode is ZoomAdjust, the history holds two entries
in the storage of `main` and `real_end = -5/4`; an accepted press of button B
whose `realloc` fails leaves `real_end = -1/2`, the pointer null and the count
at 1. -/
theorem undo_realloc_failure :
    ∃ s, run FloatModel.ideal (zoom_run 1) (init mem0) = some s ∧
      accepts s 20100000 = true ∧
      accepts (button_interruption_gpio_irq_handler FloatModel.ideal
        ⟨20100000, true, false, false, true⟩ s) 20400000 = true ∧
      (button_interruption_gpio_irq_handler FloatModel.ideal
        ⟨20100000, true, false, false, true⟩ s).cursor_button_status = false ∧
      (button_interruption_gpio_irq_handler FloatModel.ideal
        ⟨20100000, true, false, false, true⟩ s).render_data_count = 1 ∧
      (button_interruption_gpio_irq_handler FloatModel.ideal
        ⟨20100000, true, false, false, true⟩ s).render_data_alloc = some 10 ∧
      (button_interruption_gpio_irq_handler FloatModel.ideal
        ⟨20100000, true, false, false, true⟩ s).real_end = -5 / 4 ∧
      (button_interruption_gpio_irq_handler FloatModel.ideal ⟨20400000, false, true, false, false⟩
        (button_interruption_gpio_irq_handler FloatModel.ideal
          ⟨20100000, true, false, false, true⟩ s)).real_end = -1 / 2 ∧
      (button_interruption_gpio_irq_handler FloatModel.ideal ⟨20400000, false, true, false, false⟩
        (button_interruption_gpio_irq_handler FloatModel.ideal
          ⟨20100000, true, false, false, true⟩ s)).render_data_alloc = none ∧
      (button_interruption_gpio_irq_handler FloatModel.ideal ⟨20400000, false, true, false, false⟩
        (button_interruption_gpio_irq_handler FloatModel.ideal
          ⟨20100000, true, false, false, true⟩ s)).render_data_count = 1 := by
  obtain ⟨s, hs, hmode, hx, hy, hw, hh, hrs, hre, his, hie, hc, hl⟩ := zoom_run_state 1
  have hal := zoom_run_alloc 1 s hs
  have hacc : accepts s 20100000 = true := by
    simp only [accepts, hl, decide_eq_true_eq]
    decide
  have e1 : button_interruption_gpio_irq_handler FloatModel.ideal
      ⟨20100000, true, false, false, true⟩ s =
      zoom_in FloatModel.ideal s.new_x_position s.new_y_position s.new_width s.new_height
        { s with
          last_time := 20100000 % 2 ^ 32
          render_data_count := s.render_data_count + 1
          render_data := Function.update s.render_data (s.render_data_count + 1)
            ⟨s.real_start, s.real_end, s.im_start, s.im_end⟩ } := by
    rw [handler_of_accepts _ _ s hacc, accepted_body_a _ _ _ rfl rfl rfl]
    exact on_button_a_zoom _ _ hmode
  have haccB : accepts (button_interruption_gpio_irq_handler FloatModel.ideal
      ⟨20100000, true, false, false, true⟩ s) 20400000 = true := by
    have hlt := handler_last_time FloatModel.ideal ⟨20100000, true, false, false, true⟩ s hacc
    simp only [accepts, hlt, decide_eq_true_eq]
    decide
  have hcnt : (button_interruption_gpio_irq_handler FloatModel.ideal
      ⟨20100000, true, false, false, true⟩ s).render_data_count = 1 := by
    rw [e1]
    simp only [zoom_in, hc]
    decide
  have e2 : button_interruption_gpio_irq_handler FloatModel.ideal
      ⟨20400000, false, true, false, false⟩
      (button_interruption_gpio_irq_handler FloatModel.ideal
        ⟨20100000, true, false, false, true⟩ s) =
      undo_zoom_in false
        { button_interruption_gpio_irq_handler FloatModel.ideal
            ⟨20100000, true, false, false, true⟩ s with last_time := 20400000 % 2 ^ 32 } := by
    rw [handler_of_accepts _ _ _ haccB, accepted_body_b _ _ _ rfl rfl rfl]
    refine on_button_b_zoom _ _ ?_
    rw [e1]
    exact hmode
  have hg : 0 ≤ ({ button_interruption_gpio_irq_handler FloatModel.ideal
            ⟨20100000, true, false, false, true⟩ s with
            last_time := 20400000 % 2 ^ 32 } : State).render_data_count ∧
      ({ button_interruption_gpio_irq_handler FloatModel.ideal
            ⟨20100000, true, false, false, true⟩ s with
            last_time := 20400000 % 2 ^ 32 } : State).render_data_count ≤ 10 := by
    show 0 ≤ (button_interruption_gpio_irq_handler FloatModel.ideal
        ⟨20100000, true, false, false, true⟩ s).render_data_count ∧
      (button_interruption_gpio_irq_handler FloatModel.ideal
        ⟨20100000, true, false, false, true⟩ s).render_data_count ≤ 10
    rw [hcnt]
    decide
  refine ⟨s, hs, hacc, haccB, ?_, hcnt, ?_, ?_, ?_, ?_, ?_⟩
  · rw [e1]
    exact hmode
  · rw [handler_alloc _ _ _ rfl]
    exact hal
  · rw [e1]
    simp only [zoom_in, FloatModel.ideal, id, hx, hw, hrs, hre]
    norm_num
  · rw [e2, undo_zoom_in_realloc_failure _ hg]
    show ((button_interruption_gpio_irq_handler FloatModel.ideal
        ⟨20100000, true, false, false, true⟩ s).render_data
      (button_interruption_gpio_irq_handler FloatModel.ideal
        ⟨20100000, true, false, false, true⟩ s).render_data_count).real_end = -1 / 2
    rw [hcnt, e1]
    simp only [zoom_in, hc]
    rw [show ((1 : ℕ) : Int) - 1 + 1 = 1 from rfl, Function.update_same]
    show s.real_end = -1 / 2
    rw [hre]
    norm_num
  · rw [e2, undo_zoom_in_realloc_failure _ hg]
  · rw [e2, undo_zoom_in_realloc_failure _ hg]
    exact hcnt

/-- Claim C18, which the code does not meet.  The claim: the index
`render_data_count + 1` written by a press of button A in ZoomAdjust mode is
below the number of entries allocated.  The code: the push neither tests nor
grows the storage.  After `shrink_run` (two zooms, one undo) `realloc` has cut
the storage to one entry and the next accepted press of button A writes index 1;
after `fill_run` (ten zooms) the storage of `main` is full and the next accepted
press of button A writes index 10 of 10 entries. -/
theorem push_outside_storage :
    (∃ s, run FloatModel.ideal shrink_run (init mem0) = some s ∧
      s.cursor_button_status = false ∧ accepts s 1500000 = true ∧
      s.render_data_alloc = some 1 ∧ s.render_data_count + 1 = 1 ∧
      (button_interruption_gpio_irq_handler FloatModel.ideal
        ⟨1500000, true, false, false, true⟩ s).render_data =
          Function.update s.render_data 1 s.viewport) ∧
    (∃ s, run FloatModel.ideal fill_run (init mem0) = some s ∧
      s.cursor_button_status = false ∧ accepts s 3600000 = true ∧
      s.render_data_alloc = some 10 ∧ s.render_data_count + 1 = 10 ∧
      (button_interruption_gpio_irq_handler FloatModel.ideal
        ⟨3600000, true, false, false, true⟩ s).render_data =
          Function.update s.render_data 10 s.viewport) := by
  constructor
  · have key := shrink_run_state
    cases hr : run FloatModel.ideal shrink_run (init mem0) with
    | none =>
      rw [hr] at key
      exact Option.noConfusion key
    | some s =>
      rw [hr] at key
      simp only [Option.map_some', Option.some.injEq, Prod.mk.injEq] at key
      obtain ⟨hm, hacc, hc, hal⟩ := key
      refine ⟨s, rfl, hm, hacc, hal, hc, ?_⟩
      rw [push_index _ s _ hm hacc ⟨rfl, rfl, rfl⟩, hc]
  · have key := fill_run_state
    cases hr : run FloatModel.ideal fill_run (init mem0) with
    | none =>
      rw [hr] at key
      exact Option.noConfusion key
    | some s =>
      rw [hr] at key
      simp only [Option.map_some', Option.some.injEq, Prod.mk.injEq] at key
      obtain ⟨hm, hacc, hc, hal⟩ := key
      refine ⟨s, rfl, hm, hacc, hal, hc, ?_⟩
      rw [push_index _ s _ hm hacc ⟨rfl, rfl, rfl⟩, hc]

/-- Claim C19, which the code does not meet.  The claim: from the cache state at
startup on, the bitmap `draw_mandelbrot` returns is the one its loops compute for
the requested bounds.  The code: the cache has no mark for "never written", and
its zero-initialised bounds are a valid request.  For every rounding that is
monotone and exact on binary32 dyadics, a first call with all four bounds 0 is a
hit on the untouched cache and returns the blank bitmap, while the loops compute
every pixel as on (`c = 0` for each pixel, whose orbit never leaves 0). -/
theorem cold_cache_hit (R : FloatModel) (h : R.Faithful32) (buf : Buffer) :
    draw_mandelbrot R buf 0 0 0 0 (init mem0).raster =
        some (memcpy buf (fun _ => 0), (init mem0).raster) ∧
      (∀ x y, x < 128 → y < 64 → getPixel (memcpy buf (fun _ => 0)) x y = false) ∧
      ∃ b, draw_mandelbrot_loops R 0 0 (R.f32 (R.f32 (0 - 0) / SSD1306_WIDTH))
          (R.f32 (R.f32 (0 - 0) / SSD1306_HEIGHT)) buf = some b ∧
        ∀ x y, x < 128 → y < 64 → getPixel b x y = true := by
  refine ⟨draw_mandelbrot_hit R buf 0 0 0 0 _ ⟨rfl, rfl, rfl, rfl⟩,
    fun x y hx hy => getPixel_memcpy_zero buf x y hx hy, ?_⟩
  obtain ⟨b, e, p, -⟩ := draw_mandelbrot_loops_spec R 0 0
    (R.f32 (R.f32 (0 - 0) / SSD1306_WIDTH)) (R.f32 (R.f32 (0 - 0) / SSD1306_HEIGHT)) buf
  refine ⟨b, e, ?_⟩
  intro x y hx hy
  rw [p x y hx hy, pixelOn_zero_viewport R h]

/-- Witness of C19's failing input in exact arithmetic, on a zeroed buffer. -/
theorem cold_cache_hit_witness :
    draw_mandelbrot FloatModel.ideal (fun _ => 0) 0 0 0 0 (init mem0).raster =
        some (memcpy (fun _ => 0) (fun _ => 0), (init mem0).raster) ∧
      ∃ b, draw_mandelbrot_loops FloatModel.ideal 0 0
          (FloatModel.ideal.f32 (FloatModel.ideal.f32 (0 - 0) / SSD1306_WIDTH))
          (FloatModel.ideal.f32 (FloatModel.ideal.f32 (0 - 0) / SSD1306_HEIGHT))
          (fun _ => 0) = some b ∧
        ∀ x y, x < 128 → y < 64 → getPixel b x y = true :=
  ⟨(cold_cache_hit FloatModel.ideal ideal_faithful32 (fun _ => 0)).1,
    (cold_cache_hit FloatModel.ideal ideal_faithful32 (fun _ => 0)).2.2⟩

/-- Claim C16, which the code does not meet.  The claim: after a repaint the snapshot
equals what was rendered, so the same call again does not repaint.  The code:
`temp_cursor_size` is a `uint8_t` and receives the `int` `new_cursor_size`, which
has no ceiling, and the redraw test compares the two.  After the 256 presses of
`wrap_run` the size is 256; a tick with the readings `(0, 0)` repaints with an
empty cursor and leaves `temp_cursor_size = 0`; the next tick with the same
readings, no button event in between, repaints again. -/
theorem snapshot_wraps :
    run FloatModel.ideal wrap_run (init mem0) = some wrapped ∧
      wrapped.new_cursor_size = 256 ∧
      ∃ s1, controller_repeating_timer_callback FloatModel.ideal 0 0 wrapped = some s1 ∧
        s1.calls = wrapped.calls ++
          [Call.memset, Call.render (frame (memset_zero wrapped.buf)), Call.draw_mandelbrot,
            Call.draw_cursor, Call.render (frame s1.buf)] ∧
        s1.new_cursor_size = 256 ∧ s1.new_width = 0 ∧ s1.temp_cursor_size = 0 ∧
        ∃ s2, controller_repeating_timer_callback FloatModel.ideal 0 0 s1 = some s2 ∧
          s2.calls = s1.calls ++
            [Call.memset, Call.render (frame (memset_zero s1.buf)), Call.draw_mandelbrot,
              Call.draw_cursor, Call.render (frame s2.buf)] := by
  refine ⟨run_wrap_run, rfl, ?_⟩
  have hr : needs_repaint 0 63 wrapped = true := by
    simp [needs_repaint, wrapped, init]
  obtain ⟨bm, k, -, e⟩ := controller_repaint FloatModel.ideal 0 63 wrapped hr
  rw [show (wrapped.new_cursor_size % 256).toNat = 0 from rfl, draw_cursor_empty,
    Option.map_some'] at e
  rw [tick_at_256 wrapped rfl]
  refine ⟨_, e, rfl, rfl, rfl, rfl, ?_⟩
  have hr2 : needs_repaint 0 63
      { wrapped with
        new_height := 0
        new_width := 0
        new_x_position := 0
        new_y_position := 63
        buf := bm
        raster := k
        calls := wrapped.calls ++
          [Call.memset, Call.render (frame (memset_zero wrapped.buf)), Call.draw_mandelbrot,
            Call.draw_cursor, Call.render (frame bm)]
        temp_cursor_x_position := 0
        temp_cursor_y_position := 63
        temp_cursor_size := 0
        temp_real_start := wrapped.real_start
        temp_real_end := wrapped.real_end
        temp_im_start := wrapped.im_start
        temp_im_end := wrapped.im_end } = true := by
    simp [needs_repaint, wrapped, init]
  obtain ⟨bm2, k2, -, e2⟩ := controller_repaint FloatModel.ideal 0 63 _ hr2
  simp only [show (wrapped.new_cursor_size % 256).toNat = 0 from rfl, draw_cursor_empty,
    Option.map_some'] at e2
  rw [tick_at_256 _ rfl]
  exact ⟨_, e2, rfl⟩

/-- Claim C14 as amended: in exact arithmetic, after every run of button events and
timer ticks from the startup state in which each accepted event that zooms
(button A in ZoomAdjust mode) finds a cursor at least two pixels wide and high
and pushes inside the storage of the history, and each accepted event that
undoes (button B in ZoomAdjust mode) has its `realloc` succeed, the viewport has
`real_start < real_end` and `im_start < im_end`, and the history is inside its
storage. -/
theorem viewport_stays_ordered (mem : Int → render_data_t) (evs : List Event) (s : State)
    (hready : run_ready FloatModel.ideal evs (init mem) = true)
    (hrun : run FloatModel.ideal evs (init mem) = some s) :
    s.real_start < s.real_end ∧ s.im_start < s.im_end ∧ StorageInvariant s :=
  ⟨(run_invariant evs (init mem) s (init_invariant mem) hready hrun).1.1,
    (run_invariant evs (init mem) s (init_invariant mem) hready hrun).1.2,
    (run_invariant evs (init mem) s (init_invariant mem) hready hrun).2.2⟩

/-- Witness of C14: the run `zoom_run 1`, whose one zoom is made on the 64 by 64
cursor and pushes entry 0 of the ten entries of `main`. -/
theorem viewport_stays_ordered_witness :
    ∃ s, run FloatModel.ideal (zoom_run 1) (init mem0) = some s ∧
      s.real_start < s.real_end ∧ s.im_start < s.im_end ∧ StorageInvariant s := by
  obtain ⟨s, hs, -⟩ := zoom_run_state 1
  exact ⟨s, hs, viewport_stays_ordered mem0 (zoom_run 1) s run_ready_zoom_run hs⟩

/-- Counterexample to C14 as stated: after the run `dot_run` the cursor is the single
pixel `(0, 62)`, drawn on the screen, and the zoom on it leaves
`real_end = real_start = -2` and `im_end = im_start = 45/32`. -/
theorem zoom_on_one_pixel :
    ∃ s, run FloatModel.ideal dot_run (init mem0) = some s ∧
      s.new_width = 1 ∧ s.new_height = 1 ∧ s.new_x_position = 0 ∧ s.new_y_position = 62 ∧
      s.real_start = -2 ∧ s.real_end = -2 ∧ s.im_start = 45 / 32 ∧ s.im_end = 45 / 32 := by
  have hrun1 : run FloatModel.ideal [press_a 300000] (init mem0) =
      some { init mem0 with new_cursor_size := ((1 : Nat) : Int), last_time := 300000 * 1 } :=
    run_presses 1 (by decide)
  obtain ⟨s1, e1c⟩ := controller_total FloatModel.ideal 0 62
    { init mem0 with new_cursor_size := ((1 : Nat) : Int), last_time := 300000 * 1 }
    (Or.inr ⟨by decide, by decide⟩)
  have e1 : controller_repeating_timer_callback FloatModel.ideal 0 0
      { init mem0 with new_cursor_size := ((1 : Nat) : Int), last_time := 300000 * 1 } =
      some s1 := by
    unfold controller_repeating_timer_callback
    rw [x_cursor_zero]
    show controller FloatModel.ideal 0 (y_cursor FloatModel.ideal 0 1) _ = _
    rw [y_cursor_1, e1c]
  obtain ⟨fx, fy, fw, fh, frs, fre, fis, fie, -, fm, -, -, -, fl, -⟩ :=
    controller_frame _ _ _ _ _ e1c
  have hacc : accepts s1 600000 = true := by
    simp only [accepts, fl, decide_eq_true_eq]
    decide
  have e2 : button_interruption_gpio_irq_handler FloatModel.ideal
      ⟨600000, false, false, true, true⟩ s1 =
      on_button_sw { s1 with last_time := 600000 % 2 ^ 32 } := by
    rw [handler_of_accepts _ _ s1 hacc, accepted_body_sw _ _ _ rfl rfl rfl]
  have hacc3 : accepts (on_button_sw { s1 with last_time := 600000 % 2 ^ 32 }) 900000 = true := by
    simp only [accepts, on_button_sw, decide_eq_true_eq]
    decide
  have hm3 : (on_button_sw { s1 with last_time := 600000 % 2 ^ 32 }).cursor_button_status
      = false := by
    simp only [on_button_sw, fm]
    rfl
  have e3 : button_interruption_gpio_irq_handler FloatModel.ideal
      ⟨900000, true, false, false, true⟩ (on_button_sw { s1 with last_time := 600000 % 2 ^ 32 }) =
      on_button_a FloatModel.ideal
        { on_button_sw { s1 with last_time := 600000 % 2 ^ 32 } with
          last_time := 900000 % 2 ^ 32 } := by
    rw [handler_of_accepts _ _ _ hacc3, accepted_body_a _ _ _ rfl rfl rfl]
  have hrun : run FloatModel.ideal dot_run (init mem0) =
      some (on_button_a FloatModel.ideal
        { on_button_sw { s1 with last_time := 600000 % 2 ^ 32 } with
          last_time := 900000 % 2 ^ 32 }) := by
    show run FloatModel.ideal ([press_a 300000] ++ [Event.tick 0 0, press_sw 600000,
      press_a 900000]) (init mem0) = _
    rw [run_append, hrun1]
    simp only [Option.some_bind, run, step, e1, press_sw, press_a, e2, e3]
  refine ⟨_, hrun, ?_⟩
  · have fw1 : s1.new_width = 1 := fw.trans rfl
    have fh1 : s1.new_height = 1 := fh.trans rfl
    have frs1 : s1.real_start = -2 := frs.trans rfl
    have fre1 : s1.real_end = 1 := fre.trans rfl
    have fis1 : s1.im_start = -3 / 2 := fis.trans rfl
    have fie1 : s1.im_end = 3 / 2 := fie.trans rfl
    rw [on_button_a_zoom _ _ (by exact hm3)]
    simp only [zoom_in, on_button_sw, FloatModel.ideal, id, fx, fy, fw1, fh1, frs1, fre1, fis1,
      fie1]
    refine ⟨trivial, trivial, trivial, trivial, ?_, ?_, ?_, ?_⟩ <;> norm_num

end PicoMandelbrot
